import Mathlib

/-!
# finance-tracker-front: a shallow embedding of `script.js`

The single source file `script.js` is a browser client: module-level arrays cache the
last fetched expenses, categories and users, filter functions select a part of a cache
from the values of the filter inputs, display functions turn a list into table rows, and
load functions fetch a collection and replace a cache.

Conventions of the embedding.

* JavaScript strings are `String`; `includes` is containment of the character sequence.
* Built-ins whose result depends on Unicode tables, on the locale or on the time zone of
  the browser are fields of `JSEnv`; every theorem holds for every such environment.
* A Number is `JSNumber`: a finite double `m * 2^e`, an infinity or NaN. The sign of
  zero is not kept: no function of the program tells `-0` from `0`.
* The `amount` of an expense is an `Amount`: a Number or a text, as the response body
  carries it; `parseFloat` gives its Number value and `amountToString` its string form.
* Identifiers (`expense_id`, `category_id`, `user_id`) are natural numbers.
* An optional property is an `Option`; `none` stands for an absent or `null` property.
* `tbody.innerHTML = rows.join("")` is kept as the list of row fragments.
-/

set_option autoImplicit false

/-! ## Strings -/

/-- The built-ins of the browser that the program calls and that are fixed by data
outside the program: Unicode case mapping, date parsing of strings that are not in the
ECMAScript date-time format, local-time calendar fields and locale formatting. -/
structure JSEnv where
  /-- `String.prototype.toLowerCase`. -/
  toLowerCase : String → String
  /-- Lower-casing the empty string gives the empty string. -/
  toLowerCase_empty : toLowerCase "" = ""
  /-- `Date.parse` on a string outside the UTC forms of the ECMAScript date-time
  format (`none` is NaN). -/
  dateParseOther : String → Option ℤ
  /-- `Date.prototype.toLocaleDateString("en-US", ...)` of a time value. -/
  toLocaleDateString : Option ℤ → String
  /-- `Date.prototype.getMonth` of a time value, in local time (`none` is NaN). -/
  getMonth : Option ℤ → Option ℕ
  /-- `Date.prototype.getFullYear` of a time value, in local time (`none` is NaN). -/
  getFullYear : Option ℤ → Option ℤ
  /-- Time value of `new Date()`: the current instant. -/
  now : ℤ

/-- `s.includes(t)`: `t` occurs in `s` as a contiguous run of characters. -/
def includes (s t : String) : Bool := decide (t.data <:+: s.data)

/-- `o?.toLowerCase().includes(search)` for an optional string property: `undefined`
(falsy) when the property is absent. -/
def optIncludesLower (env : JSEnv) (o : Option String) (search : String) : Bool :=
  match o with
  | none => false
  | some s => includes (env.toLowerCase s) search

/-- `o || fallback` for an optional string property: the fallback replaces an absent
property and the empty string. -/
def orElseText (o : Option String) (fallback : String) : String :=
  match o with
  | none => fallback
  | some s => if s = "" then fallback else s

/-- Text of an optional string property inside a template literal. -/
def templateText (o : Option String) : String :=
  match o with
  | none => "undefined"
  | some s => s

/-- Decimal digits of a natural number, most significant first (`0` gives `0`). -/
def decimalDigits (n : ℕ) : List Char := Nat.toDigits 10 n

/-- Text of a natural-number identifier inside a template literal. -/
def idText (n : ℕ) : String := String.mk (decimalDigits n)

/-! ## Numbers -/

/-- A Number value. `finite m e` is the double with mathematical value `m * 2^e`. -/
inductive JSNumber where
  | finite (m : ℤ) (e : ℤ)
  | posInf
  | negInf
  | nan
deriving DecidableEq

namespace JSNumber

/-- Number of binary digits of a natural number (with fuel at least that number). -/
def bitLength : ℕ → ℕ → ℕ
  | 0, _ => 0
  | fuel + 1, a => if a = 0 then 0 else bitLength fuel (a / 2) + 1

/-- The value is that of an IEEE-754 double: at most 53 significant bits and an
exponent in range; the non-finite values are Number values too. -/
def isDouble : JSNumber → Bool
  | finite m e => decide (m.natAbs < 2 ^ 53) && decide (-1074 ≤ e) && decide (e ≤ 971)
  | _ => true

/-- Numerator of `|m * 2^e|` written as a fraction of naturals. -/
def absNum (m e : ℤ) : ℕ := m.natAbs * 2 ^ e.toNat

/-- Denominator of `|m * 2^e|` written as a fraction of naturals. -/
def absDen (e : ℤ) : ℕ := 2 ^ (-e).toNat

/-- The number is finite and not negative. -/
def isNonNegative : JSNumber → Bool
  | finite m _ => decide (0 ≤ m)
  | _ => false

/-- The number is finite and below `10^21`. -/
def isBelow1e21 : JSNumber → Bool
  | finite m e => decide (absNum m e < 10 ^ 21 * absDen e)
  | _ => false

end JSNumber

/-- Compare `s * 10^p` with `y * 2^b` (either exponent may be negative). -/
def cmpDecBin (s : ℕ) (p : ℤ) (y : ℕ) (b : ℤ) : Ordering :=
  compare (s * 10 ^ p.toNat * 2 ^ (-b).toNat) (y * 2 ^ b.toNat * 10 ^ (-p).toNat)

/-- Count of zeros directly after the decimal point of `num / den < 1`. -/
def leadingZeros : ℕ → ℕ → ℕ → ℕ → ℕ
  | 0, _, _, j => j
  | fuel + 1, num, den, j =>
    if den ≤ num * 10 ^ (j + 1) then j else leadingZeros fuel num den (j + 1)

/-- The integer `N` with `10^(N-1) ≤ num/den < 10^N`, for a positive fraction. -/
def decimalExponent (num den : ℕ) : ℤ :=
  if den ≤ num then ((decimalDigits (num / den)).length : ℤ)
  else -((leadingZeros 400 num den 0 : ℕ) : ℤ)

/-- Remove the trailing zeros of a decimal significand, raising the power of ten. -/
def stripZeros : ℕ → ℕ → ℤ → ℕ × ℤ
  | 0, s, p => (s, p)
  | fuel + 1, s, p =>
    if s ≠ 0 ∧ s % 10 = 0 then stripZeros fuel (s / 10) (p + 1) else (s, p)

/-- The rounding interval of the positive double `a * 2^e`, in units of `2^b`:
`(b, X, LO, HI, even)` with the double at `X`, the midpoints to its two neighbours at
`LO` and `HI`, and `even` telling whether its significand is even (a midpoint converts
to the neighbour with the even significand). -/
def roundingInterval (a : ℕ) (e : ℤ) : ℤ × ℕ × ℕ × ℕ × Bool :=
  let L := JSNumber.bitLength (a + 1) a
  let e2 : ℤ := max (e + L - 53) (-1074)
  let b : ℤ := min e (e2 - 2)
  let X := a * 2 ^ (e - b).toNat
  let q := 2 ^ (e2 - 2 - b).toNat
  let boundary := decide (a = 2 ^ (L - 1)) && decide (-1074 < e2)
  let even := decide (e2 < e) || decide (a % 2 = 0)
  (b, X, X - (if boundary then q else 2 * q), X + 2 * q, even)

/-- Does the decimal `s * 10^p` convert to the double with the given interval? -/
def roundsTo (iv : ℤ × ℕ × ℕ × ℕ × Bool) (s : ℕ) (p : ℤ) : Bool :=
  let (b, _, lo, hi, even) := iv
  match cmpDecBin s p lo b, cmpDecBin s p hi b with
  | .gt, .lt => true
  | .eq, _ => even
  | _, .eq => even
  | _, _ => false

/-- Search for the shortest significand, trying `k`, `k+1`, ... digits; between two
significands of the same length the one closer to the double is taken. -/
def shortestFrom (iv : ℤ × ℕ × ℕ × ℕ × Bool) (N : ℤ) : ℕ → ℕ → ℕ × ℤ
  | 0, k =>
    let (b, X, _, _, _) := iv
    let p := N - k
    ((X * 2 ^ b.toNat * 10 ^ (-p).toNat) / (10 ^ p.toNat * 2 ^ (-b).toNat), p)
  | fuel + 1, k =>
    let (b, X, _, _, _) := iv
    let p := N - k
    let sLow := (X * 2 ^ b.toNat * 10 ^ (-p).toNat) / (10 ^ p.toNat * 2 ^ (-b).toNat)
    let okLow := roundsTo iv sLow p
    let okHigh := roundsTo iv (sLow + 1) p
    if okLow && okHigh then
      match cmpDecBin (2 * sLow + 1) p (2 * X) b with
      | .gt => (sLow, p)
      | .lt => (sLow + 1, p)
      | .eq => if sLow % 2 = 0 then (sLow, p) else (sLow + 1, p)
    else if okLow then (sLow, p)
    else if okHigh then (sLow + 1, p)
    else shortestFrom iv N fuel (k + 1)

/-- The integers `(s, n)` of Number::toString for the positive double `a * 2^e`: `s` has
`k` digits and no trailing zero, `s * 10^(n-k)` converts to the double, `k` is least. -/
def shortestDecimal (a : ℕ) (e : ℤ) : ℕ × ℤ :=
  let N := decimalExponent (a * 2 ^ e.toNat) (2 ^ (-e).toNat)
  let (s, p) := shortestFrom (roundingInterval a e) N 17 1
  let (s1, p1) := stripZeros 400 s p
  (s1, p1 + (decimalDigits s1).length)

/-- Number::toString of ECMAScript (radix 10) for the positive double `a * 2^e`. -/
def positiveToString (a : ℕ) (e : ℤ) : String :=
  let (s, n) := shortestDecimal a e
  let ds := decimalDigits s
  let k : ℤ := ds.length
  if k ≤ n ∧ n ≤ 21 then
    String.mk (ds ++ List.replicate (n - k).toNat '0')
  else if 0 < n ∧ n ≤ 21 then
    String.mk (ds.take n.toNat ++ '.' :: ds.drop n.toNat)
  else if -6 < n ∧ n ≤ 0 then
    String.mk ('0' :: '.' :: List.replicate (-n).toNat '0' ++ ds)
  else
    let ex := (if 0 ≤ n - 1 then "+" else "-") ++ String.mk (decimalDigits (n - 1).natAbs)
    if k = 1 then String.mk ds ++ "e" ++ ex
    else String.mk (ds.take 1 ++ '.' :: ds.drop 1) ++ "e" ++ ex

/-- Number::toString of ECMAScript (radix 10): `amount.toString()` and the text of a
Number inside a template literal. -/
def numberToString : JSNumber → String
  | .nan => "NaN"
  | .posInf => "Infinity"
  | .negInf => "-Infinity"
  | .finite m e =>
    if m = 0 then "0"
    else (if m < 0 then "-" else "") ++ positiveToString m.natAbs e

/-- `Number.prototype.toFixed(f)` of ECMAScript: a non-finite value and a value of
magnitude `10^21` or more are written by Number::toString; otherwise the integer `n`
nearest to `|x| * 10^f` (the larger one on a tie) is written with `f` digits after the
point. -/
def toFixed (x : JSNumber) (f : ℕ) : String :=
  match x with
  | .finite m e =>
    let s := if m < 0 then "-" else ""
    let num := JSNumber.absNum m e
    let den := JSNumber.absDen e
    if 10 ^ 21 * den ≤ num then s ++ positiveToString m.natAbs e
    else
      let n := (2 * num * 10 ^ f + den) / (2 * den)
      let digits := decimalDigits n
      let padded :=
        if digits.length ≤ f then List.replicate (f + 1 - digits.length) '0' ++ digits
        else digits
      let text :=
        if f = 0 then digits
        else padded.take (padded.length - f) ++ '.' :: padded.drop (padded.length - f)
      s ++ String.mk text
  | other => numberToString other

/-- The double nearest to the fraction `num / den` with the given sign: round to
nearest, a tie to the even significand, overflow to an infinity. -/
def roundToDouble (negative : Bool) (num den : ℕ) : JSNumber :=
  if num = 0 then .finite 0 0
  else
    let d : ℤ := (JSNumber.bitLength (num + 1) num : ℤ) - (JSNumber.bitLength (den + 1) den : ℤ)
    let lg : ℤ := if den * 2 ^ d.toNat ≤ num * 2 ^ (-d).toNat then d else d - 1
    let e2 : ℤ := max (lg - 52) (-1074)
    let n := num * 2 ^ (-e2).toNat
    let dd := den * 2 ^ e2.toNat
    let q := n / dd
    let r := n % dd
    let q1 := if dd < 2 * r ∨ (2 * r = dd ∧ q % 2 = 1) then q + 1 else q
    let (m, e) := if q1 = 2 ^ 53 then (2 ^ 52, e2 + 1) else (q1, e2)
    if 971 < e then (if negative then .negInf else .posInf)
    else .finite (if negative then -(m : ℤ) else (m : ℤ)) e

/-- The property `amount` of an expense as the response body carries it: a JSON number,
or a JSON string (the text of a decimal column). The program passes it through
`parseFloat` at every numeric use and calls `toString()` on it in the search. -/
inductive Amount where
  | number (x : JSNumber)
  | text (s : String)
deriving DecidableEq

/-- The code points that `parseFloat` skips at the start of its argument: WhiteSpace and
LineTerminator of ECMAScript. -/
def isStrWhiteSpace (c : Char) : Bool :=
  [9, 10, 11, 12, 13, 32, 160, 5760, 8232, 8233, 8239, 8287, 12288, 65279].contains c.toNat ||
    (decide (8192 ≤ c.toNat) && decide (c.toNat ≤ 8202))

/-- The longest run of decimal digits at the start of a text, and what follows it. -/
def takeDigits : List Char → List Char × List Char
  | [] => ([], [])
  | c :: cs =>
    if c.isDigit then ((c :: (takeDigits cs).1), (takeDigits cs).2) else ([], c :: cs)

/-- The value of a run of decimal digits (`0` for the empty run). -/
def digitsValue (ds : List Char) : ℕ :=
  ds.foldl (fun n c => 10 * n + (c.toNat - 48)) 0

/-- The value of the digits of an ExponentPart after its indicator and sign; `0` when no
digit follows, since the exponent part then does not belong to the literal. -/
def exponentValue (negative : Bool) (cs : List Char) : ℤ :=
  let ds := (takeDigits cs).1
  if ds = [] then 0 else if negative then -(digitsValue ds : ℤ) else (digitsValue ds : ℤ)

/-- The value of the ExponentPart at the start of a text: `e` or `E`, an optional sign
and digits; `0` when the text does not start with a complete exponent part. -/
def exponentPart : List Char → ℤ
  | [] => 0
  | c :: rest =>
    if c = 'e' ∨ c = 'E' then
      match rest with
      | [] => 0
      | s :: r =>
        if s = '+' then exponentValue false r
        else if s = '-' then exponentValue true r
        else exponentValue false (s :: r)
    else 0

/-- The Number of the longest prefix that is a StrUnsignedDecimalLiteral (`Infinity`,
digits with an optional fraction and exponent, or a fraction starting with the point),
with the given sign; NaN when no prefix is such a literal. The mathematical value is
rounded to the nearest double. -/
def parseUnsignedDecimal (negative : Bool) (cs : List Char) : JSNumber :=
  if "Infinity".data <+: cs then (if negative then .negInf else .posInf)
  else
    let intDigits := (takeDigits cs).1
    let rest := (takeDigits cs).2
    let hasPoint := decide (rest.head? = some '.')
    let fracDigits := if hasPoint then (takeDigits rest.tail).1 else []
    let afterFraction := if hasPoint then (takeDigits rest.tail).2 else rest
    if intDigits = [] ∧ fracDigits = [] then .nan
    else
      let mantissa := digitsValue (intDigits ++ fracDigits)
      let exp10 : ℤ := exponentPart afterFraction - (fracDigits.length : ℤ)
      roundToDouble negative (mantissa * 10 ^ exp10.toNat) (10 ^ (-exp10).toNat)

/-- `parseFloat(s)` for a String argument: leading white space is skipped, then the
longest prefix that is a StrDecimalLiteral is read; NaN when there is none. -/
def parseFloatText (s : String) : JSNumber :=
  match s.data.dropWhile isStrWhiteSpace with
  | [] => .nan
  | c :: rest =>
    if c = '+' then parseUnsignedDecimal false rest
    else if c = '-' then parseUnsignedDecimal true rest
    else parseUnsignedDecimal false (c :: rest)

/-- `parseFloat(amount)`: a Number argument is converted by Number::toString and read
back, which gives the same value; a String argument is parsed. -/
def parseFloat (amount : Amount) : JSNumber :=
  match amount with
  | .number x => x
  | .text s => parseFloatText s

/-- `amount.toString()`: Number::toString for a Number, the text itself for a String. -/
def amountToString (amount : Amount) : String :=
  match amount with
  | .number x => numberToString x
  | .text s => s

/-- The text `$${parseFloat(amount).toFixed(2)}` that `displayExpenses`,
`displayRecentExpenses` and `displayExpenseDetails` render for an amount. -/
def currencyText (amount : Amount) : String := "$" ++ toFixed (parseFloat amount) 2

/-! ## Dates -/

/-- Milliseconds per day. -/
def msPerDay : ℤ := 86400000

/-- Value of a decimal digit character. -/
def digitValue (c : Char) : Option ℕ :=
  if c.isDigit then some (c.toNat - 48) else none

/-- Value of a run of two decimal digit characters. -/
def twoDigits (a b : Char) : Option ℕ :=
  match digitValue a, digitValue b with
  | some x, some y => some (10 * x + y)
  | _, _ => none

/-- Leap years of the Gregorian calendar. -/
def isLeapYear (y : ℕ) : Bool := (y % 4 == 0 && y % 100 != 0) || y % 400 == 0

/-- Number of days of a month (1 to 12) in a year; `0` for no month. -/
def daysInMonth (y month : ℕ) : ℕ :=
  match month with
  | 1 => 31
  | 2 => if isLeapYear y then 29 else 28
  | 3 => 31
  | 4 => 30
  | 5 => 31
  | 6 => 30
  | 7 => 31
  | 8 => 31
  | 9 => 30
  | 10 => 31
  | 11 => 30
  | 12 => 31
  | _ => 0

/-- DayFromYear of ECMAScript: day number of the first day of year `y`. -/
def dayFromYear (y : ℤ) : ℤ :=
  365 * (y - 1970) + (y - 1969) / 4 - (y - 1901) / 100 + (y - 1601) / 400

/-- Day number (days since 1970-01-01) of a calendar date. -/
def makeDay (y month d : ℕ) : ℤ :=
  dayFromYear y + (((List.range (month - 1)).map (fun i => daysInMonth y (i + 1))).sum : ℕ)
    + ((d : ℤ) - 1)

/-- Time value of the calendar date `YYYY-MM-DD` at 00:00 UTC; `none` when the
characters are not digits or the date does not exist. -/
def parseDateOnly (y1 y2 y3 y4 m1 m2 d1 d2 : Char) : Option ℤ :=
  match twoDigits y1 y2, twoDigits y3 y4, twoDigits m1 m2, twoDigits d1 d2 with
  | some yh, some yl, some month, some d =>
    let y := 100 * yh + yl
    if 1 ≤ month ∧ month ≤ 12 ∧ 1 ≤ d ∧ d ≤ daysInMonth y month then
      some (makeDay y month d * msPerDay)
    else none
  | _, _, _, _ => none

/-- Milliseconds into the day of `HH:mm:ss.sss`; `none` when out of range. -/
def parseTimeOfDay (h1 h2 n1 n2 s1 s2 f1 f2 f3 : Char) : Option ℤ :=
  match twoDigits h1 h2, twoDigits n1 n2, twoDigits s1 s2, digitValue f1, twoDigits f2 f3 with
  | some h, some mi, some s, some fh, some fl =>
    if h ≤ 23 ∧ mi ≤ 59 ∧ s ≤ 59 then
      some ((h : ℤ) * 3600000 + (mi : ℤ) * 60000 + (s : ℤ) * 1000 + (100 * fh + fl : ℕ))
    else none
  | _, _, _, _, _ => none

/-- Milliseconds into the day given by what follows the date in a UTC date-time form:
nothing (the date-only form, read as UTC midnight), `THH:mmZ`, `THH:mm:ssZ` or
`THH:mm:ss.sssZ`. -/
def parseTimeSuffix (rest : List Char) : Option ℤ :=
  match rest with
  | [] => some 0
  | [t, h1, h2, c1, n1, n2, z] =>
    if t = 'T' ∧ c1 = ':' ∧ z = 'Z' then parseTimeOfDay h1 h2 n1 n2 '0' '0' '0' '0' '0'
    else none
  | [t, h1, h2, c1, n1, n2, c2, s1, s2, z] =>
    if t = 'T' ∧ c1 = ':' ∧ c2 = ':' ∧ z = 'Z' then
      parseTimeOfDay h1 h2 n1 n2 s1 s2 '0' '0' '0'
    else none
  | [t, h1, h2, c1, n1, n2, c2, s1, s2, c3, f1, f2, f3, z] =>
    if t = 'T' ∧ c1 = ':' ∧ c2 = ':' ∧ c3 = '.' ∧ z = 'Z' then
      parseTimeOfDay h1 h2 n1 n2 s1 s2 f1 f2 f3
    else none
  | _ => none

/-- The time value of a string in one of the UTC forms of the ECMAScript date-time
string format: the date-only form `YYYY-MM-DD` (read as UTC midnight) and the date-time
forms `YYYY-MM-DDTHH:mmZ`, `YYYY-MM-DDTHH:mm:ssZ` and `YYYY-MM-DDTHH:mm:ss.sssZ`. -/
def parseIsoUtc (s : String) : Option ℤ :=
  match s.data with
  | y1 :: y2 :: y3 :: y4 :: c1 :: m1 :: m2 :: c2 :: d1 :: d2 :: rest =>
    if c1 = '-' ∧ c2 = '-' then
      match parseDateOnly y1 y2 y3 y4 m1 m2 d1 d2, parseTimeSuffix rest with
      | some day, some t => some (day + t)
      | _, _ => none
    else none
  | _ => none

/-- Time value of `new Date(s)` for a string `s` (`none` is an invalid date): fixed by
the language for the UTC forms of the date-time format, by the browser otherwise. -/
def newDate (env : JSEnv) (s : String) : Option ℤ :=
  match parseIsoUtc s with
  | some t => some t
  | none => env.dateParseOther s

/-- `a >= b` on two dates: a comparison of time values, false when either is invalid. -/
def dateGe (a b : Option ℤ) : Bool :=
  match a, b with
  | some x, some y => decide (y ≤ x)
  | _, _ => false

/-- `a <= b` on two dates: a comparison of time values, false when either is invalid. -/
def dateLe (a b : Option ℤ) : Bool :=
  match a, b with
  | some x, some y => decide (x ≤ y)
  | _, _ => false

/-- Day(t) of ECMAScript: the UTC day number of a time value. -/
def utcDay (t : ℤ) : ℤ := t / msPerDay

/-- Source function `formatDate` (lines 902-909). -/
def formatDate (env : JSEnv) (dateString : String) : String :=
  env.toLocaleDateString (newDate env dateString)

/-! ## Data model -/

/-- An expense as the expenses endpoints return it. -/
structure Expense where
  expense_id : ℕ
  amount : Amount
  categories : Option String
  store_name : Option String
  expense_date : String
  description : Option String
  first_name : Option String
  last_name : Option String
deriving DecidableEq

/-- A category as the categories endpoint returns it. `category_name` is a property the
admin table reads; nothing else in the program reads or writes it. -/
structure Category where
  category_id : ℕ
  name : String
  description : Option String
  created_at : String
  category_name : Option String
deriving DecidableEq

/-- A user as the users endpoint and the stored profile give it. -/
structure User where
  user_id : ℕ
  first_name : String
  last_name : String
  role : String
  created_at : String
deriving DecidableEq

/-! ## View renderer -/

/-- The row template of `displayExpenses` (lines 259-272) for one expense. -/
def expenseRow (env : JSEnv) (expense : Expense) : String :=
  "\n" ++
  "        <tr onclick=\"openExpenseDetailModal(" ++
  idText expense.expense_id ++
  ")\" style=\"cursor: pointer;\" title=\"Click to view details\">\n" ++
  "            <td>" ++
  idText expense.expense_id ++
  "</td>\n" ++
  "            <td>" ++
  currencyText expense.amount ++
  "</td>\n" ++
  "            <td>" ++
  orElseText expense.categories "N/A" ++
  "</td>\n" ++
  "            <td>" ++
  orElseText expense.store_name "-" ++
  "</td>\n" ++
  "            <td>" ++
  formatDate env expense.expense_date ++
  "</td>\n" ++
  "            <td>" ++
  orElseText expense.description "-" ++
  "</td>\n" ++
  "            <td class=\"table-actions\">\n" ++
  "                <button class=\"btn btn-small btn-secondary\" onclick=\"event.stopPropagation(); openEditExpenseModal(" ++
  idText expense.expense_id ++
  ")\">Edit</button>\n" ++
  "                <button class=\"btn btn-small btn-danger\" onclick=\"event.stopPropagation(); deleteExpense(" ++
  idText expense.expense_id ++
  ")\">Delete</button>\n" ++
  "            </td>\n" ++
  "        </tr>\n" ++
  "    "

/-- The row template of `displayCategories` (lines 415-426) for one category; the
name cell reads the property `category_name`. -/
def categoryRow (env : JSEnv) (category : Category) : String :=
  "\n" ++
  "        <tr>\n" ++
  "            <td>" ++
  idText category.category_id ++
  "</td>\n" ++
  "            <td>" ++
  templateText category.category_name ++
  "</td>\n" ++
  "            <td>" ++
  orElseText category.description "-" ++
  "</td>\n" ++
  "            <td>" ++
  formatDate env category.created_at ++
  "</td>\n" ++
  "            <td class=\"table-actions\">\n" ++
  "                <button class=\"btn btn-small btn-secondary\" onclick=\"openEditCategoryModal(" ++
  idText category.category_id ++
  ")\">Edit</button>\n" ++
  "                <button class=\"btn btn-small btn-danger\" onclick=\"deleteCategory(" ++
  idText category.category_id ++
  ")\">Delete</button>\n" ++
  "            </td>\n" ++
  "        </tr>\n" ++
  "    "

/-- The row template of `displayMyCategories` (lines 533-544) for one category. -/
def myCategoryRow (env : JSEnv) (category : Category) : String :=
  "\n" ++
  "        <tr>\n" ++
  "            <td>" ++
  idText category.category_id ++
  "</td>\n" ++
  "            <td>" ++
  category.name ++
  "</td>\n" ++
  "            <td>" ++
  orElseText category.description "-" ++
  "</td>\n" ++
  "            <td>" ++
  formatDate env category.created_at ++
  "</td>\n" ++
  "            <td class=\"table-actions\">\n" ++
  "                <button class=\"btn btn-small btn-secondary\" onclick=\"openEditCategoryModal(" ++
  idText category.category_id ++
  ")\">Edit</button>\n" ++
  "                <button class=\"btn btn-small btn-danger\" onclick=\"deleteMyCategoryWithRefresh(" ++
  idText category.category_id ++
  ")\">Delete</button>\n" ++
  "            </td>\n" ++
  "        </tr>\n" ++
  "    "

/-- The row template of `displayUsers` (lines 615-627) for one user; the Delete button
of the row of the signed-in user is disabled. -/
def userRow (env : JSEnv) (currentUser : User) (user : User) : String :=
  "\n" ++
  "        <tr>\n" ++
  "            <td>" ++
  idText user.user_id ++
  "</td>\n" ++
  "            <td>" ++
  user.first_name ++
  "</td>\n" ++
  "            <td>" ++
  user.last_name ++
  "</td>\n" ++
  "            <td><span style=\"text-transform: capitalize;\">" ++
  user.role ++
  "</span></td>\n" ++
  "            <td>" ++
  formatDate env user.created_at ++
  "</td>\n" ++
  "            <td class=\"table-actions\">\n" ++
  "                <button class=\"btn btn-small btn-secondary\" onclick=\"openEditUserModal(" ++
  idText user.user_id ++
  ")\">Edit</button>\n" ++
  "                <button class=\"btn btn-small btn-danger\" onclick=\"deleteUser(" ++
  idText user.user_id ++
  ")\" " ++
  (if user.user_id = currentUser.user_id then "disabled" else "") ++
  ">Delete</button>\n" ++
  "            </td>\n" ++
  "        </tr>\n" ++
  "    "

/-- The card template of `displayRecentExpenses` (lines 791-800) for one expense. -/
def recentExpenseItem (env : JSEnv) (expense : Expense) : String :=
  "\n" ++
  "        <div class=\"expense-item\" onclick=\"openExpenseDetailModal(" ++
  idText expense.expense_id ++
  ")\" style=\"cursor: pointer;\">\n" ++
  "            <div class=\"expense-details\">\n" ++
  "                <div class=\"expense-category\">" ++
  orElseText expense.categories "Uncategorized" ++
  "</div>\n" ++
  "                <div class=\"expense-description\">" ++
  orElseText expense.description "No description" ++
  "</div>\n" ++
  "                <div class=\"expense-date\">" ++
  formatDate env expense.expense_date ++
  "</div>\n" ++
  "            </div>\n" ++
  "            <div class=\"expense-amount\">" ++
  currencyText expense.amount ++
  "</div>\n" ++
  "        </div>\n" ++
  "    "


/-- Source function `displayExpenses` (lines 251-273): the new content of
`expensesTableBody`, one fragment per table row. -/
def displayExpenses (env : JSEnv) (expensesToShow : List Expense) : List String :=
  if expensesToShow.length = 0 then
    ["<tr><td colspan=\"7\" class=\"no-data\">No expenses found</td></tr>"]
  else expensesToShow.map (expenseRow env)

/-- Source function `displayCategories` (lines 407-427): the new content of
`categoriesTableBody`. -/
def displayCategories (env : JSEnv) (categoriesToShow : List Category) : List String :=
  if categoriesToShow.length = 0 then
    ["<tr><td colspan=\"5\" class=\"no-data\">No categories found</td></tr>"]
  else categoriesToShow.map (categoryRow env)

/-- Source function `displayMyCategories` (lines 525-545): the new content of
`myCategoriesTableBody`. -/
def displayMyCategories (env : JSEnv) (categoriesToShow : List Category) : List String :=
  if categoriesToShow.length = 0 then
    ["<tr><td colspan=\"5\" class=\"no-data\">No categories found</td></tr>"]
  else categoriesToShow.map (myCategoryRow env)

/-- Source function `displayUsers` (lines 607-628): the new content of `usersTableBody`;
`none` when a row is rendered while `currentUser` is `null` (reading
`currentUser.user_id` throws and nothing is assigned). -/
def displayUsers (env : JSEnv) (currentUser : Option User) (usersToShow : List User) :
    Option (List String) :=
  if usersToShow.length = 0 then
    some ["<tr><td colspan=\"6\" class=\"no-data\">No users found</td></tr>"]
  else
    match currentUser with
    | none => none
    | some cu => some (usersToShow.map (userRow env cu))

/-- Source function `displayRecentExpenses` (lines 783-801): the new content of
`recentExpensesList`, one fragment per card. -/
def displayRecentExpenses (env : JSEnv) (recentExpenses : List Expense) : List String :=
  if recentExpenses.length = 0 then
    ["<p style=\"text-align: center; color: var(--text-light); padding: 2rem;\">No expenses yet</p>"]
  else recentExpenses.map (recentExpenseItem env)

/-- The placeholder fragments that the display functions render for no data (the two
category tables share one). -/
def placeholders : List String :=
  ["<tr><td colspan=\"7\" class=\"no-data\">No expenses found</td></tr>",
   "<tr><td colspan=\"5\" class=\"no-data\">No categories found</td></tr>",
   "<tr><td colspan=\"6\" class=\"no-data\">No users found</td></tr>",
   "<p style=\"text-align: center; color: var(--text-light); padding: 2rem;\">No expenses yet</p>"]

/-- Number of placeholder records among rendered fragments. -/
def placeholderCount (rows : List String) : ℕ :=
  (rows.filter (fun row => decide (row ∈ placeholders))).length

/-- The fields of the expense detail modal that `displayExpenseDetails` writes. -/
structure ExpenseDetailModal where
  detailExpenseId : String
  detailExpenseAmount : String
  detailExpenseCategory : String
  detailExpenseDate : String
  detailExpenseStoreName : String
  detailExpenseDescription : String
  detailExpenseUser : String
  detailUserRowDisplay : String
  active : Bool
deriving DecidableEq

/-- JavaScript truthiness of an optional string property. -/
def truthy (o : Option String) : Bool :=
  match o with
  | none => false
  | some s => decide (s ≠ "")

/-- Source function `displayExpenseDetails` (lines 1037-1055). -/
def displayExpenseDetails (env : JSEnv) (expense : Expense) (modal : ExpenseDetailModal) :
    ExpenseDetailModal :=
  let modal := { modal with
    detailExpenseId := idText expense.expense_id
    detailExpenseAmount := currencyText expense.amount
    detailExpenseCategory := orElseText expense.categories "Uncategorized"
    detailExpenseDate := formatDate env expense.expense_date
    detailExpenseStoreName := orElseText expense.store_name "Not specified"
    detailExpenseDescription := orElseText expense.description "No description provided" }
  let modal :=
    if truthy expense.first_name && truthy expense.last_name then
      { modal with
        detailExpenseUser := templateText expense.first_name ++ " " ++ templateText expense.last_name
        detailUserRowDisplay := "flex" }
    else { modal with detailUserRowDisplay := "none" }
  { modal with active := true }

/-! ## Number arithmetic of the dashboard -/

namespace JSNumber

/-- The Number `x + y`. -/
def add (x y : JSNumber) : JSNumber :=
  match x, y with
  | nan, _ => nan
  | _, nan => nan
  | posInf, negInf => nan
  | negInf, posInf => nan
  | posInf, _ => posInf
  | _, posInf => posInf
  | negInf, _ => negInf
  | _, negInf => negInf
  | finite m1 e1, finite m2 e2 =>
    let e := min e1 e2
    let s := m1 * 2 ^ (e1 - e).toNat + m2 * 2 ^ (e2 - e).toNat
    roundToDouble (decide (s < 0)) (s.natAbs * 2 ^ e.toNat) (2 ^ (-e).toNat)

/-- The Number `x / n` for a positive integer `n`. -/
def divNat (x : JSNumber) (n : ℕ) : JSNumber :=
  match x with
  | finite m e => roundToDouble (decide (m < 0)) (m.natAbs * 2 ^ e.toNat) (n * 2 ^ (-e).toNat)
  | other => other

end JSNumber

/-! ## Application state -/

/-- A call of `fetch`: the method (`GET` when the options name none), the URL and the
`credentials` option. -/
structure Request where
  method : String
  url : String
  credentials : String
deriving DecidableEq

/-- The parsed body of a response, `await response.json()`. `other` is a body that is not
JSON or has no shape of the data model. A body of another shape than the caller awaits
lies outside the typed data model; the callers leave the state as it is for such a body,
as for a body whose read fails inside their `try`. `user` is the updated profile that
answers a profile update, `error` a failure body with its optional `error` message. -/
inductive JSONBody where
  | expenses (list : List Expense)
  | categories (list : List Category)
  | users (list : List User)
  | other
  | user (profile : User)
  | error (message : Option String)

/-- The outcome of `await fetch(...)`: the promise rejects, or a response arrives with
its `ok` flag and body. -/
inductive FetchResult where
  | rejected
  | response (ok : Bool) (body : JSONBody)

/-- The text that `sessionStorage` holds under the key `currentUser`: the serialization
of a profile, which `JSON.parse` turns back into that profile; a text that is not empty
and on which `JSON.parse` throws; the empty text, which `!userStr` takes for an absent
key; or the text `null`, which `JSON.parse` reads as `null`. A text that `JSON.parse`
reads as another value that is not a profile lies outside the typed data model. -/
inductive StoredProfile where
  | profile (user : User)
  | unreadable
  | empty
  | null
deriving DecidableEq

/-- The two keys of `sessionStorage` that the program uses; `none` is an absent key. -/
structure SessionStorage where
  currentUser : Option StoredProfile
  currentPage : Option String
deriving DecidableEq

/-- The module-level variables of `script.js`, the parts of the page that the modelled
functions read or write, and the log of the `fetch` calls made so far. -/
structure AppState where
  currentUser : Option User
  expenses : List Expense
  categories : List Category
  users : List User
  myCategories : List Category
  expenseSearchFilter : String
  expenseCategoryFilter : String
  expenseDateFromFilter : String
  expenseDateToFilter : String
  userSearchFilter : String
  userRoleFilter : String
  categorySearchFilter : String
  myCategorySearchFilter : String
  expensesTableBody : List String
  categoriesTableBody : List String
  myCategoriesTableBody : List String
  usersTableBody : List String
  recentExpensesList : List String
  totalExpenses : String
  monthExpenses : String
  totalTransactions : String
  avgExpense : String
  expenseDetailModal : ExpenseDetailModal
  fetchLog : List Request
  sessionStorage : SessionStorage
  locationHref : String
  alerts : List (String × String)
  activePage : String
  activeModals : List String
  userName : String
  userRole : String
  adminOnlyDisplay : String
  expenseCategory : String
  editExpenseCategory : String
  expenseCategoryOptions : List String
  expenseCategoryFilterOptions : List String
  editExpenseCategoryOptions : List String
  editExpenseId : String
  editUserId : String
  categoryModalTitle : String
  categoryId : String
  categoryName : String
  categoryDescription : String

/-- The state when the script has been loaded: `currentUser` is `null`, the caches are
empty; the page parts are taken empty. -/
def AppState.initial : AppState where
  currentUser := none
  expenses := []
  categories := []
  users := []
  myCategories := []
  expenseSearchFilter := ""
  expenseCategoryFilter := ""
  expenseDateFromFilter := ""
  expenseDateToFilter := ""
  userSearchFilter := ""
  userRoleFilter := ""
  categorySearchFilter := ""
  myCategorySearchFilter := ""
  expensesTableBody := []
  categoriesTableBody := []
  myCategoriesTableBody := []
  usersTableBody := []
  recentExpensesList := []
  totalExpenses := ""
  monthExpenses := ""
  totalTransactions := ""
  avgExpense := ""
  expenseDetailModal := ⟨"", "", "", "", "", "", "", "", false⟩
  fetchLog := []
  sessionStorage := ⟨none, none⟩
  locationHref := ""
  alerts := []
  activePage := ""
  activeModals := []
  userName := ""
  userRole := ""
  adminOnlyDisplay := ""
  expenseCategory := ""
  editExpenseCategory := ""
  expenseCategoryOptions := []
  expenseCategoryFilterOptions := []
  editExpenseCategoryOptions := []
  editExpenseId := ""
  editUserId := ""
  categoryModalTitle := ""
  categoryId := ""
  categoryName := ""
  categoryDescription := ""

/-! ## Filter engine -/

/-- Value of a string of decimal digits; the empty string gives `0` as in ToNumber. -/
def digitsToNat : List Char → Option ℕ
  | [] => some 0
  | c :: cs =>
    match digitValue c, digitsToNat cs with
    | some d, some r => some (d * 10 ^ cs.length + r)
    | _, _ => none

/-- `id == value` between a Number identifier and the string value of a select element:
the string is converted to a Number and the Numbers are compared. The option values of
the category select are the empty string and identifiers in decimal digits; a value of
another form equals no identifier here. -/
def looseEq (id : ℕ) (value : String) : Bool :=
  match digitsToNat value.data with
  | some n => decide (id = n)
  | none => false

/-- The callback passed to `expenses.filter` in `filterExpenses` (lines 832-848);
`search` is the lower-cased search text, the other three are input values. -/
def expenseMatches (env : JSEnv) (categories : List Category)
    (search category dateFrom dateTo : String) (expense : Expense) : Bool :=
  let matchesSearch := decide (search = "") ||
    optIncludesLower env expense.description search ||
    optIncludesLower env expense.categories search ||
    includes (amountToString expense.amount) search
  let selectedCategory := categories.find? (fun cat => looseEq cat.category_id category)
  let matchesCategory := decide (category = "") ||
    (match selectedCategory with
     | none => false
     | some cat => optIncludesLower env expense.categories (env.toLowerCase cat.name))
  let expenseDate := newDate env expense.expense_date
  let matchesDateFrom := decide (dateFrom = "") || dateGe expenseDate (newDate env dateFrom)
  let matchesDateTo := decide (dateTo = "") || dateLe expenseDate (newDate env dateTo)
  matchesSearch && matchesCategory && matchesDateFrom && matchesDateTo

/-- The local `filtered` of `filterExpenses`: the list handed to `displayExpenses`. -/
def filteredExpenses (env : JSEnv) (st : AppState) : List Expense :=
  let search := env.toLowerCase st.expenseSearchFilter
  let category := st.expenseCategoryFilter
  let dateFrom := st.expenseDateFromFilter
  let dateTo := st.expenseDateToFilter
  st.expenses.filter (expenseMatches env st.categories search category dateFrom dateTo)

/-- Source function `filterExpenses` (lines 826-851). -/
def filterExpenses (env : JSEnv) (st : AppState) : AppState :=
  { st with expensesTableBody := displayExpenses env (filteredExpenses env st) }

/-- The callback passed to `users.filter` in `filterUsers` (lines 865-873). -/
def userMatches (env : JSEnv) (search role : String) (user : User) : Bool :=
  let matchesSearch := decide (search = "") ||
    includes (env.toLowerCase user.first_name) search ||
    includes (env.toLowerCase user.last_name) search
  let matchesRole := decide (role = "") || decide (user.role = role)
  matchesSearch && matchesRole

/-- The local `filtered` of `filterUsers`: the list handed to `displayUsers`. -/
def filteredUsers (env : JSEnv) (st : AppState) : List User :=
  let search := env.toLowerCase st.userSearchFilter
  let role := st.userRoleFilter
  st.users.filter (userMatches env search role)

/-- Source function `filterUsers` (lines 861-876); when `displayUsers` throws the table
keeps its content. -/
def filterUsers (env : JSEnv) (st : AppState) : AppState :=
  match displayUsers env st.currentUser (filteredUsers env st) with
  | some rows => { st with usersTableBody := rows }
  | none => st

/-- The callback passed to `filter` in `filterCategories` (lines 887-891) and in
`filterMyCategories` (lines 577-581), which have the same text. -/
def categoryMatches (env : JSEnv) (search : String) (category : Category) : Bool :=
  decide (search = "") ||
    includes (env.toLowerCase category.name) search ||
    optIncludesLower env category.description search

/-- The local `filtered` of `filterCategories`: the list handed to `displayCategories`. -/
def filteredCategories (env : JSEnv) (st : AppState) : List Category :=
  let search := env.toLowerCase st.categorySearchFilter
  st.categories.filter (categoryMatches env search)

/-- Source function `filterCategories` (lines 884-894). -/
def filterCategories (env : JSEnv) (st : AppState) : AppState :=
  { st with categoriesTableBody := displayCategories env (filteredCategories env st) }

/-- The local `filtered` of `filterMyCategories`: the list handed to
`displayMyCategories`. -/
def filteredMyCategories (env : JSEnv) (st : AppState) : List Category :=
  let search := env.toLowerCase st.myCategorySearchFilter
  st.myCategories.filter (categoryMatches env search)

/-- Source function `filterMyCategories` (lines 574-584). -/
def filterMyCategories (env : JSEnv) (st : AppState) : AppState :=
  { st with myCategoriesTableBody := displayMyCategories env (filteredMyCategories env st) }

/-! ## Dashboard and loading -/

/-- Source constant `API_BASE_URL` (line 2). -/
def API_BASE_URL : String := "https://finance-tracker-api-beta.vercel.app/api/v1"

/-- `a === b` on two Numbers that may be NaN (`none`): NaN equals nothing. -/
def strictEqNumber {α : Type} [DecidableEq α] (a b : Option α) : Bool :=
  match a, b with
  | some x, some y => decide (x = y)
  | _, _ => false

/-- Source function `updateDashboardStats` (lines 764-781). -/
def updateDashboardStats (env : JSEnv) (expenses : List Expense) (st : AppState) : AppState :=
  let total := expenses.foldl (fun sum exp => JSNumber.add sum (parseFloat exp.amount))
    (.finite 0 0)
  let now : Option ℤ := some env.now
  let thisMonth := expenses.filter (fun exp =>
    let expDate := newDate env exp.expense_date
    strictEqNumber (env.getMonth expDate) (env.getMonth now) &&
      strictEqNumber (env.getFullYear expDate) (env.getFullYear now))
  let monthTotal := thisMonth.foldl (fun sum exp => JSNumber.add sum (parseFloat exp.amount))
    (.finite 0 0)
  let avg := if expenses.length > 0 then JSNumber.divNat total expenses.length
    else .finite 0 0
  { st with
    totalExpenses := "$" ++ toFixed total 2
    monthExpenses := "$" ++ toFixed monthTotal 2
    totalTransactions := idText expenses.length
    avgExpense := "$" ++ toFixed avg 2 }

/-- Source function `loadExpenses` (lines 231-249). With `currentUser` still `null` the
read of `currentUser.role` throws inside the `try` and nothing is fetched. -/
def loadExpenses (env : JSEnv) (net : Request → FetchResult) (st : AppState) : AppState :=
  match st.currentUser with
  | none => st
  | some currentUser =>
    let url :=
      if currentUser.role = "admin" then API_BASE_URL ++ "/expenses"
      else API_BASE_URL ++ "/users/" ++ idText currentUser.user_id ++ "/expenses"
    let st := { st with fetchLog := st.fetchLog ++ [⟨"GET", url, "include"⟩] }
    match net ⟨"GET", url, "include"⟩ with
    | .response true (.expenses list) =>
      { st with expenses := list, expensesTableBody := displayExpenses env list }
    | _ => st

/-- Source function `loadDashboard` (lines 743-762). -/
def loadDashboard (env : JSEnv) (net : Request → FetchResult) (st : AppState) : AppState :=
  match st.currentUser with
  | none => st
  | some currentUser =>
    let url :=
      if currentUser.role = "admin" then API_BASE_URL ++ "/expenses"
      else API_BASE_URL ++ "/users/" ++ idText currentUser.user_id ++ "/expenses"
    let st := { st with fetchLog := st.fetchLog ++ [⟨"GET", url, "include"⟩] }
    match net ⟨"GET", url, "include"⟩ with
    | .response true (.expenses allExpenses) =>
      let st := updateDashboardStats env allExpenses st
      { st with recentExpensesList := displayRecentExpenses env (allExpenses.take 5) }
    | _ => st

/-- Source function `openExpenseDetailModal` (lines 1011-1035): an expense found in the
cache is shown at once; otherwise the collection is fetched and searched. -/
def openExpenseDetailModal (env : JSEnv) (net : Request → FetchResult) (expenseId : ℕ)
    (st : AppState) : AppState :=
  match st.expenses.find? (fun e => decide (e.expense_id = expenseId)) with
  | some expense =>
    { st with expenseDetailModal := displayExpenseDetails env expense st.expenseDetailModal }
  | none =>
    match st.currentUser with
    | none => st
    | some currentUser =>
      let url :=
        if currentUser.role = "admin" then API_BASE_URL ++ "/expenses"
        else API_BASE_URL ++ "/users/" ++ idText currentUser.user_id ++ "/expenses"
      let st := { st with fetchLog := st.fetchLog ++ [⟨"GET", url, "include"⟩] }
      match net ⟨"GET", url, "include"⟩ with
      | .response true (.expenses allExpenses) =>
        match allExpenses.find? (fun e => decide (e.expense_id = expenseId)) with
        | some foundExpense =>
          { st with
            expenseDetailModal :=
              displayExpenseDetails env foundExpense st.expenseDetailModal }
        | none => st
      | _ => st

/-! ## Loading of categories and users -/

/-- Source function `showAlert` (lines 911-951): a toast with a message and a type; the
toasts shown so far are kept as a log. -/
def showAlert (message type : String) (st : AppState) : AppState :=
  { st with alerts := st.alerts ++ [(message, type)] }

/-- Source function `openModal` (lines 145-147) for a modal other than the expense detail
modal. -/
def openModal (modalId : String) (st : AppState) : AppState :=
  { st with activeModals := st.activeModals ++ [modalId] }

/-- Source function `closeAllModals` (lines 149-153). -/
def closeAllModals (st : AppState) : AppState :=
  { st with
    activeModals := []
    expenseDetailModal := { st.expenseDetailModal with active := false } }

/-- The value of a category select after `select.value = currentValue`: the value is
kept when an option carries it (the empty value or a cached category id) and is empty
otherwise. -/
def restoreSelectValue (categories : List Category) (currentValue : String) : String :=
  if currentValue = "" ∨ (categories.any fun cat => decide (idText cat.category_id = currentValue))
  then currentValue else ""

/-- Source function `populateCategorySelects` (lines 367-390): the options of the three
category selects are rebuilt from the cache and their values restored. -/
def populateCategorySelects (st : AppState) : AppState :=
  let options := st.categories.map fun cat =>
    "<option value=\"" ++ idText cat.category_id ++ "\">" ++ cat.name ++ "</option>"
  { st with
    expenseCategoryOptions := "<option value=\"\">Select a category</option>" :: options
    expenseCategoryFilterOptions := "<option value=\"\">All Categories</option>" :: options
    editExpenseCategoryOptions := "<option value=\"\">Select a category</option>" :: options
    expenseCategory := restoreSelectValue st.categories st.expenseCategory
    expenseCategoryFilter := restoreSelectValue st.categories st.expenseCategoryFilter
    editExpenseCategory := restoreSelectValue st.categories st.editExpenseCategory }

/-- Source function `loadCategories` (lines 352-365). -/
def loadCategories (net : Request → FetchResult) (st : AppState) : AppState :=
  let st := { st with
    fetchLog := st.fetchLog ++ [⟨"GET", API_BASE_URL ++ "/categories", "include"⟩] }
  match net ⟨"GET", API_BASE_URL ++ "/categories", "include"⟩ with
  | .response true (.categories list) => populateCategorySelects { st with categories := list }
  | _ => st

/-- Source function `loadCategoriesTable` (lines 392-405). -/
def loadCategoriesTable (env : JSEnv) (net : Request → FetchResult) (st : AppState) :
    AppState :=
  let st := { st with
    fetchLog := st.fetchLog ++ [⟨"GET", API_BASE_URL ++ "/categories", "include"⟩] }
  match net ⟨"GET", API_BASE_URL ++ "/categories", "include"⟩ with
  | .response true (.categories list) =>
    { st with categories := list, categoriesTableBody := displayCategories env list }
  | _ => st

/-- Source function `loadMyCategoriesTable` (lines 510-523). -/
def loadMyCategoriesTable (env : JSEnv) (net : Request → FetchResult) (st : AppState) :
    AppState :=
  let st := { st with
    fetchLog := st.fetchLog ++ [⟨"GET", API_BASE_URL ++ "/categories", "include"⟩] }
  match net ⟨"GET", API_BASE_URL ++ "/categories", "include"⟩ with
  | .response true (.categories list) =>
    { st with myCategories := list, myCategoriesTableBody := displayMyCategories env list }
  | _ => st

/-- Source function `loadUsers` (lines 592-605). The cache is assigned before
`displayUsers` runs; when that throws (a row is rendered while `currentUser` is `null`)
the `catch` keeps the table as it was. -/
def loadUsers (env : JSEnv) (net : Request → FetchResult) (st : AppState) : AppState :=
  let st := { st with
    fetchLog := st.fetchLog ++ [⟨"GET", API_BASE_URL ++ "/users", "include"⟩] }
  match net ⟨"GET", API_BASE_URL ++ "/users", "include"⟩ with
  | .response true (.users list) =>
    let st := { st with users := list }
    match displayUsers env st.currentUser list with
    | some rows => { st with usersTableBody := rows }
    | none => st
  | _ => st

/-- Source function `openEditCategoryModal` (lines 429-439): the form is filled from the
cached category, its name from the property `name`. -/
def openEditCategoryModal (categoryId : ℕ) (st : AppState) : AppState :=
  match st.categories.find? (fun c => decide (c.category_id = categoryId)) with
  | none => st
  | some category =>
    openModal "categoryModal"
      { st with
        categoryModalTitle := "Edit Category"
        categoryId := idText category.category_id
        categoryName := category.name
        categoryDescription := orElseText category.description "" }

/-! ## Mutation handlers -/

/-- The server as the handlers meet it: its answer to a request, given the requests
that the page has sent before (the log of the state). -/
abbrev Network : Type := List Request → Request → FetchResult

/-- The message `error.error || fallback` read from the body of a failed response; a body
whose read throws leads to the same fallback through the `catch`. -/
def errorMessage (body : JSONBody) (fallback : String) : String :=
  match body with
  | .error message => orElseText message fallback
  | _ => fallback

/-- Source function `handleAddExpense` (lines 195-229). The request body and the fields
of the form that only feed it are not modelled; reading `currentUser.user_id` before the
`try` throws while nobody is signed in. After a success the form is reset and nothing is
fetched. -/
def handleAddExpense (net : Network) (st : AppState) : AppState :=
  match st.currentUser with
  | none => st
  | some _ =>
    let request : Request := ⟨"POST", API_BASE_URL ++ "/expenses", "include"⟩
    let st1 := { st with fetchLog := st.fetchLog ++ [request] }
    match net st.fetchLog request with
    | .rejected => showAlert "Failed to add expense" "error" st1
    | .response true _ =>
      { showAlert "Expense added successfully!" "success" st1 with expenseCategory := "" }
    | .response false body => showAlert (errorMessage body "Failed to add expense") "error" st1

/-- Source function `handleEditExpense` (lines 289-323). -/
def handleEditExpense (env : JSEnv) (net : Network) (st : AppState) : AppState :=
  match st.currentUser with
  | none => st
  | some _ =>
    let request : Request :=
      ⟨"PUT", API_BASE_URL ++ "/expenses/" ++ st.editExpenseId, "include"⟩
    let st1 := { st with fetchLog := st.fetchLog ++ [request] }
    match net st.fetchLog request with
    | .rejected => showAlert "Failed to update expense" "error" st1
    | .response true _ =>
      let st2 := closeAllModals (showAlert "Expense updated successfully!" "success" st1)
      loadExpenses env (net st2.fetchLog) st2
    | .response false body =>
      showAlert (errorMessage body "Failed to update expense") "error" st1

/-- Source function `deleteExpense` (lines 325-349); `confirmed` is the answer given in
the confirmation dialog of `showConfirm`. -/
def deleteExpense (env : JSEnv) (net : Network) (confirmed : Bool) (expenseId : ℕ)
    (st : AppState) : AppState :=
  if !confirmed then st
  else
    let request : Request :=
      ⟨"DELETE", API_BASE_URL ++ "/expenses/" ++ idText expenseId, "include"⟩
    let st1 := { st with fetchLog := st.fetchLog ++ [request] }
    match net st.fetchLog request with
    | .response true _ =>
      let st2 := showAlert "Expense deleted successfully!" "success" st1
      let st3 := loadExpenses env (net st2.fetchLog) st2
      loadDashboard env (net st3.fetchLog) st3
    | _ => showAlert "Failed to delete expense" "error" st1

/-- Source function `handleSaveCategory` (lines 441-477): an update when the form holds
a category id, a creation otherwise. -/
def handleSaveCategory (env : JSEnv) (net : Network) (st : AppState) : AppState :=
  let categoryId := st.categoryId
  let url :=
    if categoryId ≠ "" then API_BASE_URL ++ "/categories/" ++ categoryId
    else API_BASE_URL ++ "/categories"
  let method := if categoryId ≠ "" then "PUT" else "POST"
  let request : Request := ⟨method, url, "include"⟩
  let st1 := { st with fetchLog := st.fetchLog ++ [request] }
  match net st.fetchLog request with
  | .rejected => showAlert "Failed to save category" "error" st1
  | .response true _ =>
    let st2 := closeAllModals (showAlert
      ("Category " ++ (if categoryId ≠ "" then "updated" else "created") ++ " successfully!")
      "success" st1)
    let st3 := loadCategories (net st2.fetchLog) st2
    let st4 := loadCategoriesTable env (net st3.fetchLog) st3
    loadMyCategoriesTable env (net st4.fetchLog) st4
  | .response false body => showAlert (errorMessage body "Failed to save category") "error" st1

/-- Source function `deleteCategory` (lines 479-505). -/
def deleteCategory (env : JSEnv) (net : Network) (confirmed : Bool) (categoryId : ℕ)
    (st : AppState) : AppState :=
  if !confirmed then st
  else
    let request : Request :=
      ⟨"DELETE", API_BASE_URL ++ "/categories/" ++ idText categoryId, "include"⟩
    let st1 := { st with fetchLog := st.fetchLog ++ [request] }
    match net st.fetchLog request with
    | .rejected => showAlert "Failed to delete category" "error" st1
    | .response true _ =>
      let st2 := showAlert "Category deleted successfully!" "success" st1
      let st3 := loadCategories (net st2.fetchLog) st2
      let st4 := loadCategoriesTable env (net st3.fetchLog) st3
      loadMyCategoriesTable env (net st4.fetchLog) st4
    | .response false body =>
      showAlert (errorMessage body "Failed to delete category") "error" st1

/-- Source function `deleteMyCategoryWithRefresh` (lines 547-572). -/
def deleteMyCategoryWithRefresh (env : JSEnv) (net : Network) (confirmed : Bool)
    (categoryId : ℕ) (st : AppState) : AppState :=
  if !confirmed then st
  else
    let request : Request :=
      ⟨"DELETE", API_BASE_URL ++ "/categories/" ++ idText categoryId, "include"⟩
    let st1 := { st with fetchLog := st.fetchLog ++ [request] }
    match net st.fetchLog request with
    | .rejected => showAlert "Failed to delete category" "error" st1
    | .response true _ =>
      let st2 := showAlert "Category deleted successfully!" "success" st1
      let st3 := loadCategories (net st2.fetchLog) st2
      loadMyCategoriesTable env (net st3.fetchLog) st3
    | .response false body =>
      showAlert (errorMessage body "Failed to delete category") "error" st1

/-- Source function `handleEditUser` (lines 643-678). -/
def handleEditUser (env : JSEnv) (net : Network) (st : AppState) : AppState :=
  let request : Request := ⟨"PUT", API_BASE_URL ++ "/users/" ++ st.editUserId, "include"⟩
  let st1 := { st with fetchLog := st.fetchLog ++ [request] }
  match net st.fetchLog request with
  | .rejected => showAlert "Failed to update user" "error" st1
  | .response true _ =>
    let st2 := closeAllModals (showAlert "User updated successfully!" "success" st1)
    loadUsers env (net st2.fetchLog) st2
  | .response false body => showAlert (errorMessage body "Failed to update user") "error" st1

/-- Source function `deleteUser` (lines 680-699); `confirmed` is the answer to the native
`confirm` prompt. The function does not compare `userId` with `currentUser.user_id`. -/
def deleteUser (env : JSEnv) (net : Network) (confirmed : Bool) (userId : ℕ)
    (st : AppState) : AppState :=
  if !confirmed then st
  else
    let request : Request := ⟨"DELETE", API_BASE_URL ++ "/users/" ++ idText userId, "include"⟩
    let st1 := { st with fetchLog := st.fetchLog ++ [request] }
    match net st.fetchLog request with
    | .response true _ =>
      let st2 := showAlert "User deleted successfully!" "success" st1
      loadUsers env (net st2.fetchLog) st2
    | _ => showAlert "Failed to delete user" "error" st1

/-- Source function `updateUserProfile` (lines 68-72). -/
def updateUserProfile (st : AppState) : AppState :=
  match st.currentUser with
  | none => st
  | some currentUser =>
    { st with
      userName := currentUser.first_name ++ " " ++ currentUser.last_name
      userRole := currentUser.role }

/-- Source function `handleEditProfile` (lines 702-740): after a success the names of
`currentUser` are patched from the response body and stored; nothing is fetched. -/
def handleEditProfile (net : Network) (st : AppState) : AppState :=
  match st.currentUser with
  | none => st
  | some currentUser =>
    let request : Request :=
      ⟨"PUT", API_BASE_URL ++ "/users/" ++ idText currentUser.user_id, "include"⟩
    let st1 := { st with fetchLog := st.fetchLog ++ [request] }
    match net st.fetchLog request with
    | .response true (.user updatedUser) =>
      let patched : User :=
        { currentUser with
          first_name := updatedUser.first_name
          last_name := updatedUser.last_name }
      let st2 := { st1 with
        currentUser := some patched
        sessionStorage := { st1.sessionStorage with currentUser := some (.profile patched) } }
      closeAllModals (showAlert "Profile updated successfully!" "success" (updateUserProfile st2))
    | .response false body =>
      showAlert (errorMessage body "Failed to update profile") "error" st1
    | _ => showAlert "Failed to update profile" "error" st1

/-! ## Session and navigation -/

/-- The failure exit of `checkAuth` after a stored text was found (lines 48-49 and
63-64): the stored profile is removed and the page redirects to the login page. -/
def clearSessionAndRedirect (st : AppState) : AppState :=
  { st with
    sessionStorage := { st.sessionStorage with currentUser := none }
    locationHref := "login.html" }

/-- Source function `checkAuth` (lines 30-66). An absent key and the empty text leave at
`if (!userStr)` with the store untouched; a text on which `JSON.parse` throws goes to
the `catch`; for the text `null` the variable `currentUser` becomes `null`, the
verification request is sent, and the function fails whatever the answer, since
`updateUserProfile` throws after an ok response. -/
def checkAuth (net : Network) (st : AppState) : AppState :=
  match st.sessionStorage.currentUser with
  | none => { st with locationHref := "login.html" }
  | some .empty => { st with locationHref := "login.html" }
  | some .unreadable => clearSessionAndRedirect st
  | some .null =>
    let st0 := { st with currentUser := none }
    let request : Request := ⟨"GET", API_BASE_URL ++ "/categories", "include"⟩
    clearSessionAndRedirect { st0 with fetchLog := st0.fetchLog ++ [request] }
  | some (.profile user) =>
    let st0 := { st with currentUser := some user }
    let request : Request := ⟨"GET", API_BASE_URL ++ "/categories", "include"⟩
    let st1 := { st0 with fetchLog := st0.fetchLog ++ [request] }
    match net st.fetchLog request with
    | .rejected => clearSessionAndRedirect st1
    | .response false _ => clearSessionAndRedirect st1
    | .response true _ =>
      let st2 := updateUserProfile st1
      if user.role = "admin" then { st2 with adminOnlyDisplay := "flex" } else st2

/-- Source function `logout` (lines 997-1008): the answer to the logout request is not
read and a rejected request is caught. -/
def logout (st : AppState) : AppState :=
  let request : Request := ⟨"POST", API_BASE_URL ++ "/auth/logout", "include"⟩
  { st with
    fetchLog := st.fetchLog ++ [request]
    sessionStorage := { st.sessionStorage with currentUser := none }
    locationHref := "login.html" }

/-- Source function `navigateToPage` (lines 86-123): the page name is stored, the
navigation item and the page of that name become the active ones, and the data of the
page is loaded. -/
def navigateToPage (env : JSEnv) (net : Network) (pageName : String) (st : AppState) :
    AppState :=
  let st1 := { st with
    sessionStorage := { st.sessionStorage with currentPage := some pageName }
    activePage := pageName }
  if pageName = "dashboard" then loadDashboard env (net st1.fetchLog) st1
  else if pageName = "add-expense" then st1
  else if pageName = "expenses" then loadExpenses env (net st1.fetchLog) st1
  else if pageName = "my-categories" then loadMyCategoriesTable env (net st1.fetchLog) st1
  else if pageName = "users" then loadUsers env (net st1.fetchLog) st1
  else if pageName = "categories" then loadCategoriesTable env (net st1.fetchLog) st1
  else st1

/-- The local `lastPage` of the `DOMContentLoaded` handler (line 25):
`sessionStorage.getItem("currentPage") || "dashboard"`. -/
def lastPage (st : AppState) : String :=
  match st.sessionStorage.currentPage with
  | none => "dashboard"
  | some page => if page = "" then "dashboard" else page

/-- The `DOMContentLoaded` handler (lines 11-27); the four `initialize` calls only attach
event listeners. -/
def onDOMContentLoaded (env : JSEnv) (net : Network) (st : AppState) : AppState :=
  let st1 := checkAuth net st
  let st2 := loadCategories (net st1.fetchLog) st1
  navigateToPage env net (lastPage st2) st2

/-- A reload of the page in the same tab: the script starts from its initial state and
`sessionStorage` is what the previous page left. -/
def reloadPage (st : AppState) : AppState :=
  { AppState.initial with sessionStorage := st.sessionStorage }

/-- The pages that `navigateToPage` names. -/
def namedPages : List String :=
  ["dashboard", "add-expense", "expenses", "my-categories", "users", "categories"]

/-! ## The server of the delete scenario -/

/-- The collections that a server holds. -/
structure Collections where
  expenses : List Expense
  categories : List Category
  users : List User

/-- A `DELETE` of the resource at `url` is among the requests. -/
def deletedIn (log : List Request) (url : String) : Bool :=
  log.any fun request => decide (request.method = "DELETE") && decide (request.url = url)

/-- The server as a collection: a `DELETE` of a resource succeeds and removes it, a `GET`
of a collection succeeds and returns the collection in full, that is, all the entities
it started with except those deleted by the requests received before; an expenses URL
(global or of one user) is answered with the expenses collection. -/
def collectionServer (start : Collections) : Network :=
  fun log request =>
    if request.method = "GET" then
      if request.url = API_BASE_URL ++ "/categories" then
        .response true (.categories (start.categories.filter fun c =>
          !deletedIn log (API_BASE_URL ++ "/categories/" ++ idText c.category_id)))
      else if request.url = API_BASE_URL ++ "/users" then
        .response true (.users (start.users.filter fun u =>
          !deletedIn log (API_BASE_URL ++ "/users/" ++ idText u.user_id)))
      else
        .response true (.expenses (start.expenses.filter fun e =>
          !deletedIn log (API_BASE_URL ++ "/expenses/" ++ idText e.expense_id)))
    else .response true .other

/-! ## Order of Numbers -/

namespace JSNumber

/-- The comparison `x <= y` of two Numbers: false when either is NaN. -/
def le (x y : JSNumber) : Bool :=
  match x, y with
  | nan, _ => false
  | _, nan => false
  | negInf, _ => true
  | _, posInf => true
  | posInf, _ => false
  | _, negInf => false
  | finite m1 e1, finite m2 e2 =>
    decide (m1 * 2 ^ (e1 - min e1 e2).toNat ≤ m2 * 2 ^ (e2 - min e1 e2).toNat)

end JSNumber

/-- The local `total` of `updateDashboardStats`, and its `monthTotal` for the expenses of
the month: the amounts added from left to right, starting from `0`. -/
def sumAmounts (expenses : List Expense) : JSNumber :=
  expenses.foldl (fun sum exp => JSNumber.add sum (parseFloat exp.amount)) (.finite 0 0)

/-- The local `thisMonth` of `updateDashboardStats`: the expenses whose local month and
year are those of the current instant. -/
def thisMonthExpenses (env : JSEnv) (expenses : List Expense) : List Expense :=
  expenses.filter fun exp =>
    let expDate := newDate env exp.expense_date
    strictEqNumber (env.getMonth expDate) (env.getMonth (some env.now)) &&
      strictEqNumber (env.getFullYear expDate) (env.getFullYear (some env.now))

/-- The end of a user row: the Delete button with the attribute `disabled`. -/
def disabledDeleteButtonEnd : String :=
  ")\" disabled>Delete</button>\n            </td>\n        </tr>\n    "

/-- The end of a user row: the Delete button without the attribute `disabled`. -/
def enabledDeleteButtonEnd : String :=
  ")\" >Delete</button>\n            </td>\n        </tr>\n    "

/-- The Delete button that ends a rendered user row is disabled. -/
def deleteButtonDisabled (row : String) : Bool :=
  decide (disabledDeleteButtonEnd.data <:+ row.data)

/-- The Delete button that ends a rendered user row is enabled. -/
def deleteButtonEnabled (row : String) : Bool :=
  decide (enabledDeleteButtonEnd.data <:+ row.data)

/-! ## Example data -/

/-- An environment for evaluating examples: ASCII case mapping (what `toLowerCase` does
on ASCII text), no date format beyond the ECMAScript one, UTC calendar fields left out. -/
def exampleEnv : JSEnv where
  toLowerCase := fun s => String.mk (s.data.map Char.toLower)
  toLowerCase_empty := rfl
  dateParseOther := fun _ => none
  toLocaleDateString := fun _ => ""
  getMonth := fun _ => none
  getFullYear := fun _ => none
  now := 0

/-- An expense with no optional property. -/
def bareExpense : Expense :=
  ⟨1, .number (.finite 25 (-1)), none, none, "2024-01-15", none, none, none⟩

/-- An expense with every optional property. -/
def lunchExpense : Expense :=
  ⟨2, .number (.finite 3 0), some "Food, Travel", some "Cafe", "2024-01-15T10:30:00.000Z",
    some "Team lunch", some "Ada", some "Byron"⟩

/-- The category `Food` of the scenario of the specification. -/
def foodCategory : Category := ⟨1, "Food", none, "2024-01-01T00:00:00.000Z", none⟩

/-- The category `Travel` of the scenario of the specification. -/
def travelCategory : Category := ⟨2, "Travel", none, "2024-01-02T00:00:00.000Z", none⟩

/-- The administrator of the scenario of the specification. -/
def adminUser : User := ⟨1, "Ada", "Byron", "admin", "2024-01-01T00:00:00.000Z"⟩

/-- The standard user of the scenario of the specification. -/
def plainUser : User := ⟨2, "Bob", "Stone", "user", "2024-01-02T00:00:00.000Z"⟩

/-- A state with both example expenses, categories and users cached. -/
def exampleState : AppState :=
  { AppState.initial with
    currentUser := some adminUser
    expenses := [bareExpense, lunchExpense]
    categories := [foodCategory, travelCategory]
    myCategories := [foodCategory, travelCategory]
    users := [adminUser, plainUser] }

/-- The example state with the category `Food` selected in the expense filter. -/
def foodSelectedState : AppState := { exampleState with expenseCategoryFilter := "1" }

/-- An expense whose amount was sent as the text `12.50`, labelled `Food` and dated by a
midnight time stamp. -/
def groceriesExpense : Expense :=
  ⟨3, .text "12.50", some "Food", some "Market", "2024-01-15T00:00:00.000Z",
    some "Groceries", none, none⟩

/-- The example state with a third expense cached. -/
def threeExpensesState : AppState :=
  { exampleState with expenses := [bareExpense, lunchExpense, groceriesExpense] }

/-- Three cached expenses with the category `Travel` (identifier 2) selected in the
expense filter. -/
def travelSelectedState : AppState := { threeExpensesState with expenseCategoryFilter := "2" }

/-- Three cached expenses with an identifier selected that no cached category has. -/
def unknownSelectedState : AppState := { threeExpensesState with expenseCategoryFilter := "9" }

/-- Three cached expenses with the search text `12.5` typed in the expense filter. -/
def amountSearchState : AppState := { threeExpensesState with expenseSearchFilter := "12.5" }

/-- Three cached expenses with the search text `12.50` typed in the expense filter. -/
def textAmountSearchState : AppState :=
  { threeExpensesState with expenseSearchFilter := "12.50" }

/-- The example state with the search text `Lunch` typed in the expense filter. -/
def lunchSearchState : AppState := { exampleState with expenseSearchFilter := "Lunch" }

/-- The scenario of the specification: role filter `admin` over an admin and a user. -/
def adminRoleState : AppState := { exampleState with userRoleFilter := "admin" }

/-- The scenario of the specification: search `foo` over `Food` and `Travel`. -/
def fooSearchState : AppState :=
  { exampleState with categorySearchFilter := "foo", myCategorySearchFilter := "foo" }

/-- The example state with the to-date `2024-01-15` set in the expense filter. -/
def toBoundState : AppState := { exampleState with expenseDateToFilter := "2024-01-15" }

/-- The example state with both date bounds set to `2024-01-15`. -/
def bothBoundsState : AppState :=
  { exampleState with
    expenseDateFromFilter := "2024-01-15"
    expenseDateToFilter := "2024-01-15" }

/-- Two cached expenses of calendar date 2024-01-15, one dated by a date-only value and
one by a midnight time stamp, with both date bounds set to `2024-01-15`. -/
def calendarBoundsState : AppState :=
  { exampleState with
    expenses := [bareExpense, groceriesExpense]
    expenseDateFromFilter := "2024-01-15"
    expenseDateToFilter := "2024-01-15" }

/-- The same two expenses with the date bounds `2024-01-16` and `2024-01-31`. -/
def laterBoundsState : AppState :=
  { exampleState with
    expenses := [bareExpense, groceriesExpense]
    expenseDateFromFilter := "2024-01-16"
    expenseDateToFilter := "2024-01-31" }

/-! ## Shape of a currency text -/

namespace JSNumber

/-- The mathematical value of a finite Number (`0` for the others). -/
def val : JSNumber → ℚ
  | finite m e => (m : ℚ) * (2 : ℚ) ^ e
  | _ => 0

end JSNumber

/-- The text is `$`, one or more decimal digits, a point and exactly two decimal
digits. -/
def hasTwoDecimals (s : String) : Bool :=
  match s.data with
  | c :: rest =>
    match rest.reverse with
    | d2 :: d1 :: p :: intRev =>
      decide (c = '$') && decide (p = '.') && d1.isDigit && d2.isDigit &&
        !intRev.isEmpty && intRev.all Char.isDigit
    | _ => false
  | [] => false

/-- The text of `n` hundredths: the whole part, a point, two decimal digits. -/
def twoDecimalText (n : ℕ) : String :=
  idText (n / 100) ++ "." ++ String.mk [Nat.digitChar (n / 10 % 10), Nat.digitChar (n % 10)]

/-- The double nearest to 3.1, `6980579422424269 * 2^-51`. -/
def threePointOne : JSNumber := .finite 6980579422424269 (-51)

/-- The double `10^21`, `5^21 * 2^21`. -/
def tenPow21 : JSNumber := .finite 476837158203125 21

/-- The example state with the standard user signed in. -/
def plainUserState : AppState := { exampleState with currentUser := some plainUser }

/-- A server that answers every request with the two example expenses. -/
def exampleServer : Request → FetchResult :=
  fun _ => .response true (.expenses [bareExpense, lunchExpense])

/-! ## Example data for the handlers -/

/-- The URL of the expenses collection that `loadExpenses`, `loadDashboard` and
`openExpenseDetailModal` build for a signed-in user. -/
def expensesUrl (user : User) : String :=
  if user.role = "admin" then API_BASE_URL ++ "/expenses"
  else API_BASE_URL ++ "/users/" ++ idText user.user_id ++ "/expenses"

/-- The collections of the example server. -/
def exampleCollections : Collections :=
  ⟨[bareExpense, lunchExpense], [foodCategory, travelCategory], [adminUser, plainUser]⟩

/-- The example state of a tab that has visited the expenses page: the profile of the
administrator and the page name are stored. -/
def storedSessionState : AppState :=
  { exampleState with sessionStorage := ⟨some (.profile adminUser), some "expenses"⟩ }

/-- A tab whose session store holds the empty text under `currentUser` and the page name
`expenses`. -/
def emptyProfileState : AppState :=
  { exampleState with sessionStorage := ⟨some .empty, some "expenses"⟩ }

/-- A server that rejects every request: the network is down. -/
def offlineNetwork : Network := fun _ _ => .rejected

/-- Whether the outcome of a fetch is a failure: a rejected promise or a response whose
`ok` flag is false. -/
def isFailure : FetchResult → Bool
  | .rejected => true
  | .response ok _ => !ok

/-- A server that answers every request with the updated profile of the administrator. -/
def profileServer : Network :=
  fun _ _ => .response true (.user ⟨1, "Ada", "King", "admin", "2024-01-01T00:00:00.000Z"⟩)

/-- The `GET` of the categories collection. -/
def categoriesRequest : Request := ⟨"GET", API_BASE_URL ++ "/categories", "include"⟩

/-- The `GET` of the users collection. -/
def usersRequest : Request := ⟨"GET", API_BASE_URL ++ "/users", "include"⟩

/-- The `GET` of the expenses collection in the scope of a user. -/
def expensesRequest (user : User) : Request := ⟨"GET", expensesUrl user, "include"⟩

/-- A server that answers every request with a status that is not ok. -/
def failingNetwork : Request → FetchResult := fun _ => .response false (.error none)

/-! ## The exact sum of the amounts -/

/-- The mathematical value `m * 2^e` of a finite Number; `0` stands in for the values that
are not finite. -/
def JSNumber.toRat : JSNumber → ℚ
  | .finite m e => m * 2 ^ e
  | _ => 0

/-- The sum of all amounts as rational numbers, with no rounding at all. -/
def exactSumAmounts (expenses : List Expense) : ℚ :=
  (expenses.map fun exp => (parseFloat exp.amount).toRat).sum

/-- An expense of `2^53 = 9007199254740992`. -/
def largeExpense : Expense := { bareExpense with amount := .number (.finite 1 53) }

/-- An expense of `1`. -/
def unitExpense : Expense :=
  { bareExpense with expense_id := 2, amount := .number (.finite 1 0) }

/-- An environment in UTC that knows the calendar of January and February 2024; the
current instant is 2024-01-20T00:00:00.000Z. -/
def year2024Env : JSEnv :=
  { exampleEnv with
    getMonth := fun t =>
      match t with
      | none => none
      | some ms =>
        if 1704067200000 ≤ ms ∧ ms < 1706745600000 then some 0
        else if 1706745600000 ≤ ms ∧ ms < 1709251200000 then some 1
        else none
    getFullYear := fun t =>
      match t with
      | none => none
      | some ms => if 1704067200000 ≤ ms ∧ ms < 1709251200000 then some 2024 else none
    now := 1705708800000 }

/-- An expense of `3` on 2024-02-10. -/
def februaryExpense : Expense :=
  { bareExpense with
    expense_id := 3, amount := .number (.finite 3 0), expense_date := "2024-02-10" }

/-- The last step of `roundToDouble` for a positive fraction: the rounded significand `q`
at the exponent `e2` is written with 53 bits, and the result is the infinity when the
exponent passes 971. -/
def packDouble (q : ℕ) (e2 : ℤ) : JSNumber :=
  if 971 < (if q = 2 ^ 53 then e2 + 1 else e2) then .posInf
  else .finite ((if q = 2 ^ 53 then 2 ^ 52 else q : ℕ) : ℤ) (if q = 2 ^ 53 then e2 + 1 else e2)

/-- A value that the running sum of non-negative amounts can take: the infinity, or a
finite Number with a significand between 0 and `2^53` and an exponent of at least -1074. -/
def JSNumber.isPartialSum : JSNumber → Bool
  | .finite m e => decide (0 ≤ m) && decide (m ≤ 2 ^ 53) && decide (-1074 ≤ e)
  | .posInf => true
  | _ => false

/-! ## Lemmas on the string built-ins -/

/-- Every string includes the empty string. -/
theorem includes_empty (s : String) : includes s "" = true := by
  simp [includes]

/-! ## Filter engine: theorems -/

/-- C1. For every cache and every combination of filter inputs, the list that each of
`filterExpenses`, `filterUsers`, `filterCategories` and `filterMyCategories` hands to its
display function is a sublist of the cached list (elements of the cache, in the order of
the cache, none repeated, none invented), and the table shows the rendering of that
list. -/
theorem filtered_sublist_of_cache (env : JSEnv) (st : AppState) :
    ((filteredExpenses env st).Sublist st.expenses ∧
      (filterExpenses env st).expensesTableBody =
        displayExpenses env (filteredExpenses env st)) ∧
    ((filteredUsers env st).Sublist st.users ∧
      ∀ rows, displayUsers env st.currentUser (filteredUsers env st) = some rows →
        (filterUsers env st).usersTableBody = rows) ∧
    ((filteredCategories env st).Sublist st.categories ∧
      (filterCategories env st).categoriesTableBody =
        displayCategories env (filteredCategories env st)) ∧
    ((filteredMyCategories env st).Sublist st.myCategories ∧
      (filterMyCategories env st).myCategoriesTableBody =
        displayMyCategories env (filteredMyCategories env st)) := by
  refine ⟨⟨List.filter_sublist _, rfl⟩, ⟨List.filter_sublist _, ?_⟩,
    ⟨List.filter_sublist _, rfl⟩, ⟨List.filter_sublist _, rfl⟩⟩
  intro rows h
  simp [filterUsers, h]

/-- Witness of C1: in the example state with the role filter `admin`, `filterUsers`
hands over the administrator alone and the users table shows the rendering of that one
user. -/
theorem filtered_sublist_of_cache_witness :
    (filteredUsers exampleEnv adminRoleState).Sublist adminRoleState.users ∧
    (filterUsers exampleEnv adminRoleState).usersTableBody =
      [userRow exampleEnv adminUser adminUser] :=
  ⟨(filtered_sublist_of_cache exampleEnv adminRoleState).2.1.1,
   (filtered_sublist_of_cache exampleEnv adminRoleState).2.1.2 _ rfl⟩

/-- C2. With every criterion empty (empty search text, no category, no date bound, no
role) each filter hands the whole cached list to its display function, whatever the
cache holds, entities without optional properties included. -/
theorem filter_empty_criteria (env : JSEnv) (st : AppState) :
    (st.expenseSearchFilter = "" → st.expenseCategoryFilter = "" →
      st.expenseDateFromFilter = "" → st.expenseDateToFilter = "" →
      filteredExpenses env st = st.expenses ∧
      (filterExpenses env st).expensesTableBody = displayExpenses env st.expenses) ∧
    (st.userSearchFilter = "" → st.userRoleFilter = "" →
      filteredUsers env st = st.users ∧
      ∀ rows, displayUsers env st.currentUser st.users = some rows →
        (filterUsers env st).usersTableBody = rows) ∧
    (st.categorySearchFilter = "" →
      filteredCategories env st = st.categories ∧
      (filterCategories env st).categoriesTableBody = displayCategories env st.categories) ∧
    (st.myCategorySearchFilter = "" →
      filteredMyCategories env st = st.myCategories ∧
      (filterMyCategories env st).myCategoriesTableBody =
        displayMyCategories env st.myCategories) := by
  refine ⟨?_, ?_, ?_, ?_⟩
  · intro h1 h2 h3 h4
    have h : filteredExpenses env st = st.expenses := by
      simp [filteredExpenses, expenseMatches, h1, h2, h3, h4, env.toLowerCase_empty]
    exact ⟨h, by simp [filterExpenses, h]⟩
  · intro h1 h2
    have h : filteredUsers env st = st.users := by
      simp [filteredUsers, userMatches, h1, h2, env.toLowerCase_empty]
    refine ⟨h, ?_⟩
    intro rows hr
    simp [filterUsers, h, hr]
  · intro h1
    have h : filteredCategories env st = st.categories := by
      simp [filteredCategories, categoryMatches, h1, env.toLowerCase_empty]
    exact ⟨h, by simp [filterCategories, h]⟩
  · intro h1
    have h : filteredMyCategories env st = st.myCategories := by
      simp [filteredMyCategories, categoryMatches, h1, env.toLowerCase_empty]
    exact ⟨h, by simp [filterMyCategories, h]⟩

/-- Witness of C2: the example state, whose first expense and first category lack every
optional property, has all criteria empty, so the four filters keep their whole cache. -/
theorem filter_empty_criteria_witness :
    filteredExpenses exampleEnv exampleState = [bareExpense, lunchExpense] ∧
    filteredUsers exampleEnv exampleState = [adminUser, plainUser] ∧
    filteredCategories exampleEnv exampleState = [foodCategory, travelCategory] ∧
    filteredMyCategories exampleEnv exampleState = [foodCategory, travelCategory] :=
  ⟨((filter_empty_criteria exampleEnv exampleState).1 rfl rfl rfl rfl).1,
   ((filter_empty_criteria exampleEnv exampleState).2.1 rfl rfl).1,
   ((filter_empty_criteria exampleEnv exampleState).2.2.1 rfl).1,
   ((filter_empty_criteria exampleEnv exampleState).2.2.2 rfl).1⟩

/-- In a search condition whose second alternative is an `includes` of the lower-cased
search text, "the lower-cased text is empty" and "the text is empty" are interchangeable. -/
theorem search_disj_iff (env : JSEnv) (s a : String) (P : Prop) :
    (env.toLowerCase s = "" ∨ includes a (env.toLowerCase s) = true ∨ P) ↔
      (s = "" ∨ includes a (env.toLowerCase s) = true ∨ P) := by
  constructor
  · rintro (h | h | h)
    · right; left; rw [h]; exact includes_empty a
    · exact Or.inr (Or.inl h)
    · exact Or.inr (Or.inr h)
  · rintro (h | h | h)
    · left; rw [h]; exact env.toLowerCase_empty
    · exact Or.inr (Or.inl h)
    · exact Or.inr (Or.inr h)

/-- `o?.toLowerCase().includes(search)` is truthy exactly when the property is present
and its lower-cased text includes `search`. -/
theorem optIncludesLower_iff (env : JSEnv) (o : Option String) (search : String) :
    optIncludesLower env o search = true ↔
      ∃ text, o = some text ∧ includes (env.toLowerCase text) search = true := by
  cases o <;> simp [optIncludesLower]

/-- The accumulator of `Nat.toDigitsCore` is a suffix of its result. -/
theorem toDigitsCore_append (fuel n : ℕ) (ds : List Char) :
    Nat.toDigitsCore 10 fuel n ds = Nat.toDigitsCore 10 fuel n [] ++ ds := by
  induction fuel generalizing n ds with
  | zero => simp [Nat.toDigitsCore]
  | succ k ih =>
    simp only [Nat.toDigitsCore]
    split
    · simp
    · rw [ih (n / 10) (Nat.digitChar (n % 10) :: ds), ih (n / 10) [Nat.digitChar (n % 10)]]
      simp

/-- With enough fuel the result of `Nat.toDigitsCore` does not depend on the fuel. -/
theorem toDigitsCore_fuel (f1 f2 n : ℕ) (ds : List Char) (h1 : n < f1) (h2 : n < f2) :
    Nat.toDigitsCore 10 f1 n ds = Nat.toDigitsCore 10 f2 n ds := by
  induction f1 generalizing f2 n ds with
  | zero => omega
  | succ k ih =>
    cases f2 with
    | zero => omega
    | succ j =>
      simp only [Nat.toDigitsCore]
      split
      · rfl
      · apply ih <;> omega

/-- A number below ten has one decimal digit. -/
theorem decimalDigits_lt_ten (n : ℕ) (h : n < 10) : decimalDigits n = [Nat.digitChar n] := by
  have h0 : n / 10 = 0 := by omega
  have h1 : n % 10 = n := by omega
  simp [decimalDigits, Nat.toDigits, Nat.toDigitsCore, h0, h1]

/-- The decimal digits of `n ≥ 10` are those of `n / 10` followed by the last digit. -/
theorem decimalDigits_ge_ten (n : ℕ) (h : 10 ≤ n) :
    decimalDigits n = decimalDigits (n / 10) ++ [Nat.digitChar (n % 10)] := by
  have h0 : n / 10 ≠ 0 := by omega
  have step : Nat.toDigitsCore 10 (n + 1) n [] =
      Nat.toDigitsCore 10 n (n / 10) [Nat.digitChar (n % 10)] := by
    simp [Nat.toDigitsCore, h0]
  show Nat.toDigitsCore 10 (n + 1) n [] =
    Nat.toDigitsCore 10 (n / 10 + 1) (n / 10) [] ++ [Nat.digitChar (n % 10)]
  rw [step, toDigitsCore_append,
    toDigitsCore_fuel n (n / 10 + 1) (n / 10) [] (by omega) (by omega)]

/-- The character of a digit value is a decimal digit. -/
theorem digitChar_isDigit (k : ℕ) (h : k < 10) : (Nat.digitChar k).isDigit = true := by
  interval_cases k <;> decide

/-- All characters of a decimal representation are decimal digits. -/
theorem decimalDigits_all_isDigit (n : ℕ) : (decimalDigits n).all Char.isDigit = true := by
  induction n using Nat.strong_induction_on with
  | _ n ih =>
    by_cases h : n < 10
    · rw [decimalDigits_lt_ten n h]
      simp [digitChar_isDigit n h]
    · rw [decimalDigits_ge_ten n (by omega), List.all_append, ih (n / 10) (by omega)]
      simp [digitChar_isDigit (n % 10) (by omega)]

/-- A decimal representation has at least one digit. -/
theorem decimalDigits_ne_nil (n : ℕ) : decimalDigits n ≠ [] := by
  by_cases h : n < 10
  · rw [decimalDigits_lt_ten n h]; simp
  · rw [decimalDigits_ge_ten n (by omega)]; simp

/-- The value of digits followed by one more digit. -/
theorem digitsToNat_append_singleton (l : List Char) (c : Char) :
    digitsToNat (l ++ [c]) =
      match digitsToNat l, digitValue c with
      | some r, some d => some (r * 10 + d)
      | _, _ => none := by
  induction l with
  | nil =>
    simp only [List.nil_append, digitsToNat, List.length_nil, pow_zero]
    cases digitValue c <;> simp
  | cons x l ih =>
    have h1 : digitsToNat (x :: (l ++ [c])) =
        match digitValue x, digitsToNat (l ++ [c]) with
        | some d, some r => some (d * 10 ^ (l ++ [c]).length + r)
        | _, _ => none := rfl
    have h2 : digitsToNat (x :: l) =
        match digitValue x, digitsToNat l with
        | some d, some r => some (d * 10 ^ l.length + r)
        | _, _ => none := rfl
    rw [List.cons_append, h1, ih, h2]
    cases digitValue x <;> cases digitsToNat l <;> cases digitValue c <;>
      simp [pow_succ]
    ring

theorem digitValue_digitChar (d : ℕ) (h : d < 10) : digitValue (Nat.digitChar d) = some d := by
  interval_cases d <;> decide

/-- The value of the decimal digits of `n` is `n`. -/
theorem digitsToNat_decimalDigits (n : ℕ) : digitsToNat (decimalDigits n) = some n := by
  induction n using Nat.strong_induction_on with
  | _ n ih =>
    by_cases h : n < 10
    · rw [decimalDigits_lt_ten n h]
      simp [digitsToNat, digitValue_digitChar n h]
    · rw [decimalDigits_ge_ten n (by omega), digitsToNat_append_singleton,
        ih (n / 10) (by omega), digitValue_digitChar (n % 10) (by omega)]
      simp only [Option.some.injEq]
      omega

/-- On the option value of a category, the decimal digits of its identifier, `==` is
the equality of identifiers. -/
theorem looseEq_idText (id k : ℕ) : looseEq id (idText k) = decide (id = k) := by
  simp [looseEq, idText, digitsToNat_decimalDigits]

/-- C4. With only a category selected, the selected value being the option value of the
identifier `k` (its decimal digits, as `populateCategorySelects` writes them),
`filterExpenses` keeps an expense exactly when a cached category has the identifier `k`
and the lower-cased name of the first such category occurs in the lower-cased categories
label of the expense; when no cached category has the identifier `k`, or the expense has
no label, the expense is excluded. -/
theorem filterExpenses_category_only (env : JSEnv) (st : AppState) (expense : Expense)
    (k : ℕ)
    (hs : st.expenseSearchFilter = "") (hf : st.expenseDateFromFilter = "")
    (ht : st.expenseDateToFilter = "") (hc : st.expenseCategoryFilter = idText k) :
    (expense ∈ filteredExpenses env st ↔
      expense ∈ st.expenses ∧
      ∃ cat label,
        st.categories.find? (fun c => decide (c.category_id = k)) = some cat ∧
        expense.categories = some label ∧
        includes (env.toLowerCase label) (env.toLowerCase cat.name) = true) ∧
    ((∀ cat ∈ st.categories, cat.category_id ≠ k) → expense ∉ filteredExpenses env st) ∧
    (expense.categories = none → expense ∉ filteredExpenses env st) := by
  have hne : idText k ≠ "" := by
    intro h
    have hd := congrArg String.data h
    exact decimalDigits_ne_nil k hd
  have hfun : (fun c : Category => looseEq c.category_id (idText k)) =
      (fun c : Category => decide (c.category_id = k)) := by
    funext c
    exact looseEq_idText c.category_id k
  have key : expense ∈ filteredExpenses env st ↔
      expense ∈ st.expenses ∧
      ∃ cat label,
        st.categories.find? (fun c => decide (c.category_id = k)) = some cat ∧
        expense.categories = some label ∧
        includes (env.toLowerCase label) (env.toLowerCase cat.name) = true := by
    simp only [filteredExpenses, expenseMatches, List.mem_filter, hs, hf, ht,
      env.toLowerCase_empty, decide_True, Bool.true_or, Bool.true_and, Bool.and_true,
      decide_eq_true_eq, Bool.or_eq_true, hc, hne, false_or, hfun]
    cases hfind : st.categories.find? (fun c => decide (c.category_id = k)) with
    | none => simp
    | some cat => simp [optIncludesLower_iff]
  refine ⟨key, ?_, ?_⟩
  · intro hnone hmem
    obtain ⟨_, cat, _, hfind, _⟩ := key.mp hmem
    have hin := List.mem_of_find?_eq_some hfind
    have hid := List.find?_some hfind
    exact hnone cat hin (by simpa using hid)
  · intro hnone hmem
    obtain ⟨_, _, label, _, hlabel, _⟩ := key.mp hmem
    rw [hnone] at hlabel
    cases hlabel

/-- Witness of C4: with `Travel` (identifier 2, the second cached category) selected,
the expense labelled `Food, Travel` is kept and the expenses labelled `Food` or without
a label are dropped; a selected identifier that no cached category has keeps nothing. -/
theorem filterExpenses_category_only_witness :
    travelSelectedState.expenseCategoryFilter = idText 2 ∧
    (groceriesExpense ∈ filteredExpenses exampleEnv travelSelectedState ↔
      groceriesExpense ∈ travelSelectedState.expenses ∧
      ∃ cat label,
        travelSelectedState.categories.find? (fun c => decide (c.category_id = 2)) =
          some cat ∧
        groceriesExpense.categories = some label ∧
        includes (exampleEnv.toLowerCase label) (exampleEnv.toLowerCase cat.name) = true) ∧
    travelSelectedState.categories.find? (fun c => decide (c.category_id = 2)) =
      some travelCategory ∧
    filteredExpenses exampleEnv travelSelectedState = [lunchExpense] ∧
    filteredExpenses exampleEnv foodSelectedState = [lunchExpense] ∧
    filteredExpenses exampleEnv unknownSelectedState = [] :=
  ⟨by decide,
    (filterExpenses_category_only exampleEnv travelSelectedState groceriesExpense 2 rfl rfl
      rfl (by decide)).1, by decide, by decide, by decide, by decide⟩

/-- C5. With only a search text set, `filterExpenses` keeps an expense exactly when the
lower-cased search text occurs in the lower-cased description, in the lower-cased
categories label, or in the string form of the amount: the text of Number::toString for
an amount sent as a Number (12.5 gives `12.5`), the text as sent for an amount sent as a
text (`12.50` stays `12.50`). An absent description or label matches nothing, so such an
expense is kept only through its amount. The search `12.5` keeps the amounts 12.5 and
`12.50`; the search `12.50` keeps the amount `12.50` only. -/
theorem filterExpenses_search_only (env : JSEnv) (st : AppState) (expense : Expense)
    (hc : st.expenseCategoryFilter = "") (hf : st.expenseDateFromFilter = "")
    (ht : st.expenseDateToFilter = "") :
    (expense ∈ filteredExpenses env st ↔
      expense ∈ st.expenses ∧
      ((∃ text, expense.description = some text ∧
          includes (env.toLowerCase text) (env.toLowerCase st.expenseSearchFilter) = true) ∨
       (∃ label, expense.categories = some label ∧
          includes (env.toLowerCase label) (env.toLowerCase st.expenseSearchFilter) = true) ∨
       (∃ x, expense.amount = .number x ∧
          includes (numberToString x) (env.toLowerCase st.expenseSearchFilter) = true) ∨
       (∃ s, expense.amount = .text s ∧
          includes s (env.toLowerCase st.expenseSearchFilter) = true))) ∧
    (expense.description = none → expense.categories = none →
      (expense ∈ filteredExpenses env st ↔
        expense ∈ st.expenses ∧
        ((∃ x, expense.amount = .number x ∧
            includes (numberToString x) (env.toLowerCase st.expenseSearchFilter) = true) ∨
         (∃ s, expense.amount = .text s ∧
            includes s (env.toLowerCase st.expenseSearchFilter) = true)))) ∧
    (numberToString (.finite 25 (-1)) = "12.5" ∧ numberToString (.finite 3 0) = "3" ∧
      numberToString threePointOne = "3.1" ∧ numberToString (.finite 0 0) = "0" ∧
      numberToString (.finite 1 (-1)) = "0.5" ∧ numberToString (.finite 1250 0) = "1250" ∧
      numberToString tenPow21 = "1e+21") ∧
    filteredExpenses exampleEnv amountSearchState = [bareExpense, groceriesExpense] ∧
    filteredExpenses exampleEnv textAmountSearchState = [groceriesExpense] := by
  have hamount : ∀ search : String,
      includes (amountToString expense.amount) search = true ↔
        ((∃ x, expense.amount = .number x ∧ includes (numberToString x) search = true) ∨
         (∃ s, expense.amount = .text s ∧ includes s search = true)) := by
    intro search
    cases hcase : expense.amount with
    | number x => simp [amountToString]
    | text s => simp [amountToString]
  have key : expense ∈ filteredExpenses env st ↔
      expense ∈ st.expenses ∧
      (optIncludesLower env expense.description (env.toLowerCase st.expenseSearchFilter) = true ∨
       optIncludesLower env expense.categories (env.toLowerCase st.expenseSearchFilter) = true ∨
       includes (amountToString expense.amount)
          (env.toLowerCase st.expenseSearchFilter) = true) := by
    simp only [filteredExpenses, expenseMatches, List.mem_filter, hc, hf, ht,
      decide_True, Bool.true_or, Bool.and_true, decide_eq_true_eq, Bool.or_eq_true,
      and_congr_right_iff]
    intro _
    constructor
    · rintro (((h | h) | h) | h)
      · right; right; rw [h]; exact includes_empty _
      · exact Or.inl h
      · exact Or.inr (Or.inl h)
      · exact Or.inr (Or.inr h)
    · rintro (h | h | h)
      · exact Or.inl (Or.inl (Or.inr h))
      · exact Or.inl (Or.inr h)
      · exact Or.inr h
  refine ⟨?_, ?_, ⟨by decide, by decide, by decide, by decide, by decide, by decide,
    by decide⟩, by decide, by decide⟩
  · rw [key, optIncludesLower_iff, optIncludesLower_iff, hamount]
  · intro hd hl
    rw [key, hd, hl, hamount]
    simp [optIncludesLower]

/-- Witness of C5: the search text `12.5` keeps the expense of amount 12.5 that has
neither description nor label, through the string form `12.5` of its amount, and the
expense whose amount was sent as the text `12.50`; the search text `Lunch` keeps the
expense described `Team lunch` only. -/
theorem filterExpenses_search_only_witness :
    (bareExpense ∈ filteredExpenses exampleEnv amountSearchState ↔
      bareExpense ∈ amountSearchState.expenses ∧
      ((∃ x, bareExpense.amount = .number x ∧
          includes (numberToString x)
            (exampleEnv.toLowerCase amountSearchState.expenseSearchFilter) = true) ∨
       (∃ s, bareExpense.amount = .text s ∧
          includes s (exampleEnv.toLowerCase amountSearchState.expenseSearchFilter) = true))) ∧
    bareExpense ∈ filteredExpenses exampleEnv amountSearchState ∧
    includes (numberToString (.finite 25 (-1)))
      (exampleEnv.toLowerCase amountSearchState.expenseSearchFilter) = true ∧
    filteredExpenses exampleEnv amountSearchState = [bareExpense, groceriesExpense] ∧
    filteredExpenses exampleEnv lunchSearchState = [lunchExpense] :=
  ⟨(filterExpenses_search_only exampleEnv amountSearchState bareExpense rfl rfl rfl).2.1
      rfl rfl, by decide, by decide, by decide, by decide⟩

/-- C6. `filterUsers` keeps a user exactly when (the search text is empty or occurs,
lower-cased, in the lower-cased first or last name) and (no role is selected or the role
of the user is the selected role); the role filter `admin` over an admin and a user
keeps the admin only. -/
theorem filterUsers_keeps_iff (env : JSEnv) (st : AppState) (user : User) :
    (user ∈ filteredUsers env st ↔
      user ∈ st.users ∧
      (st.userSearchFilter = "" ∨
        includes (env.toLowerCase user.first_name) (env.toLowerCase st.userSearchFilter) = true ∨
        includes (env.toLowerCase user.last_name) (env.toLowerCase st.userSearchFilter) = true) ∧
      (st.userRoleFilter = "" ∨ user.role = st.userRoleFilter)) ∧
    filteredUsers exampleEnv adminRoleState = [adminUser] := by
  refine ⟨?_, by decide⟩
  simp only [filteredUsers, userMatches, List.mem_filter, Bool.and_eq_true, Bool.or_eq_true,
    decide_eq_true_eq, or_assoc]
  rw [search_disj_iff]

/-- C7. `filterCategories` and `filterMyCategories` keep a category exactly when the
search text is empty or occurs, lower-cased, in the lower-cased name or in the lower-cased
description; an absent description matches nothing; the search `foo` over `Food` and
`Travel` keeps `Food` only. -/
theorem filterCategories_keeps_iff (env : JSEnv) (st : AppState) (category : Category) :
    (category ∈ filteredCategories env st ↔
      category ∈ st.categories ∧
      (st.categorySearchFilter = "" ∨
        includes (env.toLowerCase category.name)
          (env.toLowerCase st.categorySearchFilter) = true ∨
        ∃ text, category.description = some text ∧
          includes (env.toLowerCase text) (env.toLowerCase st.categorySearchFilter) = true)) ∧
    (category ∈ filteredMyCategories env st ↔
      category ∈ st.myCategories ∧
      (st.myCategorySearchFilter = "" ∨
        includes (env.toLowerCase category.name)
          (env.toLowerCase st.myCategorySearchFilter) = true ∨
        ∃ text, category.description = some text ∧
          includes (env.toLowerCase text) (env.toLowerCase st.myCategorySearchFilter) = true)) ∧
    filteredCategories exampleEnv fooSearchState = [foodCategory] ∧
    filteredMyCategories exampleEnv fooSearchState = [foodCategory] := by
  refine ⟨?_, ?_, by decide, by decide⟩
  · simp only [filteredCategories, categoryMatches, List.mem_filter, Bool.or_eq_true,
      decide_eq_true_eq, or_assoc]
    rw [search_disj_iff, optIncludesLower_iff]
  · simp only [filteredMyCategories, categoryMatches, List.mem_filter, Bool.or_eq_true,
      decide_eq_true_eq, or_assoc]
    rw [search_disj_iff, optIncludesLower_iff]

/-- A date-only value denotes a whole number of days. -/
theorem parseDateOnly_midnight (y1 y2 y3 y4 m1 m2 d1 d2 : Char) (t : ℤ)
    (h : parseDateOnly y1 y2 y3 y4 m1 m2 d1 d2 = some t) : ∃ day, t = day * msPerDay := by
  unfold parseDateOnly at h
  split at h
  · dsimp only at h
    split at h
    · exact ⟨_, (Option.some.inj h).symm⟩
    · cases h
  · cases h

/-- A string of ten characters that parses is a date-only value: its time value is a
whole number of days (00:00 UTC). -/
theorem parseIsoUtc_dateOnly (s : String) (t : ℤ) (hlen : s.length = 10)
    (h : parseIsoUtc s = some t) : ∃ day, t = day * msPerDay := by
  unfold parseIsoUtc at h
  split at h
  · rename_i y1 y2 y3 y4 c1 m1 m2 c2 d1 d2 rest heq
    have hrest : rest = [] := by
      have : s.data.length = 10 := hlen
      rw [heq] at this
      simpa using this
    subst hrest
    split at h
    · split at h
      · rename_i day tod hday htod
        simp only [parseTimeSuffix, Option.some.injEq] at htod
        obtain ⟨d, hd⟩ := parseDateOnly_midnight _ _ _ _ _ _ _ _ day hday
        refine ⟨d, ?_⟩
        have := Option.some.inj h
        omega
      · cases h
    · cases h
  · cases h


/-- On a string in a UTC form of the date-time format `new Date` gives the parsed
time value, whatever the browser. -/
theorem newDate_of_parseIsoUtc (env : JSEnv) (s : String) (t : ℤ)
    (h : parseIsoUtc s = some t) : newDate env s = some t := by
  simp [newDate, h]

/-- The date conditions of `filterExpenses` on an expense, with the other criteria
empty. -/
theorem filteredExpenses_dates_only (env : JSEnv) (st : AppState) (expense : Expense)
    (hs : st.expenseSearchFilter = "") (hc : st.expenseCategoryFilter = "") :
    expense ∈ filteredExpenses env st ↔
      expense ∈ st.expenses ∧
      (st.expenseDateFromFilter = "" ∨
        dateGe (newDate env expense.expense_date)
          (newDate env st.expenseDateFromFilter) = true) ∧
      (st.expenseDateToFilter = "" ∨
        dateLe (newDate env expense.expense_date)
          (newDate env st.expenseDateToFilter) = true) := by
  simp only [filteredExpenses, expenseMatches, List.mem_filter, hs, hc,
    env.toLowerCase_empty, decide_True, Bool.true_or, Bool.true_and,
    Bool.and_eq_true, Bool.or_eq_true, decide_eq_true_eq]

/-- Outside the calendar dates: a time stamp with a time of day. The expense stamped
`2024-01-15T10:30:00.000Z` lies on the UTC day of the to-date `2024-01-15`, no other
criterion is set, and `filterExpenses` drops it, since the to-date is read as the instant
00:00 UTC of that day. -/
theorem filterExpenses_time_of_day_stamp :
    lunchExpense ∈ toBoundState.expenses ∧
    toBoundState.expenseSearchFilter = "" ∧ toBoundState.expenseCategoryFilter = "" ∧
    toBoundState.expenseDateFromFilter = "" ∧
    newDate exampleEnv lunchExpense.expense_date = some 1705314600000 ∧
    newDate exampleEnv toBoundState.expenseDateToFilter = some 1705276800000 ∧
    utcDay 1705314600000 = utcDay 1705276800000 ∧
    lunchExpense ∉ filteredExpenses exampleEnv toBoundState ∧
    ¬ (lunchExpense ∈ filteredExpenses exampleEnv toBoundState ↔
        lunchExpense ∈ toBoundState.expenses ∧
        utcDay 1705314600000 ≤ utcDay 1705276800000) := by
  decide

/-- The date bounds on instants. With only the date bounds set, each a date-only value
`YYYY-MM-DD` or empty, `filterExpenses` keeps an expense of valid date exactly when its
UTC day is on or after the from-day and its instant is at or before 00:00 UTC of the
to-day; for an expense whose date is a calendar date (00:00 UTC) both bounds are
inclusive day bounds; an empty bound imposes no restriction; an expense of invalid date
is kept only without bounds. -/
theorem filterExpenses_instant_bounds (env : JSEnv) (st : AppState) (expense : Expense)
    (tf tt : ℤ)
    (hs : st.expenseSearchFilter = "") (hc : st.expenseCategoryFilter = "")
    (hfrom : st.expenseDateFromFilter = "" ∨
      (st.expenseDateFromFilter.length = 10 ∧ parseIsoUtc st.expenseDateFromFilter = some tf))
    (hto : st.expenseDateToFilter = "" ∨
      (st.expenseDateToFilter.length = 10 ∧ parseIsoUtc st.expenseDateToFilter = some tt)) :
    (∀ t, newDate env expense.expense_date = some t →
      (expense ∈ filteredExpenses env st ↔
        expense ∈ st.expenses ∧
        (st.expenseDateFromFilter = "" ∨ utcDay tf ≤ utcDay t) ∧
        (st.expenseDateToFilter = "" ∨ utcDay t < utcDay tt ∨ t = tt)) ∧
      (t % msPerDay = 0 →
        (expense ∈ filteredExpenses env st ↔
          expense ∈ st.expenses ∧
          (st.expenseDateFromFilter = "" ∨ utcDay tf ≤ utcDay t) ∧
          (st.expenseDateToFilter = "" ∨ utcDay t ≤ utcDay tt)))) ∧
    (newDate env expense.expense_date = none →
      (expense ∈ filteredExpenses env st ↔
        expense ∈ st.expenses ∧
        st.expenseDateFromFilter = "" ∧ st.expenseDateToFilter = "")) := by
  have hF : st.expenseDateFromFilter = "" ∨
      (newDate env st.expenseDateFromFilter = some tf ∧ ∃ d, tf = d * msPerDay) := by
    rcases hfrom with h | ⟨hl, hp⟩
    · exact Or.inl h
    · exact Or.inr ⟨newDate_of_parseIsoUtc env _ _ hp, parseIsoUtc_dateOnly _ _ hl hp⟩
  have hT : st.expenseDateToFilter = "" ∨
      (newDate env st.expenseDateToFilter = some tt ∧ ∃ d, tt = d * msPerDay) := by
    rcases hto with h | ⟨hl, hp⟩
    · exact Or.inl h
    · exact Or.inr ⟨newDate_of_parseIsoUtc env _ _ hp, parseIsoUtc_dateOnly _ _ hl hp⟩
  have key := filteredExpenses_dates_only env st expense hs hc
  refine ⟨?_, ?_⟩
  · intro t ht
    rw [ht] at key
    have hge : (st.expenseDateFromFilter = "" ∨
        dateGe (some t) (newDate env st.expenseDateFromFilter) = true) ↔
        (st.expenseDateFromFilter = "" ∨ utcDay tf ≤ utcDay t) := by
      rcases hF with h | ⟨hn, d, hd⟩
      · simp [h]
      · rw [hn]
        simp only [dateGe, decide_eq_true_eq, utcDay, msPerDay] at *
        constructor
        · rintro (h | h)
          · exact Or.inl h
          · right; omega
        · rintro (h | h)
          · exact Or.inl h
          · right; omega
    have hle : (st.expenseDateToFilter = "" ∨
        dateLe (some t) (newDate env st.expenseDateToFilter) = true) ↔
        (st.expenseDateToFilter = "" ∨ utcDay t < utcDay tt ∨ t = tt) := by
      rcases hT with h | ⟨hn, d, hd⟩
      · simp [h]
      · rw [hn]
        simp only [dateLe, decide_eq_true_eq, utcDay, msPerDay] at *
        constructor
        · rintro (h | h)
          · exact Or.inl h
          · right; omega
        · rintro (h | h)
          · exact Or.inl h
          · right; omega
    refine ⟨by rw [key, hge, hle], ?_⟩
    intro hmid
    rw [key, hge, hle]
    rcases hT with h | ⟨hn, d, hd⟩
    · simp [h]
    · have hday : (utcDay t < utcDay tt ∨ t = tt) ↔ utcDay t ≤ utcDay tt := by
        simp only [utcDay, msPerDay] at *
        omega
      rw [hday]
  · intro hnone
    rw [hnone] at key
    rw [key]
    simp [dateGe, dateLe]

/-- C3. With only the date bounds set, each a date-only value `YYYY-MM-DD` or empty, and
the date of the expense a calendar date (its time value is 00:00 UTC of a day, as for a
date-only string or a midnight time stamp), `filterExpenses` keeps the expense exactly
when its day is on or after the from-day (when one is given) and on or before the to-day
(when one is given). Both bounds are inclusive: an expense dated on a bound day itself
is kept; a missing bound imposes no restriction, so without bounds every cached expense
is kept. The date-only value `2024-01-15` and the midnight time stamp
`2024-01-15T00:00:00.000Z` both denote day 19737 after 1970-01-01. -/
theorem filterExpenses_calendar_date_bounds (env : JSEnv) (st : AppState)
    (expense : Expense) (tf tt t : ℤ)
    (hs : st.expenseSearchFilter = "") (hc : st.expenseCategoryFilter = "")
    (hfrom : st.expenseDateFromFilter = "" ∨
      (st.expenseDateFromFilter.length = 10 ∧ parseIsoUtc st.expenseDateFromFilter = some tf))
    (hto : st.expenseDateToFilter = "" ∨
      (st.expenseDateToFilter.length = 10 ∧ parseIsoUtc st.expenseDateToFilter = some tt))
    (hdate : newDate env expense.expense_date = some t) (hcal : t % msPerDay = 0) :
    (expense ∈ filteredExpenses env st ↔
      expense ∈ st.expenses ∧
      (st.expenseDateFromFilter = "" ∨ utcDay tf ≤ utcDay t) ∧
      (st.expenseDateToFilter = "" ∨ utcDay t ≤ utcDay tt)) ∧
    (expense ∈ st.expenses →
      (st.expenseDateFromFilter = "" ∨ utcDay t = utcDay tf) →
      (st.expenseDateToFilter = "" ∨ utcDay t = utcDay tt) →
      expense ∈ filteredExpenses env st) ∧
    (st.expenseDateFromFilter = "" → st.expenseDateToFilter = "" →
      (expense ∈ filteredExpenses env st ↔ expense ∈ st.expenses)) ∧
    (parseIsoUtc "2024-01-15" = some (19737 * msPerDay) ∧
      parseIsoUtc "2024-01-15T00:00:00.000Z" = some (19737 * msPerDay) ∧
      utcDay (19737 * msPerDay) = 19737) := by
  have key := ((filterExpenses_instant_bounds env st expense tf tt hs hc hfrom hto).1
    t hdate).2 hcal
  refine ⟨key, ?_, ?_, by decide, by decide, by decide⟩
  · intro hmem h1 h2
    rw [key]
    refine ⟨hmem, ?_, ?_⟩
    · rcases h1 with h | h
      · exact Or.inl h
      · exact Or.inr (le_of_eq h.symm)
    · rcases h2 with h | h
      · exact Or.inl h
      · exact Or.inr (le_of_eq h)
  · intro h1 h2
    rw [key]
    simp [h1, h2]

/-- Witness of C3: with both bounds `2024-01-15`, the expense dated `2024-01-15` (a
date-only value) and the expense stamped `2024-01-15T00:00:00.000Z` are kept, each dated
on the bound day itself; with the bounds `2024-01-16` to `2024-01-31` neither is. -/
theorem filterExpenses_calendar_date_bounds_witness :
    newDate exampleEnv bareExpense.expense_date = some 1705276800000 ∧
    newDate exampleEnv groceriesExpense.expense_date = some 1705276800000 ∧
    (1705276800000 : ℤ) % msPerDay = 0 ∧ utcDay 1705276800000 = 19737 ∧
    (groceriesExpense ∈ filteredExpenses exampleEnv calendarBoundsState ↔
      groceriesExpense ∈ calendarBoundsState.expenses ∧
      (calendarBoundsState.expenseDateFromFilter = "" ∨
        utcDay 1705276800000 ≤ utcDay 1705276800000) ∧
      (calendarBoundsState.expenseDateToFilter = "" ∨
        utcDay 1705276800000 ≤ utcDay 1705276800000)) ∧
    bareExpense ∈ filteredExpenses exampleEnv calendarBoundsState ∧
    groceriesExpense ∈ filteredExpenses exampleEnv calendarBoundsState ∧
    filteredExpenses exampleEnv laterBoundsState = [] :=
  ⟨by decide, by decide, by decide, by decide,
    (filterExpenses_calendar_date_bounds exampleEnv calendarBoundsState groceriesExpense
      1705276800000 1705276800000 1705276800000 rfl rfl (Or.inr ⟨by decide, by decide⟩)
      (Or.inr ⟨by decide, by decide⟩) (by decide) (by decide)).1,
    by decide, by decide, by decide⟩

/-- The first character of `a ++ b` is the first character of a non-empty `a`. -/
theorem head_append (a b : String) (c : Char) (h : a.data.head? = some c) :
    (a ++ b).data.head? = some c := by
  rw [String.data_append]
  cases hd : a.data with
  | nil => rw [hd] at h; cases h
  | cons x xs => rw [hd] at h; simpa using h

/-- An expense row starts with the line break of its template. -/
theorem expenseRow_head (env : JSEnv) (expense : Expense) :
    (expenseRow env expense).data.head? = some '\n' := by
  unfold expenseRow
  repeat apply head_append
  rfl

/-- A category row of the admin table starts with the line break of its template. -/
theorem categoryRow_head (env : JSEnv) (category : Category) :
    (categoryRow env category).data.head? = some '\n' := by
  unfold categoryRow
  repeat apply head_append
  rfl

/-- A category row of the user table starts with the line break of its template. -/
theorem myCategoryRow_head (env : JSEnv) (category : Category) :
    (myCategoryRow env category).data.head? = some '\n' := by
  unfold myCategoryRow
  repeat apply head_append
  rfl

/-- A user row starts with the line break of its template. -/
theorem userRow_head (env : JSEnv) (currentUser user : User) :
    (userRow env currentUser user).data.head? = some '\n' := by
  unfold userRow
  repeat apply head_append
  rfl

/-- A recent-expense card starts with the line break of its template. -/
theorem recentExpenseItem_head (env : JSEnv) (expense : Expense) :
    (recentExpenseItem env expense).data.head? = some '\n' := by
  unfold recentExpenseItem
  repeat apply head_append
  rfl

/-- A fragment that starts with a line break is none of the placeholders. -/
theorem not_placeholder_of_head (row : String)
    (h : row.data.head? = some '\n') : row ∉ placeholders := by
  intro hmem
  simp only [placeholders, List.mem_cons, List.mem_singleton, List.not_mem_nil, or_false] at hmem
  rcases hmem with h1 | h1 | h1 | h1 <;>
  · rw [h1] at h
    exact absurd h (by decide)

/-- Rows that all start with a line break contain no placeholder. -/
theorem placeholderCount_map_zero {α : Type} (f : α → String) (l : List α)
    (h : ∀ a, (f a).data.head? = some '\n') : placeholderCount (l.map f) = 0 := by
  simp only [placeholderCount, List.length_eq_zero, List.filter_eq_nil_iff, List.mem_map,
    decide_eq_true_eq]
  rintro row ⟨a, _, rfl⟩
  exact not_placeholder_of_head _ (h a)

/-- C8. Each of `displayExpenses`, `displayCategories`, `displayMyCategories`,
`displayUsers` and `displayRecentExpenses` renders the empty list as exactly one record,
which is a placeholder, and renders a non-empty list without any placeholder
(`displayUsers` of a non-empty list renders nothing at all while nobody is signed in). -/
theorem display_placeholder (env : JSEnv) :
    ((displayExpenses env []).length = 1 ∧ placeholderCount (displayExpenses env []) = 1 ∧
      ∀ x xs, placeholderCount (displayExpenses env (x :: xs)) = 0) ∧
    ((displayCategories env []).length = 1 ∧ placeholderCount (displayCategories env []) = 1 ∧
      ∀ x xs, placeholderCount (displayCategories env (x :: xs)) = 0) ∧
    ((displayMyCategories env []).length = 1 ∧
      placeholderCount (displayMyCategories env []) = 1 ∧
      ∀ x xs, placeholderCount (displayMyCategories env (x :: xs)) = 0) ∧
    ((∀ currentUser, ∃ rows, displayUsers env currentUser [] = some rows ∧
        rows.length = 1 ∧ placeholderCount rows = 1) ∧
      (∀ currentUser x xs, ∃ rows, displayUsers env (some currentUser) (x :: xs) = some rows ∧
        placeholderCount rows = 0) ∧
      ∀ x xs, displayUsers env none (x :: xs) = none) ∧
    ((displayRecentExpenses env []).length = 1 ∧
      placeholderCount (displayRecentExpenses env []) = 1 ∧
      ∀ x xs, placeholderCount (displayRecentExpenses env (x :: xs)) = 0) := by
  refine ⟨⟨rfl, rfl, ?_⟩, ⟨rfl, rfl, ?_⟩, ⟨rfl, rfl, ?_⟩, ⟨?_, ?_, ?_⟩, ⟨rfl, rfl, ?_⟩⟩
  · intro x xs
    exact placeholderCount_map_zero _ _ (expenseRow_head env)
  · intro x xs
    exact placeholderCount_map_zero _ _ (categoryRow_head env)
  · intro x xs
    exact placeholderCount_map_zero _ _ (myCategoryRow_head env)
  · intro currentUser
    exact ⟨_, rfl, rfl, rfl⟩
  · intro currentUser x xs
    exact ⟨_, rfl, placeholderCount_map_zero _ _ (userRow_head env currentUser)⟩
  · intro x xs
    rfl
  · intro x xs
    exact placeholderCount_map_zero _ _ (recentExpenseItem_head env)

/-- Splitting digits `ds ++ [a, b]`, with `ds` not empty, two places from the right. -/
theorem fixedText_aux (ds : List Char) (a b : Char) (hds : ds ≠ []) :
    (let digits := ds ++ [a, b]
     let padded :=
       if digits.length ≤ 2 then List.replicate (2 + 1 - digits.length) '0' ++ digits
       else digits
     padded.take (padded.length - 2) ++ '.' :: padded.drop (padded.length - 2)) =
    ds ++ ['.', a, b] := by
  have hpos : 0 < ds.length := List.length_pos.mpr hds
  have hlen : ¬ (ds ++ [a, b]).length ≤ 2 := by
    simp only [List.length_append, List.length_cons, List.length_nil]
    omega
  have hl : (ds ++ [a, b]).length - 2 = ds.length := by
    simp
  simp only [if_neg hlen, hl, List.take_left, List.drop_left]

/-- The text that `toFixed` builds from `n` for two fraction digits: the digits of
`n / 100`, a point, and the last two digits of `n`. -/
theorem fixedText_two (n : ℕ) :
    (let digits := decimalDigits n
     let padded :=
       if digits.length ≤ 2 then List.replicate (2 + 1 - digits.length) '0' ++ digits
       else digits
     padded.take (padded.length - 2) ++ '.' :: padded.drop (padded.length - 2)) =
    decimalDigits (n / 100) ++ ['.', Nat.digitChar (n / 10 % 10), Nat.digitChar (n % 10)] := by
  have d0 : Nat.digitChar 0 = '0' := rfl
  by_cases h1 : n < 10
  · have e1 : n / 100 = 0 := by omega
    have e2 : n / 10 % 10 = 0 := by omega
    have e3 : n % 10 = n := by omega
    rw [e1, e2, e3, decimalDigits_lt_ten n h1, decimalDigits_lt_ten 0 (by omega)]
    simp [List.replicate, d0]
  · by_cases h2 : n < 100
    · have e1 : n / 100 = 0 := by omega
      have e2 : n / 10 % 10 = n / 10 := by omega
      rw [e1, e2, decimalDigits_ge_ten n (by omega), decimalDigits_lt_ten (n / 10) (by omega),
        decimalDigits_lt_ten 0 (by omega)]
      simp [List.replicate, d0]
    · have e1 : n / 10 / 10 = n / 100 := by omega
      have hd : decimalDigits n =
          decimalDigits (n / 100) ++ [Nat.digitChar (n / 10 % 10), Nat.digitChar (n % 10)] := by
        rw [decimalDigits_ge_ten n (by omega), decimalDigits_ge_ten (n / 10) (by omega), e1]
        simp
      rw [hd]
      exact fixedText_aux _ _ _ (decimalDigits_ne_nil _)

/-- `toFixed(2)` of a non-negative finite value below `10^21`. -/
theorem toFixed_two_of_small (m e : ℤ) (hm : 0 ≤ m)
    (hlt : JSNumber.absNum m e < 10 ^ 21 * JSNumber.absDen e) :
    toFixed (.finite m e) 2 =
      twoDecimalText ((2 * JSNumber.absNum m e * 10 ^ 2 + JSNumber.absDen e) /
        (2 * JSNumber.absDen e)) := by
  have h1 : ¬ m < 0 := not_lt.mpr hm
  have h2 : ¬ 10 ^ 21 * JSNumber.absDen e ≤ JSNumber.absNum m e := not_le.mpr hlt
  have h3 : ¬ (2 : ℕ) = 0 := by decide
  unfold toFixed
  dsimp only
  rw [if_neg h1, if_neg h2, if_neg h3]
  have := fixedText_two ((2 * JSNumber.absNum m e * 10 ^ 2 + JSNumber.absDen e) /
        (2 * JSNumber.absDen e))
  dsimp only at this
  rw [this]
  apply String.ext
  simp [twoDecimalText, idText]

/-- The fraction `absNum / absDen` is the mathematical value of a non-negative Number. -/
theorem absNum_div_absDen (m e : ℤ) (hm : 0 ≤ m) :
    ((JSNumber.absNum m e : ℕ) : ℚ) / ((JSNumber.absDen e : ℕ) : ℚ) = (m : ℚ) * (2 : ℚ) ^ e := by
  lift m to ℕ using hm
  rcases le_or_lt 0 e with he | he
  · lift e to ℕ using he
    have h0 : (-(e : ℤ)).toNat = 0 := by omega
    simp [JSNumber.absNum, JSNumber.absDen, h0]
  · obtain ⟨k, rfl⟩ : ∃ k : ℕ, e = -(k : ℤ) := ⟨(-e).toNat, by omega⟩
    have h0 : (-(k : ℤ)).toNat = 0 := by omega
    simp [JSNumber.absNum, JSNumber.absDen, h0, div_eq_mul_inv]

/-- The integer that `toFixed(2)` computes is the nearest integer to `100 * num / den`,
the larger one on a tie. -/
theorem nearest_hundredths (num den : ℕ) (hden : 0 < den) :
    (((2 * num * 10 ^ 2 + den) / (2 * den) : ℕ) : ℚ) ≤ 100 * ((num : ℚ) / den) + 1 / 2 ∧
    100 * ((num : ℚ) / den) + 1 / 2 < (((2 * num * 10 ^ 2 + den) / (2 * den) : ℕ) : ℚ) + 1 := by
  have hq : (0 : ℚ) < den := by exact_mod_cast hden
  have hD : 0 < 2 * den := by omega
  have e1 : 100 * ((num : ℚ) / den) + 1 / 2 = ((2 * num * 10 ^ 2 + den : ℕ) : ℚ) / ((2 * den : ℕ) : ℚ) := by
    push_cast
    field_simp
    ring
  rw [e1]
  have hD' : (0 : ℚ) < ((2 * den : ℕ) : ℚ) := by exact_mod_cast hD
  constructor
  · rw [le_div_iff₀ hD']
    exact_mod_cast Nat.div_mul_le_self _ _
  · rw [div_lt_iff₀ hD']
    have := (Nat.div_lt_iff_lt_mul hD).mp (Nat.lt_succ_self ((2 * num * 10 ^ 2 + den) / (2 * den)))
    exact_mod_cast this

/-- The text of `n` hundredths behind `$` has the two-decimal shape. -/
theorem hasTwoDecimals_twoDecimalText (n : ℕ) :
    hasTwoDecimals ("$" ++ twoDecimalText n) = true := by
  have hdata : ("$" ++ twoDecimalText n).data =
      '$' :: (decimalDigits (n / 100) ++
        ['.', Nat.digitChar (n / 10 % 10), Nat.digitChar (n % 10)]) := by
    simp [twoDecimalText, idText]
  have hrev : (decimalDigits (n / 100) ++
        ['.', Nat.digitChar (n / 10 % 10), Nat.digitChar (n % 10)]).reverse =
      Nat.digitChar (n % 10) :: Nat.digitChar (n / 10 % 10) :: '.' ::
        (decimalDigits (n / 100)).reverse := by
    simp
  unfold hasTwoDecimals
  rw [hdata]
  dsimp only
  rw [hrev]
  have hne : (decimalDigits (n / 100)).reverse.isEmpty = false := by
    cases h : (decimalDigits (n / 100)).reverse with
    | nil => exact absurd (List.reverse_eq_nil_iff.mp h) (decimalDigits_ne_nil _)
    | cons _ _ => rfl
  simp [digitChar_isDigit (n / 10 % 10) (Nat.mod_lt _ (by decide)),
    digitChar_isDigit (n % 10) (Nat.mod_lt _ (by decide)), hne,
    List.all_reverse, decimalDigits_all_isDigit]

/-- C9 (counterexample). The amount `10^21` is a non-negative double and its currency text
is `$1e+21`, which has no decimal point at all. -/
theorem currencyText_1e21_counterexample :
    tenPow21.isDouble = true ∧ tenPow21.isNonNegative = true ∧
    tenPow21.val = 10 ^ 21 ∧
    currencyText (.number tenPow21) = "$1e+21" ∧
    hasTwoDecimals (currencyText (.number tenPow21)) = false := by
  refine ⟨by decide, by decide, ?_, by decide, by decide⟩
  simp only [tenPow21, JSNumber.val]
  norm_num

/-- C9 (amended). For every amount, a Number or a text, whose Number value (that of
`parseFloat`) is finite, not negative and below `10^21`, the rendered currency text is `$`
followed by that value rounded to the nearest hundredth (a tie going up), written as its
whole part, a point and exactly two decimal digits; amount 3 renders `$3.00`, amount 3.1
renders `$3.10` and amount 0 renders `$0.00`, and so do the texts `3.1` and `12.50`
render `$3.10` and `$12.50`. -/
theorem currencyText_two_decimals :
    (∀ amount : Amount, (parseFloat amount).isNonNegative = true →
      (parseFloat amount).isBelow1e21 = true →
      ∃ n : ℕ, (n : ℚ) ≤ 100 * (parseFloat amount).val + 1 / 2 ∧
        100 * (parseFloat amount).val + 1 / 2 < (n : ℚ) + 1 ∧
        currencyText amount = "$" ++ twoDecimalText n ∧
        hasTwoDecimals (currencyText amount) = true) ∧
    currencyText (.number (.finite 3 0)) = "$3.00" ∧
    currencyText (.number threePointOne) = "$3.10" ∧
    currencyText (.number (.finite 0 0)) = "$0.00" ∧
    currencyText (.text "3.1") = "$3.10" ∧
    currencyText (.text "12.50") = "$12.50" := by
  refine ⟨?_, by decide, by decide, by decide, by decide, by decide⟩
  intro amount h0 h1
  have hcur : currencyText amount = "$" ++ toFixed (parseFloat amount) 2 := rfl
  rw [hcur]
  generalize parseFloat amount = x at h0 h1
  cases x with
  | finite m e =>
    have hm : 0 ≤ m := by simpa [JSNumber.isNonNegative] using h0
    have hlt : JSNumber.absNum m e < 10 ^ 21 * JSNumber.absDen e := by
      simpa [JSNumber.isBelow1e21] using h1
    have hden : 0 < JSNumber.absDen e := by
      unfold JSNumber.absDen
      positivity
    have htext : "$" ++ toFixed (.finite m e) 2 =
        "$" ++ twoDecimalText ((2 * JSNumber.absNum m e * 10 ^ 2 + JSNumber.absDen e) /
          (2 * JSNumber.absDen e)) := by
      rw [toFixed_two_of_small m e hm hlt]
    obtain ⟨hle, hlt2⟩ := nearest_hundredths (JSNumber.absNum m e) (JSNumber.absDen e) hden
    rw [absNum_div_absDen m e hm] at hle hlt2
    refine ⟨_, hle, hlt2, htext, ?_⟩
    rw [htext]
    exact hasTwoDecimals_twoDecimalText _
  | posInf => cases h0
  | negInf => cases h0
  | nan => cases h0

/-- Witness of C9 (amended): the double nearest to 3.1 is non-negative and below `10^21`,
and its currency text is `$3.10`. -/
theorem currencyText_two_decimals_witness :
    (∃ n : ℕ, (n : ℚ) ≤ 100 * (parseFloat (.number threePointOne)).val + 1 / 2 ∧
        100 * (parseFloat (.number threePointOne)).val + 1 / 2 < (n : ℚ) + 1 ∧
        currencyText (.number threePointOne) = "$" ++ twoDecimalText n ∧
        hasTwoDecimals (currencyText (.number threePointOne)) = true) ∧
    currencyText (.number threePointOne) = "$3.10" :=
  ⟨currencyText_two_decimals.1 (.number threePointOne) (by decide) (by decide), by decide⟩

/-- `updateDashboardStats` issues no request. -/
theorem updateDashboardStats_fetchLog (env : JSEnv) (l : List Expense) (st : AppState) :
    (updateDashboardStats env l st).fetchLog = st.fetchLog := rfl

/-- The URL of the global collection differs from every per-user URL. -/
theorem global_ne_own (id : String) :
    API_BASE_URL ++ "/expenses" ≠ API_BASE_URL ++ "/users/" ++ id ++ "/expenses" := by
  intro h
  have hd := congrArg String.data h
  simp only [String.data_append, List.append_assoc, List.append_cancel_left_eq] at hd
  have h1 := congrArg (fun l => l[1]?) hd
  simp at h1

/-- C10. For a signed-in user, `loadExpenses`, `loadDashboard` and the fallback fetch of
`openExpenseDetailModal` (made when the expense is not in the cache) each issue exactly
one request, a `GET` of one and the same URL: the global expenses collection exactly
when the role is `admin`, the collection under the user_id of the user otherwise; an
expense found in the cache is shown without any request. -/
theorem expenses_request_scope (env : JSEnv) (net : Request → FetchResult) (st : AppState)
    (user : User) (h : st.currentUser = some user) :
    ∃ url,
      (loadExpenses env net st).fetchLog = st.fetchLog ++ [⟨"GET", url, "include"⟩] ∧
      (loadDashboard env net st).fetchLog = st.fetchLog ++ [⟨"GET", url, "include"⟩] ∧
      (∀ expenseId,
        st.expenses.find? (fun e => decide (e.expense_id = expenseId)) = none →
        (openExpenseDetailModal env net expenseId st).fetchLog =
          st.fetchLog ++ [⟨"GET", url, "include"⟩]) ∧
      (∀ expenseId expense,
        st.expenses.find? (fun e => decide (e.expense_id = expenseId)) = some expense →
        (openExpenseDetailModal env net expenseId st).fetchLog = st.fetchLog) ∧
      (url = API_BASE_URL ++ "/expenses" ↔ user.role = "admin") ∧
      (url = API_BASE_URL ++ "/users/" ++ idText user.user_id ++ "/expenses" ↔
        user.role ≠ "admin") := by
  refine ⟨if user.role = "admin" then API_BASE_URL ++ "/expenses"
      else API_BASE_URL ++ "/users/" ++ idText user.user_id ++ "/expenses", ?_, ?_, ?_, ?_, ?_, ?_⟩
  · simp only [loadExpenses, h]
    split <;> rfl
  · simp only [loadDashboard, h]
    split <;> rfl
  · intro expenseId hfind
    simp only [openExpenseDetailModal, hfind, h]
    split
    · split <;> rfl
    · rfl
  · intro expenseId expense hfind
    simp only [openExpenseDetailModal, hfind]
  · by_cases hr : user.role = "admin"
    · simp [hr]
    · simp only [hr, if_false, iff_false]
      exact fun heq => global_ne_own _ heq.symm
  · by_cases hr : user.role = "admin"
    · simp only [hr, if_true, ne_eq, not_true, iff_false]
      exact global_ne_own _
    · simp [hr]

/-- Witness of C10: the administrator of the example state requests the global
collection from all three functions; the standard user requests the collection under
user_id 2. -/
theorem expenses_request_scope_witness :
    (∃ url,
      (loadExpenses exampleEnv exampleServer exampleState).fetchLog =
        exampleState.fetchLog ++ [⟨"GET", url, "include"⟩] ∧
      (loadDashboard exampleEnv exampleServer exampleState).fetchLog =
        exampleState.fetchLog ++ [⟨"GET", url, "include"⟩] ∧
      (∀ expenseId,
        exampleState.expenses.find? (fun e => decide (e.expense_id = expenseId)) = none →
        (openExpenseDetailModal exampleEnv exampleServer expenseId exampleState).fetchLog =
          exampleState.fetchLog ++ [⟨"GET", url, "include"⟩]) ∧
      (∀ expenseId expense,
        exampleState.expenses.find? (fun e => decide (e.expense_id = expenseId)) = some expense →
        (openExpenseDetailModal exampleEnv exampleServer expenseId exampleState).fetchLog =
          exampleState.fetchLog) ∧
      (url = API_BASE_URL ++ "/expenses" ↔ adminUser.role = "admin") ∧
      (url = API_BASE_URL ++ "/users/" ++ idText adminUser.user_id ++ "/expenses" ↔
        adminUser.role ≠ "admin")) ∧
    (loadExpenses exampleEnv exampleServer exampleState).fetchLog =
      [⟨"GET", "https://finance-tracker-api-beta.vercel.app/api/v1/expenses", "include"⟩] ∧
    (loadDashboard exampleEnv exampleServer plainUserState).fetchLog =
      [⟨"GET", "https://finance-tracker-api-beta.vercel.app/api/v1/users/2/expenses",
        "include"⟩] ∧
    (openExpenseDetailModal exampleEnv exampleServer 7 plainUserState).fetchLog =
      [⟨"GET", "https://finance-tracker-api-beta.vercel.app/api/v1/users/2/expenses",
        "include"⟩] :=
  ⟨expenses_request_scope exampleEnv exampleServer exampleState adminUser rfl,
    by decide, by decide, by decide⟩

/-! ## Session and mutation handlers: theorems -/

/-- C11 (counterexample). The administrator (user_id 1) is signed in, `deleteUser(1)` is
called and the prompt is confirmed: a `DELETE` of the own account is sent. -/
theorem deleteUser_own_account_counterexample :
    exampleState.currentUser = some adminUser ∧ adminUser.user_id = 1 ∧
    (deleteUser exampleEnv (collectionServer exampleCollections) true 1 exampleState).fetchLog =
      [⟨"DELETE", "https://finance-tracker-api-beta.vercel.app/api/v1/users/1", "include"⟩,
       ⟨"GET", "https://finance-tracker-api-beta.vercel.app/api/v1/users", "include"⟩] := by
  decide

/-- C11 (amended). `deleteUser` sends no request when the confirmation prompt is
declined; when it is confirmed, the first request it sends is the `DELETE` of the account
of the given id, for every id, the id of the signed-in user included. -/
theorem deleteUser_requests (env : JSEnv) (net : Network) (st : AppState) :
    (∀ userId, deleteUser env net false userId st = st) ∧
    (∀ userId, ∃ rest,
      (deleteUser env net true userId st).fetchLog =
        st.fetchLog ++
          ⟨"DELETE", API_BASE_URL ++ "/users/" ++ idText userId, "include"⟩ :: rest) ∧
    (∀ user, st.currentUser = some user → ∃ rest,
      (deleteUser env net true user.user_id st).fetchLog =
        st.fetchLog ++
          ⟨"DELETE", API_BASE_URL ++ "/users/" ++ idText user.user_id, "include"⟩ :: rest) := by
  have key : ∀ userId, ∃ rest,
      (deleteUser env net true userId st).fetchLog =
        st.fetchLog ++
          ⟨"DELETE", API_BASE_URL ++ "/users/" ++ idText userId, "include"⟩ :: rest := by
    intro userId
    simp only [deleteUser, Bool.not_true, Bool.false_eq_true, if_false]
    split
    · simp only [loadUsers]
      split
      · split
        · exact ⟨[⟨"GET", API_BASE_URL ++ "/users", "include"⟩], by simp [showAlert]⟩
        · exact ⟨[⟨"GET", API_BASE_URL ++ "/users", "include"⟩], by simp [showAlert]⟩
      · exact ⟨[⟨"GET", API_BASE_URL ++ "/users", "include"⟩], by simp [showAlert]⟩
    · exact ⟨[], by simp [showAlert]⟩
  exact ⟨fun _ => rfl, key, fun user _ => key user.user_id⟩

/-- Witness of C11 (amended): for the signed-in administrator of the example state a
confirmed `deleteUser` of the own id starts with the `DELETE` of that account. -/
theorem deleteUser_requests_witness :
    ∃ rest,
      (deleteUser exampleEnv offlineNetwork true adminUser.user_id exampleState).fetchLog =
        exampleState.fetchLog ++
          ⟨"DELETE", API_BASE_URL ++ "/users/" ++ idText adminUser.user_id, "include"⟩ :: rest :=
  (deleteUser_requests exampleEnv offlineNetwork exampleState).2.2 adminUser rfl

/-- C12 (counterexample). A tab whose session store holds the profile and the page name
`expenses`: after `logout`, and after a `checkAuth` whose verification request is
rejected, the page name is still stored. -/
theorem session_page_kept_counterexample :
    storedSessionState.sessionStorage.currentPage = some "expenses" ∧
    (logout storedSessionState).sessionStorage.currentPage = some "expenses" ∧
    (checkAuth offlineNetwork storedSessionState).sessionStorage.currentPage = some "expenses" ∧
    (checkAuth offlineNetwork storedSessionState).locationHref = "login.html" := by
  decide

/-- C12 (amended). After `logout` the session store does not hold `currentUser`. After
`checkAuth` fails on a stored text that is not empty (a text that `JSON.parse` rejects or
reads as `null`, or a profile whose verification request is rejected or answered with a
response that is not ok) the store does not hold `currentUser` either. When `checkAuth`
finds no stored text, or the empty text, it leaves the store as it is: the key stays
absent, or keeps the empty text, and no profile is stored. In every one of these cases
the page redirects to the login page, and the stored `currentPage` is what it was
before. -/
theorem session_cleared_on_logout_and_auth_failure (net : Network) (st : AppState) :
    ((logout st).sessionStorage.currentUser = none ∧
      (logout st).sessionStorage.currentPage = st.sessionStorage.currentPage ∧
      (logout st).locationHref = "login.html") ∧
    (checkAuth net st).sessionStorage.currentPage = st.sessionStorage.currentPage ∧
    ((st.sessionStorage.currentUser = none ∨ st.sessionStorage.currentUser = some .empty) →
      (checkAuth net st).sessionStorage = st.sessionStorage ∧
      (checkAuth net st).locationHref = "login.html") ∧
    ((st.sessionStorage.currentUser = some .unreadable ∨
        st.sessionStorage.currentUser = some .null ∨
        ((∃ user, st.sessionStorage.currentUser = some (.profile user)) ∧
          isFailure (net st.fetchLog
            ⟨"GET", API_BASE_URL ++ "/categories", "include"⟩) = true)) →
      (checkAuth net st).sessionStorage.currentUser = none ∧
      (checkAuth net st).locationHref = "login.html") ∧
    (((∀ user, st.sessionStorage.currentUser ≠ some (.profile user)) ∨
        isFailure (net st.fetchLog
          ⟨"GET", API_BASE_URL ++ "/categories", "include"⟩) = true) →
      (∀ user, (checkAuth net st).sessionStorage.currentUser ≠ some (.profile user)) ∧
      (checkAuth net st).locationHref = "login.html") := by
  have hpage : (checkAuth net st).sessionStorage.currentPage =
      st.sessionStorage.currentPage := by
    unfold checkAuth
    split
    · rfl
    · rfl
    · rfl
    · rfl
    · dsimp only
      split
      · rfl
      · rfl
      · simp only [updateUserProfile]
        split <;> rfl
  have hleft : (st.sessionStorage.currentUser = none ∨
      st.sessionStorage.currentUser = some .empty) →
      (checkAuth net st).sessionStorage = st.sessionStorage ∧
      (checkAuth net st).locationHref = "login.html" := by
    intro h
    unfold checkAuth
    rcases h with h | h <;> rw [h] <;> exact ⟨rfl, rfl⟩
  have hcleared : (st.sessionStorage.currentUser = some .unreadable ∨
      st.sessionStorage.currentUser = some .null ∨
      ((∃ user, st.sessionStorage.currentUser = some (.profile user)) ∧
        isFailure (net st.fetchLog
          ⟨"GET", API_BASE_URL ++ "/categories", "include"⟩) = true)) →
      (checkAuth net st).sessionStorage.currentUser = none ∧
      (checkAuth net st).locationHref = "login.html" := by
    intro h
    unfold checkAuth
    rcases h with h | h | ⟨⟨user, h⟩, hfail⟩
    · rw [h]
      exact ⟨rfl, rfl⟩
    · rw [h]
      exact ⟨rfl, rfl⟩
    · rw [h]
      dsimp only
      split
      · exact ⟨rfl, rfl⟩
      · exact ⟨rfl, rfl⟩
      · rename_i body hok
        rw [hok] at hfail
        simp [isFailure] at hfail
  refine ⟨⟨rfl, rfl, rfl⟩, hpage, hleft, hcleared, ?_⟩
  intro h
  cases hstored : st.sessionStorage.currentUser with
  | none =>
    obtain ⟨h1, h2⟩ := hleft (Or.inl hstored)
    refine ⟨fun user hu => ?_, h2⟩
    rw [h1, hstored] at hu
    cases hu
  | some stored =>
    cases stored with
    | empty =>
      obtain ⟨h1, h2⟩ := hleft (Or.inr hstored)
      refine ⟨fun user hu => ?_, h2⟩
      rw [h1, hstored] at hu
      cases hu
    | unreadable =>
      obtain ⟨h1, h2⟩ := hcleared (Or.inl hstored)
      refine ⟨fun user hu => ?_, h2⟩
      rw [h1] at hu
      cases hu
    | null =>
      obtain ⟨h1, h2⟩ := hcleared (Or.inr (Or.inl hstored))
      refine ⟨fun user hu => ?_, h2⟩
      rw [h1] at hu
      cases hu
    | profile user0 =>
      rcases h with h | h
      · exact absurd hstored (h user0)
      · obtain ⟨h1, h2⟩ := hcleared (Or.inr (Or.inr ⟨⟨user0, hstored⟩, h⟩))
        refine ⟨fun user hu => ?_, h2⟩
        rw [h1] at hu
        cases hu

/-- Witness of C12 (amended): with the network down, `checkAuth` on the stored session
removes the profile and redirects; on the empty stored text it redirects and the key
keeps the empty text. -/
theorem session_cleared_on_logout_and_auth_failure_witness :
    ((checkAuth offlineNetwork storedSessionState).sessionStorage.currentUser = none ∧
      (checkAuth offlineNetwork storedSessionState).locationHref = "login.html") ∧
    ((checkAuth offlineNetwork emptyProfileState).sessionStorage =
        emptyProfileState.sessionStorage ∧
      (checkAuth offlineNetwork emptyProfileState).locationHref = "login.html") ∧
    (checkAuth offlineNetwork emptyProfileState).sessionStorage.currentUser = some .empty :=
  ⟨(session_cleared_on_logout_and_auth_failure offlineNetwork storedSessionState).2.2.2.1
      (Or.inr (Or.inr ⟨⟨adminUser, rfl⟩, rfl⟩)),
    (session_cleared_on_logout_and_auth_failure offlineNetwork emptyProfileState).2.2.1
      (Or.inr rfl),
    by decide⟩

/-! ## Frame lemmas of the load functions -/

/-- What `loadExpenses` leaves alone. -/
theorem loadExpenses_frame (env : JSEnv) (net : Request → FetchResult) (st : AppState) :
    (loadExpenses env net st).currentUser = st.currentUser ∧
    (loadExpenses env net st).sessionStorage = st.sessionStorage ∧
    (loadExpenses env net st).activePage = st.activePage ∧
    (loadExpenses env net st).categories = st.categories ∧
    (loadExpenses env net st).myCategories = st.myCategories ∧
    (loadExpenses env net st).users = st.users := by
  unfold loadExpenses
  split
  · exact ⟨rfl, rfl, rfl, rfl, rfl, rfl⟩
  · dsimp only
    split <;> exact ⟨rfl, rfl, rfl, rfl, rfl, rfl⟩

/-- What `loadDashboard` leaves alone. -/
theorem loadDashboard_frame (env : JSEnv) (net : Request → FetchResult) (st : AppState) :
    (loadDashboard env net st).currentUser = st.currentUser ∧
    (loadDashboard env net st).sessionStorage = st.sessionStorage ∧
    (loadDashboard env net st).activePage = st.activePage ∧
    (loadDashboard env net st).expenses = st.expenses ∧
    (loadDashboard env net st).categories = st.categories ∧
    (loadDashboard env net st).myCategories = st.myCategories ∧
    (loadDashboard env net st).users = st.users := by
  unfold loadDashboard
  split
  · exact ⟨rfl, rfl, rfl, rfl, rfl, rfl, rfl⟩
  · dsimp only
    split <;> exact ⟨rfl, rfl, rfl, rfl, rfl, rfl, rfl⟩

/-- What `loadCategories` leaves alone, and the request it logs. -/
theorem loadCategories_frame (net : Request → FetchResult) (st : AppState) :
    (loadCategories net st).currentUser = st.currentUser ∧
    (loadCategories net st).sessionStorage = st.sessionStorage ∧
    (loadCategories net st).activePage = st.activePage ∧
    (loadCategories net st).fetchLog =
      st.fetchLog ++ [⟨"GET", API_BASE_URL ++ "/categories", "include"⟩] := by
  unfold loadCategories
  dsimp only
  split <;> exact ⟨rfl, rfl, rfl, rfl⟩

/-- What `loadCategoriesTable` leaves alone, and the request it logs. -/
theorem loadCategoriesTable_frame (env : JSEnv) (net : Request → FetchResult) (st : AppState) :
    (loadCategoriesTable env net st).currentUser = st.currentUser ∧
    (loadCategoriesTable env net st).sessionStorage = st.sessionStorage ∧
    (loadCategoriesTable env net st).activePage = st.activePage ∧
    (loadCategoriesTable env net st).fetchLog =
      st.fetchLog ++ [⟨"GET", API_BASE_URL ++ "/categories", "include"⟩] := by
  unfold loadCategoriesTable
  dsimp only
  split <;> exact ⟨rfl, rfl, rfl, rfl⟩

/-- What `loadMyCategoriesTable` leaves alone, and the request it logs. -/
theorem loadMyCategoriesTable_frame (env : JSEnv) (net : Request → FetchResult)
    (st : AppState) :
    (loadMyCategoriesTable env net st).currentUser = st.currentUser ∧
    (loadMyCategoriesTable env net st).sessionStorage = st.sessionStorage ∧
    (loadMyCategoriesTable env net st).activePage = st.activePage ∧
    (loadMyCategoriesTable env net st).categories = st.categories ∧
    (loadMyCategoriesTable env net st).fetchLog =
      st.fetchLog ++ [⟨"GET", API_BASE_URL ++ "/categories", "include"⟩] := by
  unfold loadMyCategoriesTable
  dsimp only
  split <;> exact ⟨rfl, rfl, rfl, rfl, rfl⟩

/-- What `loadUsers` leaves alone, and the request it logs. -/
theorem loadUsers_frame (env : JSEnv) (net : Request → FetchResult) (st : AppState) :
    (loadUsers env net st).currentUser = st.currentUser ∧
    (loadUsers env net st).sessionStorage = st.sessionStorage ∧
    (loadUsers env net st).activePage = st.activePage ∧
    (loadUsers env net st).fetchLog =
      st.fetchLog ++ [⟨"GET", API_BASE_URL ++ "/users", "include"⟩] := by
  unfold loadUsers
  dsimp only
  split
  · split <;> exact ⟨rfl, rfl, rfl, rfl⟩
  · exact ⟨rfl, rfl, rfl, rfl⟩

/-- The request that `loadExpenses` logs for a signed-in user. -/
theorem loadExpenses_fetchLog (env : JSEnv) (net : Request → FetchResult) (st : AppState)
    (user : User) (h : st.currentUser = some user) :
    (loadExpenses env net st).fetchLog =
      st.fetchLog ++ [⟨"GET", expensesUrl user, "include"⟩] := by
  simp only [loadExpenses, h, expensesUrl]
  split <;> rfl

/-- The request that `loadDashboard` logs for a signed-in user. -/
theorem loadDashboard_fetchLog (env : JSEnv) (net : Request → FetchResult) (st : AppState)
    (user : User) (h : st.currentUser = some user) :
    (loadDashboard env net st).fetchLog =
      st.fetchLog ++ [⟨"GET", expensesUrl user, "include"⟩] := by
  simp only [loadDashboard, h, expensesUrl]
  split <;> rfl

/-- The log after `loadExpenses`, by cases on who is signed in. -/
theorem loadExpenses_fetchLog_cases (env : JSEnv) (net : Request → FetchResult)
    (st : AppState) :
    (loadExpenses env net st).fetchLog =
      match st.currentUser with
      | none => st.fetchLog
      | some user => st.fetchLog ++ [expensesRequest user] := by
  cases h : st.currentUser with
  | none => simp only [loadExpenses, h]
  | some user => exact loadExpenses_fetchLog env net st user h

/-- The log after `loadDashboard`, by cases on who is signed in. -/
theorem loadDashboard_fetchLog_cases (env : JSEnv) (net : Request → FetchResult)
    (st : AppState) :
    (loadDashboard env net st).fetchLog =
      match st.currentUser with
      | none => st.fetchLog
      | some user => st.fetchLog ++ [expensesRequest user] := by
  cases h : st.currentUser with
  | none => simp only [loadDashboard, h]
  | some user => exact loadDashboard_fetchLog env net st user h

/-- C13 (counterexample). The server answers with a success status: `handleAddExpense`
sends its `POST`, shows the success toast and fetches nothing; `handleEditProfile` sends
its `PUT`, patches the profile and fetches nothing. -/
theorem mutation_without_refetch_counterexample :
    (handleAddExpense (collectionServer exampleCollections) exampleState).fetchLog =
      [⟨"POST", "https://finance-tracker-api-beta.vercel.app/api/v1/expenses", "include"⟩] ∧
    (handleAddExpense (collectionServer exampleCollections) exampleState).alerts =
      [("Expense added successfully!", "success")] ∧
    (handleEditProfile profileServer exampleState).fetchLog =
      [⟨"PUT", "https://finance-tracker-api-beta.vercel.app/api/v1/users/1", "include"⟩] ∧
    (handleEditProfile profileServer exampleState).alerts =
      [("Profile updated successfully!", "success")] ∧
    (handleEditProfile profileServer exampleState).users = exampleState.users := by
  decide

/-- C13 (amended). When the server answers the request of the handler with a success
status, `handleEditExpense` and `deleteExpense` then fetch the expenses collection of
the signed-in user, `handleSaveCategory`, `deleteCategory` and
`deleteMyCategoryWithRefresh` the categories collection, `handleEditUser` and
`deleteUser` the users collection; `handleAddExpense` and `handleEditProfile` send no
further request. -/
theorem mutation_refetch (env : JSEnv) (net : Network) (st : AppState) (user : User)
    (hu : st.currentUser = some user) :
    (∀ body,
      net st.fetchLog ⟨"PUT", API_BASE_URL ++ "/expenses/" ++ st.editExpenseId, "include"⟩ =
        .response true body →
      (handleEditExpense env net st).fetchLog =
        st.fetchLog ++ [⟨"PUT", API_BASE_URL ++ "/expenses/" ++ st.editExpenseId, "include"⟩,
          expensesRequest user]) ∧
    (∀ expenseId body,
      net st.fetchLog ⟨"DELETE", API_BASE_URL ++ "/expenses/" ++ idText expenseId, "include"⟩ =
        .response true body →
      (deleteExpense env net true expenseId st).fetchLog =
        st.fetchLog ++
          [⟨"DELETE", API_BASE_URL ++ "/expenses/" ++ idText expenseId, "include"⟩,
            expensesRequest user, expensesRequest user]) ∧
    (∀ body,
      net st.fetchLog
        ⟨if st.categoryId ≠ "" then "PUT" else "POST",
          if st.categoryId ≠ "" then API_BASE_URL ++ "/categories/" ++ st.categoryId
          else API_BASE_URL ++ "/categories", "include"⟩ = .response true body →
      (handleSaveCategory env net st).fetchLog =
        st.fetchLog ++
          [⟨if st.categoryId ≠ "" then "PUT" else "POST",
            if st.categoryId ≠ "" then API_BASE_URL ++ "/categories/" ++ st.categoryId
            else API_BASE_URL ++ "/categories", "include"⟩,
            categoriesRequest, categoriesRequest, categoriesRequest]) ∧
    (∀ categoryId body,
      net st.fetchLog
        ⟨"DELETE", API_BASE_URL ++ "/categories/" ++ idText categoryId, "include"⟩ =
        .response true body →
      (deleteCategory env net true categoryId st).fetchLog =
        st.fetchLog ++
          [⟨"DELETE", API_BASE_URL ++ "/categories/" ++ idText categoryId, "include"⟩,
            categoriesRequest, categoriesRequest, categoriesRequest] ∧
      (deleteMyCategoryWithRefresh env net true categoryId st).fetchLog =
        st.fetchLog ++
          [⟨"DELETE", API_BASE_URL ++ "/categories/" ++ idText categoryId, "include"⟩,
            categoriesRequest, categoriesRequest]) ∧
    (∀ body,
      net st.fetchLog ⟨"PUT", API_BASE_URL ++ "/users/" ++ st.editUserId, "include"⟩ =
        .response true body →
      (handleEditUser env net st).fetchLog =
        st.fetchLog ++ [⟨"PUT", API_BASE_URL ++ "/users/" ++ st.editUserId, "include"⟩,
          usersRequest]) ∧
    (∀ userId body,
      net st.fetchLog ⟨"DELETE", API_BASE_URL ++ "/users/" ++ idText userId, "include"⟩ =
        .response true body →
      (deleteUser env net true userId st).fetchLog =
        st.fetchLog ++ [⟨"DELETE", API_BASE_URL ++ "/users/" ++ idText userId, "include"⟩,
          usersRequest]) ∧
    (handleAddExpense net st).fetchLog =
      st.fetchLog ++ [⟨"POST", API_BASE_URL ++ "/expenses", "include"⟩] ∧
    (handleEditProfile net st).fetchLog =
      st.fetchLog ++ [⟨"PUT", API_BASE_URL ++ "/users/" ++ idText user.user_id, "include"⟩] := by
  refine ⟨?_, ?_, ?_, ?_, ?_, ?_, ?_, ?_⟩
  · intro body hresp
    simp only [handleEditExpense, hu, hresp]
    rw [loadExpenses_fetchLog_cases]
    simp [closeAllModals, showAlert]
  · intro expenseId body hresp
    simp only [deleteExpense, Bool.not_true, Bool.false_eq_true, if_false, hresp]
    rw [loadDashboard_fetchLog_cases, (loadExpenses_frame env _ _).1,
      loadExpenses_fetchLog_cases]
    simp [showAlert, hu]
  · intro body hresp
    simp only [handleSaveCategory, hresp]
    rw [(loadMyCategoriesTable_frame env _ _).2.2.2.2, (loadCategoriesTable_frame env _ _).2.2.2,
      (loadCategories_frame _ _).2.2.2]
    simp [closeAllModals, showAlert, categoriesRequest]
  · intro categoryId body hresp
    constructor
    · simp only [deleteCategory, Bool.not_true, Bool.false_eq_true, if_false, hresp]
      rw [(loadMyCategoriesTable_frame env _ _).2.2.2.2,
        (loadCategoriesTable_frame env _ _).2.2.2, (loadCategories_frame _ _).2.2.2]
      simp [showAlert, categoriesRequest]
    · simp only [deleteMyCategoryWithRefresh, Bool.not_true, Bool.false_eq_true, if_false, hresp]
      rw [(loadMyCategoriesTable_frame env _ _).2.2.2.2, (loadCategories_frame _ _).2.2.2]
      simp [showAlert, categoriesRequest]
  · intro body hresp
    simp only [handleEditUser, hresp]
    rw [(loadUsers_frame env _ _).2.2.2]
    simp [closeAllModals, showAlert, usersRequest]
  · intro userId body hresp
    simp only [deleteUser, Bool.not_true, Bool.false_eq_true, if_false, hresp]
    rw [(loadUsers_frame env _ _).2.2.2]
    simp [showAlert, usersRequest]
  · simp only [handleAddExpense, hu]
    split <;> rfl
  · simp only [handleEditProfile, hu]
    split <;> rfl

/-- Witness of C13 (amended): against the example server, a confirmed `deleteUser(2)` by
the administrator sends the `DELETE` and then fetches the users collection, and a
confirmed `deleteExpense(2)` sends the `DELETE` and then fetches the expenses twice. -/
theorem mutation_refetch_witness :
    (deleteUser exampleEnv (collectionServer exampleCollections) true 2 exampleState).fetchLog =
      exampleState.fetchLog ++
        [⟨"DELETE", API_BASE_URL ++ "/users/" ++ idText 2, "include"⟩, usersRequest] ∧
    (deleteExpense exampleEnv (collectionServer exampleCollections) true 2
        exampleState).fetchLog =
      exampleState.fetchLog ++
        [⟨"DELETE", API_BASE_URL ++ "/expenses/" ++ idText 2, "include"⟩,
          expensesRequest adminUser, expensesRequest adminUser] :=
  ⟨(mutation_refetch exampleEnv (collectionServer exampleCollections) exampleState adminUser
      rfl).2.2.2.2.2.1 2 .other rfl,
   (mutation_refetch exampleEnv (collectionServer exampleCollections) exampleState adminUser
      rfl).2.1 2 .other rfl⟩

/-- The URL of an expenses collection is neither the categories nor the users URL. -/
theorem expensesUrl_ne (user : User) :
    expensesUrl user ≠ API_BASE_URL ++ "/categories" ∧
    expensesUrl user ≠ API_BASE_URL ++ "/users" := by
  unfold expensesUrl
  split
  · constructor
    · intro h
      have hd := congrArg String.data h
      simp only [String.data_append, List.append_cancel_left_eq] at hd
      simp at hd
    · intro h
      have hd := congrArg String.data h
      simp only [String.data_append, List.append_cancel_left_eq] at hd
      simp at hd
  · constructor
    · intro h
      have hd := congrArg String.data h
      simp only [String.data_append, List.append_assoc, List.append_cancel_left_eq] at hd
      have h1 := congrArg (fun l => l[1]?) hd
      simp at h1
    · intro h
      have hd := congrArg String.data h
      simp only [String.data_append, List.append_assoc, List.append_cancel_left_eq] at hd
      have h1 := congrArg List.length hd
      simp at h1

/-- The collection server answers every `DELETE` with a success status. -/
theorem collectionServer_delete (start : Collections) (log : List Request) (url : String) :
    collectionServer start log ⟨"DELETE", url, "include"⟩ = .response true .other := by
  simp [collectionServer]

/-- The categories URL is not the users URL. -/
theorem categories_ne_users : API_BASE_URL ++ "/users" ≠ API_BASE_URL ++ "/categories" := by
  intro h
  have hd := congrArg String.data h
  simp only [String.data_append, List.append_cancel_left_eq] at hd
  simp at hd

/-- The expenses cache after `loadExpenses` against the collection server. -/
theorem loadExpenses_collectionServer (env : JSEnv) (start : Collections) (st : AppState)
    (log : List Request) :
    (loadExpenses env (collectionServer start log) st).expenses =
      match st.currentUser with
      | none => st.expenses
      | some _ => start.expenses.filter fun e =>
          !deletedIn log (API_BASE_URL ++ "/expenses/" ++ idText e.expense_id) := by
  cases hu : st.currentUser with
  | none => simp only [loadExpenses, hu]
  | some user =>
    have h1 := (expensesUrl_ne user).1
    have h2 := (expensesUrl_ne user).2
    unfold expensesUrl at h1 h2
    simp only [loadExpenses, hu, collectionServer, if_true, h1, h2, if_false]

/-- The caches after the three category loads and after `loadUsers` against the
collection server. -/
theorem loads_collectionServer (env : JSEnv) (start : Collections) (st : AppState)
    (log : List Request) :
    (loadCategories (collectionServer start log) st).categories =
      (start.categories.filter fun c =>
        !deletedIn log (API_BASE_URL ++ "/categories/" ++ idText c.category_id)) ∧
    (loadCategoriesTable env (collectionServer start log) st).categories =
      (start.categories.filter fun c =>
        !deletedIn log (API_BASE_URL ++ "/categories/" ++ idText c.category_id)) ∧
    (loadMyCategoriesTable env (collectionServer start log) st).myCategories =
      (start.categories.filter fun c =>
        !deletedIn log (API_BASE_URL ++ "/categories/" ++ idText c.category_id)) ∧
    (loadUsers env (collectionServer start log) st).users =
      (start.users.filter fun u =>
        !deletedIn log (API_BASE_URL ++ "/users/" ++ idText u.user_id)) := by
  refine ⟨?_, ?_, ?_, ?_⟩
  · simp only [loadCategories, collectionServer, if_true, populateCategorySelects]
  · simp only [loadCategoriesTable, collectionServer, if_true]
  · simp only [loadMyCategoriesTable, collectionServer, if_true]
  · simp only [loadUsers, collectionServer, if_true, categories_ne_users, if_false]
    split <;> rfl

/-- A resource is deleted in every log that holds its `DELETE`. -/
theorem deletedIn_of_mem (log : List Request) (url : String)
    (h : (⟨"DELETE", url, "include"⟩ : Request) ∈ log) : deletedIn log url = true := by
  simp only [deletedIn, List.any_eq_true, Bool.and_eq_true, decide_eq_true_eq]
  exact ⟨_, h, rfl, rfl⟩

/-- C14. Against the server of the claim (a successful `DELETE` of id X removes X, a
`GET` returns the collection in full): after a confirmed `deleteExpense(X)` the expenses
cache holds no expense of id X, in every state in which expenses are cached only while
a user is signed in (the program caches expenses in no other state); after a confirmed
`deleteCategory(X)` or `deleteMyCategoryWithRefresh(X)` neither categories cache holds a
category of id X; after a confirmed `deleteUser(X)` the users cache holds no user of id
X. -/
theorem delete_then_cache_lacks_id (env : JSEnv) (start : Collections) (st : AppState)
    (id : ℕ) :
    ((st.currentUser = none → st.expenses = []) →
      ∀ e ∈ (deleteExpense env (collectionServer start) true id st).expenses,
        e.expense_id ≠ id) ∧
    ((∀ c ∈ (deleteCategory env (collectionServer start) true id st).categories,
        c.category_id ≠ id) ∧
      (∀ c ∈ (deleteCategory env (collectionServer start) true id st).myCategories,
        c.category_id ≠ id)) ∧
    ((∀ c ∈ (deleteMyCategoryWithRefresh env (collectionServer start) true id st).categories,
        c.category_id ≠ id) ∧
      (∀ c ∈ (deleteMyCategoryWithRefresh env (collectionServer start) true id st).myCategories,
        c.category_id ≠ id)) ∧
    (∀ u ∈ (deleteUser env (collectionServer start) true id st).users, u.user_id ≠ id) := by
  refine ⟨?_, ⟨?_, ?_⟩, ⟨?_, ?_⟩, ?_⟩
  · intro hinv e he hid
    simp only [deleteExpense, Bool.not_true, Bool.false_eq_true, if_false,
      collectionServer_delete] at he
    rw [(loadDashboard_frame env _ _).2.2.2.1, loadExpenses_collectionServer] at he
    cases hu : st.currentUser with
    | none =>
      simp only [showAlert, hu, hinv hu, List.not_mem_nil] at he
    | some user =>
      simp only [showAlert, hu, List.mem_filter, Bool.not_eq_true'] at he
      rw [hid, deletedIn_of_mem _ _ (by simp)] at he
      exact absurd he.2 (by decide)
  · intro c hc hid
    simp only [deleteCategory, Bool.not_true, Bool.false_eq_true, if_false,
      collectionServer_delete] at hc
    rw [(loadMyCategoriesTable_frame env _ _).2.2.2.1,
      (loads_collectionServer env start _ _).2.1] at hc
    simp only [List.mem_filter, Bool.not_eq_true', (loadCategories_frame _ _).2.2.2,
      showAlert] at hc
    rw [hid, deletedIn_of_mem _ _ (by simp)] at hc
    exact absurd hc.2 (by decide)
  · intro c hc hid
    simp only [deleteCategory, Bool.not_true, Bool.false_eq_true, if_false,
      collectionServer_delete] at hc
    rw [(loads_collectionServer env start _ _).2.2.1] at hc
    simp only [List.mem_filter, Bool.not_eq_true', (loadCategoriesTable_frame env _ _).2.2.2,
      (loadCategories_frame _ _).2.2.2, showAlert, List.append_assoc] at hc
    rw [hid, deletedIn_of_mem _ _ (by simp)] at hc
    exact absurd hc.2 (by decide)
  · intro c hc hid
    simp only [deleteMyCategoryWithRefresh, Bool.not_true, Bool.false_eq_true, if_false,
      collectionServer_delete] at hc
    rw [(loadMyCategoriesTable_frame env _ _).2.2.2.1,
      (loads_collectionServer env start _ _).1] at hc
    simp only [List.mem_filter, Bool.not_eq_true', showAlert] at hc
    rw [hid, deletedIn_of_mem _ _ (by simp)] at hc
    exact absurd hc.2 (by decide)
  · intro c hc hid
    simp only [deleteMyCategoryWithRefresh, Bool.not_true, Bool.false_eq_true, if_false,
      collectionServer_delete] at hc
    rw [(loads_collectionServer env start _ _).2.2.1] at hc
    simp only [List.mem_filter, Bool.not_eq_true', (loadCategories_frame _ _).2.2.2,
      showAlert] at hc
    rw [hid, deletedIn_of_mem _ _ (by simp)] at hc
    exact absurd hc.2 (by decide)
  · intro u hu2 hid
    simp only [deleteUser, Bool.not_true, Bool.false_eq_true, if_false,
      collectionServer_delete] at hu2
    rw [(loads_collectionServer env start _ _).2.2.2] at hu2
    simp only [List.mem_filter, Bool.not_eq_true', showAlert] at hu2
    rw [hid, deletedIn_of_mem _ _ (by simp)] at hu2
    exact absurd hu2.2 (by decide)

/-- Witness of C14: in the example state the administrator deletes expense 2, and the
cache then holds expense 1 only; after `deleteUser(2)` the users cache holds the
administrator only. -/
theorem delete_then_cache_lacks_id_witness :
    (∀ e ∈ (deleteExpense exampleEnv (collectionServer exampleCollections) true 2
        exampleState).expenses, e.expense_id ≠ 2) ∧
    (deleteExpense exampleEnv (collectionServer exampleCollections) true 2
        exampleState).expenses = [bareExpense] ∧
    (deleteUser exampleEnv (collectionServer exampleCollections) true 2
        exampleState).users = [adminUser] :=
  ⟨(delete_then_cache_lacks_id exampleEnv exampleCollections exampleState 2).1
      (fun h => absurd h (by decide)), by decide, by decide⟩

/-- C15. When the fetch of `loadExpenses`, `loadCategories`, `loadCategoriesTable`,
`loadMyCategoriesTable` or `loadUsers` is rejected or answered with a status that is not
ok, the load completes (its `catch` absorbs a rejection) and the state after it is the
state before it with only the request added to the log: the cached arrays and the
rendered tables are what they were; `loadExpenses` without a signed-in user changes
nothing at all. -/
theorem load_failure_keeps_state (env : JSEnv) (net : Request → FetchResult)
    (st : AppState) :
    (∀ user, st.currentUser = some user → isFailure (net (expensesRequest user)) = true →
      loadExpenses env net st =
        { st with fetchLog := st.fetchLog ++ [expensesRequest user] }) ∧
    (st.currentUser = none → loadExpenses env net st = st) ∧
    (isFailure (net categoriesRequest) = true →
      loadCategories net st = { st with fetchLog := st.fetchLog ++ [categoriesRequest] } ∧
      loadCategoriesTable env net st =
        { st with fetchLog := st.fetchLog ++ [categoriesRequest] } ∧
      loadMyCategoriesTable env net st =
        { st with fetchLog := st.fetchLog ++ [categoriesRequest] }) ∧
    (isFailure (net usersRequest) = true →
      loadUsers env net st = { st with fetchLog := st.fetchLog ++ [usersRequest] }) := by
  refine ⟨?_, ?_, ?_, ?_⟩
  · intro user hu hfail
    simp only [loadExpenses, hu]
    simp only [expensesRequest, expensesUrl] at hfail
    split
    · rename_i list hok
      rw [hok] at hfail
      simp [isFailure] at hfail
    · rfl
  · intro hnone
    simp only [loadExpenses, hnone]
  · intro hfail
    simp only [categoriesRequest] at hfail
    refine ⟨?_, ?_, ?_⟩
    · simp only [loadCategories]
      split
      · rename_i list hok
        rw [hok] at hfail
        simp [isFailure] at hfail
      · rfl
    · simp only [loadCategoriesTable]
      split
      · rename_i list hok
        rw [hok] at hfail
        simp [isFailure] at hfail
      · rfl
    · simp only [loadMyCategoriesTable]
      split
      · rename_i list hok
        rw [hok] at hfail
        simp [isFailure] at hfail
      · rfl
  · intro hfail
    simp only [usersRequest] at hfail
    simp only [loadUsers]
    split
    · rename_i list hok
      rw [hok] at hfail
      simp [isFailure] at hfail
    · rfl

/-- Witness of C15: against a server that answers 4xx, the five loads leave the caches
and the tables of the example state as they were. -/
theorem load_failure_keeps_state_witness :
    loadExpenses exampleEnv failingNetwork exampleState =
      { exampleState with fetchLog := exampleState.fetchLog ++ [expensesRequest adminUser] } ∧
    (loadCategories failingNetwork exampleState =
        { exampleState with fetchLog := exampleState.fetchLog ++ [categoriesRequest] } ∧
      loadCategoriesTable exampleEnv failingNetwork exampleState =
        { exampleState with fetchLog := exampleState.fetchLog ++ [categoriesRequest] } ∧
      loadMyCategoriesTable exampleEnv failingNetwork exampleState =
        { exampleState with fetchLog := exampleState.fetchLog ++ [categoriesRequest] }) ∧
    loadUsers exampleEnv failingNetwork exampleState =
      { exampleState with fetchLog := exampleState.fetchLog ++ [usersRequest] } ∧
    (loadUsers exampleEnv failingNetwork exampleState).users = [adminUser, plainUser] ∧
    (loadUsers exampleEnv (fun _ => .rejected) exampleState).usersTableBody =
      exampleState.usersTableBody :=
  ⟨(load_failure_keeps_state exampleEnv failingNetwork exampleState).1 adminUser rfl rfl,
   (load_failure_keeps_state exampleEnv failingNetwork exampleState).2.2.1 rfl,
   (load_failure_keeps_state exampleEnv failingNetwork exampleState).2.2.2 rfl,
   rfl, rfl⟩

/-- The page that `navigateToPage` marks active and stores. -/
theorem navigateToPage_page (env : JSEnv) (net : Network) (pageName : String)
    (st : AppState) :
    (navigateToPage env net pageName st).activePage = pageName ∧
    (navigateToPage env net pageName st).sessionStorage.currentPage = some pageName := by
  unfold navigateToPage
  dsimp only
  split_ifs
  · rw [(loadDashboard_frame env _ _).2.2.1, (loadDashboard_frame env _ _).2.1]
    exact ⟨rfl, rfl⟩
  · exact ⟨rfl, rfl⟩
  · rw [(loadExpenses_frame env _ _).2.2.1, (loadExpenses_frame env _ _).2.1]
    exact ⟨rfl, rfl⟩
  · rw [(loadMyCategoriesTable_frame env _ _).2.2.1, (loadMyCategoriesTable_frame env _ _).2.1]
    exact ⟨rfl, rfl⟩
  · rw [(loadUsers_frame env _ _).2.2.1, (loadUsers_frame env _ _).2.1]
    exact ⟨rfl, rfl⟩
  · rw [(loadCategoriesTable_frame env _ _).2.2.1, (loadCategoriesTable_frame env _ _).2.1]
    exact ⟨rfl, rfl⟩
  · exact ⟨rfl, rfl⟩

/-- `checkAuth` leaves the stored page name alone. -/
theorem checkAuth_currentPage (net : Network) (st : AppState) :
    (checkAuth net st).sessionStorage.currentPage = st.sessionStorage.currentPage := by
  unfold checkAuth
  split
  · rfl
  · rfl
  · rfl
  · rfl
  · dsimp only
    split
    · rfl
    · rfl
    · simp only [updateUserProfile]
      split <;> rfl

/-- C16 (counterexample). `add-expense` is a named page and `navigateToPage` sends no
request for it: entering that page triggers no data refresh. -/
theorem navigateToPage_add_expense_counterexample :
    "add-expense" ∈ namedPages ∧
    (navigateToPage exampleEnv (collectionServer exampleCollections) "add-expense"
      exampleState).fetchLog = exampleState.fetchLog ∧
    (navigateToPage exampleEnv (collectionServer exampleCollections) "add-expense"
      exampleState).activePage = "add-expense" := by
  decide

/-- C16 (amended). For a signed-in user, `navigateToPage` triggers exactly one data
refresh for each of the pages dashboard, expenses, my-categories, users and categories,
namely the load of that page, which sends exactly one request; for the page add-expense
it triggers none. -/
theorem navigateToPage_refresh (env : JSEnv) (net : Network) (st : AppState) (user : User)
    (hu : st.currentUser = some user) :
    (navigateToPage env net "dashboard" st =
        loadDashboard env (net st.fetchLog)
          { st with
            sessionStorage := { st.sessionStorage with currentPage := some "dashboard" }
            activePage := "dashboard" } ∧
      (navigateToPage env net "dashboard" st).fetchLog =
        st.fetchLog ++ [expensesRequest user]) ∧
    (navigateToPage env net "expenses" st =
        loadExpenses env (net st.fetchLog)
          { st with
            sessionStorage := { st.sessionStorage with currentPage := some "expenses" }
            activePage := "expenses" } ∧
      (navigateToPage env net "expenses" st).fetchLog =
        st.fetchLog ++ [expensesRequest user]) ∧
    (navigateToPage env net "my-categories" st =
        loadMyCategoriesTable env (net st.fetchLog)
          { st with
            sessionStorage := { st.sessionStorage with currentPage := some "my-categories" }
            activePage := "my-categories" } ∧
      (navigateToPage env net "my-categories" st).fetchLog =
        st.fetchLog ++ [categoriesRequest]) ∧
    (navigateToPage env net "users" st =
        loadUsers env (net st.fetchLog)
          { st with
            sessionStorage := { st.sessionStorage with currentPage := some "users" }
            activePage := "users" } ∧
      (navigateToPage env net "users" st).fetchLog = st.fetchLog ++ [usersRequest]) ∧
    (navigateToPage env net "categories" st =
        loadCategoriesTable env (net st.fetchLog)
          { st with
            sessionStorage := { st.sessionStorage with currentPage := some "categories" }
            activePage := "categories" } ∧
      (navigateToPage env net "categories" st).fetchLog =
        st.fetchLog ++ [categoriesRequest]) ∧
    (navigateToPage env net "add-expense" st).fetchLog = st.fetchLog := by
  refine ⟨⟨rfl, ?_⟩, ⟨rfl, ?_⟩, ⟨rfl, ?_⟩, ⟨rfl, ?_⟩, ⟨rfl, ?_⟩, rfl⟩
  · show (loadDashboard env _ _).fetchLog = _
    rw [loadDashboard_fetchLog_cases]
    simp [hu]
  · show (loadExpenses env _ _).fetchLog = _
    rw [loadExpenses_fetchLog_cases]
    simp [hu]
  · show (loadMyCategoriesTable env _ _).fetchLog = _
    rw [(loadMyCategoriesTable_frame env _ _).2.2.2.2]
    rfl
  · show (loadUsers env _ _).fetchLog = _
    rw [(loadUsers_frame env _ _).2.2.2]
    rfl
  · show (loadCategoriesTable env _ _).fetchLog = _
    rw [(loadCategoriesTable_frame env _ _).2.2.2]
    rfl

/-- Witness of C16 (amended): the administrator of the example state enters the page
`users`, and exactly the users collection is requested. -/
theorem navigateToPage_refresh_witness :
    (navigateToPage exampleEnv (collectionServer exampleCollections) "users"
      exampleState).fetchLog = exampleState.fetchLog ++ [usersRequest] :=
  ((navigateToPage_refresh exampleEnv (collectionServer exampleCollections) exampleState
    adminUser rfl).2.2.2.1).2

/-- C17. For every named page p, after `navigateToPage(p)` the page selected by the
`DOMContentLoaded` handler of the next load of the page in the same tab is p: it is the
`lastPage` of the handler and the page that the handler makes active; when no page name
is stored the handler selects `dashboard`. -/
theorem lastPage_round_trip (env : JSEnv) (net net2 : Network) (st : AppState) :
    (∀ p ∈ namedPages,
      lastPage (reloadPage (navigateToPage env net p st)) = p ∧
      (onDOMContentLoaded env net2 (reloadPage (navigateToPage env net p st))).activePage = p) ∧
    (st.sessionStorage.currentPage = none →
      lastPage st = "dashboard" ∧
      (onDOMContentLoaded env net2 st).activePage = "dashboard") := by
  have hload : ∀ s : AppState, (onDOMContentLoaded env net2 s).activePage = lastPage s := by
    intro s
    unfold onDOMContentLoaded
    dsimp only
    rw [(navigateToPage_page env net2 _ _).1]
    unfold lastPage
    rw [(loadCategories_frame _ _).2.1, checkAuth_currentPage]
  constructor
  · intro p hp
    have hlast : lastPage (reloadPage (navigateToPage env net p st)) = p := by
      have hne : p ≠ "" := by
        intro h
        rw [h] at hp
        revert hp
        decide
      simp only [lastPage, reloadPage, (navigateToPage_page env net p st).2, hne, if_false]
    exact ⟨hlast, by rw [hload, hlast]⟩
  · intro hnone
    have hlast : lastPage st = "dashboard" := by
      simp only [lastPage, hnone]
    exact ⟨hlast, by rw [hload, hlast]⟩

/-- Witness of C17: a tab of the example state with no stored page name starts on the
dashboard, and after a visit of the users page its next load selects that page. -/
theorem lastPage_round_trip_witness :
    (lastPage exampleState = "dashboard" ∧
      (onDOMContentLoaded exampleEnv offlineNetwork exampleState).activePage = "dashboard") ∧
    lastPage (reloadPage (navigateToPage exampleEnv offlineNetwork "users" exampleState)) =
      "users" :=
  ⟨(lastPage_round_trip exampleEnv offlineNetwork offlineNetwork exampleState).2 rfl,
   ((lastPage_round_trip exampleEnv offlineNetwork offlineNetwork exampleState).1 "users"
      (by decide)).1⟩

/-- A user row is some front part followed by the end of the Delete button, with or
without the attribute `disabled`. -/
theorem userRow_end (env : JSEnv) (currentUser user : User) :
    ∃ front : String,
      userRow env currentUser user =
        front ++ ")\" " ++ (if user.user_id = currentUser.user_id then "disabled" else "") ++
          ">Delete</button>\n" ++ "            </td>\n" ++ "        </tr>\n" ++ "    " := by
  unfold userRow
  exact ⟨_, rfl⟩

/-- The two ends of a user row cannot both end the same text. -/
theorem not_both_ends (l : List Char) (h1 : disabledDeleteButtonEnd.data <:+ l)
    (h2 : enabledDeleteButtonEnd.data <:+ l) : False := by
  have h := List.suffix_of_suffix_length_le h2 h1 (by decide)
  revert h
  decide

/-- C18. For every signed-in user and every non-empty users list, `displayUsers` renders
one row per user, and the Delete button that ends the row of a user is disabled exactly
when the user_id of the row is the user_id of the signed-in user; in every other row it
is enabled. -/
theorem displayUsers_delete_button (env : JSEnv) (currentUser user : User)
    (others : List User) :
    displayUsers env (some currentUser) (user :: others) =
      some ((user :: others).map (userRow env currentUser)) ∧
    (deleteButtonDisabled (userRow env currentUser user) = true ↔
      user.user_id = currentUser.user_id) ∧
    (deleteButtonEnabled (userRow env currentUser user) = true ↔
      user.user_id ≠ currentUser.user_id) := by
  obtain ⟨front, hrow⟩ := userRow_end env currentUser user
  have hdata := congrArg String.data hrow
  simp only [String.data_append, List.append_assoc] at hdata
  refine ⟨rfl, ?_, ?_⟩
  all_goals simp only [deleteButtonDisabled, deleteButtonEnabled, decide_eq_true_eq]
  · by_cases heq : user.user_id = currentUser.user_id
    · simp only [heq, if_true] at hdata
      simp only [heq, iff_true]
      rw [hdata]
      exact ⟨front.data, rfl⟩
    · simp only [heq, if_false] at hdata
      simp only [heq, iff_false]
      intro hdis
      have hen : enabledDeleteButtonEnd.data <:+ (userRow env currentUser user).data := by
        rw [hdata]
        exact ⟨front.data, rfl⟩
      exact not_both_ends _ hdis hen
  · by_cases heq : user.user_id = currentUser.user_id
    · simp only [heq, if_true] at hdata
      simp only [heq, ne_eq, not_true, iff_false]
      intro hen
      have hdis : disabledDeleteButtonEnd.data <:+ (userRow env currentUser user).data := by
        rw [hdata]
        exact ⟨front.data, rfl⟩
      exact not_both_ends _ hdis hen
    · simp only [heq, if_false] at hdata
      simp only [heq, ne_eq, not_false_eq_true, iff_true]
      rw [hdata]
      exact ⟨front.data, rfl⟩


/-- C19 (the code at the failing input). The admin row and the user row of a category
start with the same id cell; the name cell of the admin row is the text of the property
`category_name`, the name cell of the user row is the property `name`. For the category
`Food`, which has no property `category_name`, the admin table shows `undefined` and not
`Food`, and the user table shows `Food`. -/
theorem category_name_cell (env : JSEnv) (category : Category) :
    (∃ rest restMy : String,
      categoryRow env category =
        "\n" ++ "        <tr>\n" ++ "            <td>" ++ idText category.category_id ++
          "</td>\n" ++ "            <td>" ++ templateText category.category_name ++
          "</td>\n" ++ rest ∧
      myCategoryRow env category =
        "\n" ++ "        <tr>\n" ++ "            <td>" ++ idText category.category_id ++
          "</td>\n" ++ "            <td>" ++ category.name ++ "</td>\n" ++ restMy) ∧
    foodCategory.category_name = none ∧ foodCategory.name = "Food" ∧
    includes (categoryRow exampleEnv foodCategory) "<td>undefined</td>" = true ∧
    includes (categoryRow exampleEnv foodCategory) "<td>Food</td>" = false ∧
    includes (myCategoryRow exampleEnv foodCategory) "<td>Food</td>" = true ∧
    includes (myCategoryRow exampleEnv foodCategory) "<td>undefined</td>" = false := by
  refine ⟨⟨"            <td>" ++ orElseText category.description "-" ++ "</td>\n" ++
      "            <td>" ++ formatDate env category.created_at ++ "</td>\n" ++
      "            <td class=\"table-actions\">\n" ++
      "                <button class=\"btn btn-small btn-secondary\" onclick=\"openEditCategoryModal(" ++
      idText category.category_id ++ ")\">Edit</button>\n" ++
      "                <button class=\"btn btn-small btn-danger\" onclick=\"deleteCategory(" ++
      idText category.category_id ++ ")\">Delete</button>\n" ++
      "            </td>\n" ++ "        </tr>\n" ++ "    ",
    "            <td>" ++ orElseText category.description "-" ++ "</td>\n" ++
      "            <td>" ++ formatDate env category.created_at ++ "</td>\n" ++
      "            <td class=\"table-actions\">\n" ++
      "                <button class=\"btn btn-small btn-secondary\" onclick=\"openEditCategoryModal(" ++
      idText category.category_id ++ ")\">Edit</button>\n" ++
      "                <button class=\"btn btn-small btn-danger\" onclick=\"deleteMyCategoryWithRefresh(" ++
      idText category.category_id ++ ")\">Delete</button>\n" ++
      "            </td>\n" ++ "        </tr>\n" ++ "    ", ?_, ?_⟩, rfl, rfl, ?_, ?_, ?_, ?_⟩
  · apply String.ext
    simp only [categoryRow, String.data_append, List.append_assoc]
  · apply String.ext
    simp only [myCategoryRow, String.data_append, List.append_assoc]
  all_goals
    set_option maxRecDepth 20000 in
    decide

/-! ## C20: the sums of the dashboard

Rounding to a double is monotone, and a double below the rounded fraction stays below the
result; so a sum of non-negative amounts over a part of the list never exceeds the sum
over the whole list. -/

theorem bitLength_zero (fuel : ℕ) : JSNumber.bitLength fuel 0 = 0 := by
  cases fuel <;> simp [JSNumber.bitLength]

theorem bitLength_spec (fuel n : ℕ) (h : n < fuel) :
    n < 2 ^ JSNumber.bitLength fuel n ∧
      (n ≠ 0 → 1 ≤ JSNumber.bitLength fuel n ∧ 2 ^ (JSNumber.bitLength fuel n - 1) ≤ n) := by
  induction fuel generalizing n with
  | zero => omega
  | succ f ih =>
    by_cases h0 : n = 0
    · subst h0
      simp
    · have hlt : n / 2 < f := by omega
      obtain ⟨h1, h2⟩ := ih (n / 2) hlt
      have hb : JSNumber.bitLength (f + 1) n = JSNumber.bitLength f (n / 2) + 1 := by
        simp [JSNumber.bitLength, h0]
      rw [hb]
      refine ⟨?_, fun _ => ⟨by omega, ?_⟩⟩
      · rw [pow_succ]
        omega
      · simp only [Nat.add_sub_cancel]
        by_cases hn2 : n / 2 = 0
        · rw [hn2, bitLength_zero]
          simp
          omega
        · obtain ⟨h3, h4⟩ := h2 hn2
          have h5 : 2 ^ JSNumber.bitLength f (n / 2) =
              2 ^ (JSNumber.bitLength f (n / 2) - 1) * 2 := by
            rw [← pow_succ]
            congr 1
            omega
          rw [h5]
          omega

theorem two_zpow_split (z : ℤ) : (2 : ℚ) ^ z = (2 : ℚ) ^ z.toNat / (2 : ℚ) ^ (-z).toNat := by
  rcases le_total 0 z with h | h
  · have h1 : (-z).toNat = 0 := by omega
    have h2 : (z.toNat : ℤ) = z := Int.toNat_of_nonneg h
    rw [h1, pow_zero, div_one, ← zpow_natCast, h2]
  · have h1 : z.toNat = 0 := by omega
    have h2 : ((-z).toNat : ℤ) = -z := Int.toNat_of_nonneg (by omega)
    rw [h1, pow_zero, one_div, ← zpow_natCast, h2, zpow_neg, inv_inv]

/-- The quotient rounded to nearest, a tie to even, lies within a half of the fraction,
and is even when the fraction lies exactly a half away. -/
theorem roundHalfEven_spec (n dd : ℕ) (hdd : 0 < dd) :
    (((if dd < 2 * (n % dd) ∨ (2 * (n % dd) = dd ∧ (n / dd) % 2 = 1) then n / dd + 1
        else n / dd : ℕ) : ℚ) - 1 / 2 ≤ (n : ℚ) / dd) ∧
    ((n : ℚ) / dd ≤ ((if dd < 2 * (n % dd) ∨ (2 * (n % dd) = dd ∧ (n / dd) % 2 = 1)
        then n / dd + 1 else n / dd : ℕ) : ℚ) + 1 / 2) ∧
    (((n : ℚ) / dd = ((if dd < 2 * (n % dd) ∨ (2 * (n % dd) = dd ∧ (n / dd) % 2 = 1)
        then n / dd + 1 else n / dd : ℕ) : ℚ) - 1 / 2 ∨
      (n : ℚ) / dd = ((if dd < 2 * (n % dd) ∨ (2 * (n % dd) = dd ∧ (n / dd) % 2 = 1)
        then n / dd + 1 else n / dd : ℕ) : ℚ) + 1 / 2) →
      (if dd < 2 * (n % dd) ∨ (2 * (n % dd) = dd ∧ (n / dd) % 2 = 1) then n / dd + 1
        else n / dd) % 2 = 0) := by
  have hr : n % dd < dd := Nat.mod_lt _ hdd
  have hn : (n : ℚ) = (dd : ℚ) * ((n / dd : ℕ) : ℚ) + ((n % dd : ℕ) : ℚ) := by
    exact_mod_cast (Nat.div_add_mod n dd).symm
  have hddq : (0 : ℚ) < dd := by exact_mod_cast hdd
  have hu : (n : ℚ) / dd = ((n / dd : ℕ) : ℚ) + ((n % dd : ℕ) : ℚ) / dd := by
    rw [div_eq_iff (ne_of_gt hddq), add_mul, div_mul_cancel₀ _ (ne_of_gt hddq)]
    linarith
  have hrq : ((n % dd : ℕ) : ℚ) < dd := by exact_mod_cast hr
  have hr0 : (0 : ℚ) ≤ ((n % dd : ℕ) : ℚ) := by positivity
  have hfrac1 : ((n % dd : ℕ) : ℚ) / dd < 1 := by
    rw [div_lt_iff₀ hddq]
    linarith
  have hfrac0 : (0 : ℚ) ≤ ((n % dd : ℕ) : ℚ) / dd := by positivity
  rw [hu]
  split_ifs with hc
  · rcases hc with hc | ⟨hc, hodd⟩
    · have hcq : (dd : ℚ) < 2 * ((n % dd : ℕ) : ℚ) := by exact_mod_cast hc
      have hhalf : (1 : ℚ) / 2 < ((n % dd : ℕ) : ℚ) / dd := by
        rw [lt_div_iff₀ hddq]
        linarith
      push_cast
      refine ⟨by linarith, by linarith, ?_⟩
      rintro (h | h) <;> linarith
    · have hcq : 2 * ((n % dd : ℕ) : ℚ) = (dd : ℚ) := by exact_mod_cast hc
      have hhalf : ((n % dd : ℕ) : ℚ) / dd = 1 / 2 := by
        rw [div_eq_iff (ne_of_gt hddq)]
        linarith
      push_cast
      refine ⟨by linarith, by linarith, fun _ => by omega⟩
  · push_neg at hc
    obtain ⟨hc1, hc2⟩ := hc
    have hcq : 2 * ((n % dd : ℕ) : ℚ) ≤ (dd : ℚ) := by exact_mod_cast hc1
    have hhalf : ((n % dd : ℕ) : ℚ) / dd ≤ 1 / 2 := by
      rw [div_le_iff₀ hddq]
      linarith
    refine ⟨by linarith, by linarith, ?_⟩
    rintro (h | h)
    · linarith
    · have h1 : ((n % dd : ℕ) : ℚ) / dd = 1 / 2 := by linarith
      have h2 : 2 * ((n % dd : ℕ) : ℚ) = (dd : ℚ) := by
        rw [div_eq_iff (ne_of_gt hddq)] at h1
        linarith
      have h3 : 2 * (n % dd) = dd := by exact_mod_cast h2
      have := hc2 h3
      omega

theorem bitLength_zpow (n : ℕ) (hn : 0 < n) :
    (n : ℚ) < (2 : ℚ) ^ (JSNumber.bitLength (n + 1) n : ℤ) ∧
      (2 : ℚ) ^ ((JSNumber.bitLength (n + 1) n : ℤ) - 1) ≤ (n : ℚ) := by
  obtain ⟨h1, h2⟩ := bitLength_spec (n + 1) n (Nat.lt_succ_self n)
  obtain ⟨h3, h4⟩ := h2 (by omega)
  constructor
  · rw [zpow_natCast]
    exact_mod_cast h1
  · have h5 : ((JSNumber.bitLength (n + 1) n : ℤ) - 1) =
        ((JSNumber.bitLength (n + 1) n - 1 : ℕ) : ℤ) := by omega
    rw [h5, zpow_natCast]
    exact_mod_cast h4

theorem scaled_le_iff (num den : ℕ) (d : ℤ) :
    den * 2 ^ d.toNat ≤ num * 2 ^ (-d).toNat ↔ (den : ℚ) * (2 : ℚ) ^ d ≤ (num : ℚ) := by
  have hp : (0 : ℚ) < (2 : ℚ) ^ (-d).toNat := by positivity
  rw [two_zpow_split d, ← mul_div_assoc, div_le_iff₀ hp]
  constructor
  · intro h
    exact_mod_cast h
  · intro h
    exact_mod_cast h

/-- The binary exponent found by `roundToDouble` brackets the fraction. -/
theorem exponent_spec (num den : ℕ) (hn : 0 < num) (hd : 0 < den) :
    (2 : ℚ) ^ (if den * 2 ^ ((JSNumber.bitLength (num + 1) num : ℤ) -
          (JSNumber.bitLength (den + 1) den : ℤ)).toNat ≤
        num * 2 ^ (-((JSNumber.bitLength (num + 1) num : ℤ) -
          (JSNumber.bitLength (den + 1) den : ℤ))).toNat
      then (JSNumber.bitLength (num + 1) num : ℤ) - (JSNumber.bitLength (den + 1) den : ℤ)
      else (JSNumber.bitLength (num + 1) num : ℤ) - (JSNumber.bitLength (den + 1) den : ℤ) - 1)
      ≤ (num : ℚ) / den ∧
    (num : ℚ) / den < (2 : ℚ) ^ ((if den * 2 ^ ((JSNumber.bitLength (num + 1) num : ℤ) -
          (JSNumber.bitLength (den + 1) den : ℤ)).toNat ≤
        num * 2 ^ (-((JSNumber.bitLength (num + 1) num : ℤ) -
          (JSNumber.bitLength (den + 1) den : ℤ))).toNat
      then (JSNumber.bitLength (num + 1) num : ℤ) - (JSNumber.bitLength (den + 1) den : ℤ)
      else (JSNumber.bitLength (num + 1) num : ℤ) - (JSNumber.bitLength (den + 1) den : ℤ) - 1)
      + 1) := by
  obtain ⟨hn1, hn2⟩ := bitLength_zpow num hn
  obtain ⟨hd1, hd2⟩ := bitLength_zpow den hd
  generalize (JSNumber.bitLength (num + 1) num : ℤ) = bn at *
  generalize (JSNumber.bitLength (den + 1) den : ℤ) = bd at *
  have hdq : (0 : ℚ) < den := by exact_mod_cast hd
  have h2 : (2 : ℚ) ≠ 0 := two_ne_zero
  split_ifs with hc
  · rw [scaled_le_iff] at hc
    refine ⟨?_, ?_⟩
    · rw [le_div_iff₀ hdq]
      linarith
    · rw [div_lt_iff₀ hdq]
      have e1 : (2 : ℚ) ^ bn = (2 : ℚ) ^ (bn - bd + 1) * (2 : ℚ) ^ (bd - 1) := by
        rw [← zpow_add₀ h2]
        congr 1
        ring
      have hp : (0 : ℚ) < (2 : ℚ) ^ (bn - bd + 1) := by positivity
      nlinarith
  · rw [scaled_le_iff] at hc
    push_neg at hc
    refine ⟨?_, ?_⟩
    · rw [le_div_iff₀ hdq]
      have e1 : (2 : ℚ) ^ (bn - 1) = (2 : ℚ) ^ (bn - bd - 1) * (2 : ℚ) ^ bd := by
        rw [← zpow_add₀ h2]
        congr 1
        ring
      have hp : (0 : ℚ) < (2 : ℚ) ^ (bn - bd - 1) := by positivity
      nlinarith
    · rw [div_lt_iff₀ hdq]
      have e1 : bn - bd - 1 + 1 = bn - bd := by ring
      rw [e1]
      linarith

theorem scaled_div (num den : ℕ) (hd : 0 < den) (E : ℤ) :
    ((num * 2 ^ (-E).toNat : ℕ) : ℚ) / ((den * 2 ^ E.toNat : ℕ) : ℚ) =
      (num : ℚ) / den * (2 : ℚ) ^ (-E) := by
  have hdq : (den : ℚ) ≠ 0 := by exact_mod_cast hd.ne'
  rw [two_zpow_split (-E), neg_neg]
  push_cast
  field_simp

theorem roundToDouble_tail (q1 : ℕ) (e2 : ℤ) :
    (if 971 < (if q1 = 2 ^ 53 then ((2 ^ 52 : ℕ), e2 + 1) else (q1, e2)).2 then
        (if false = true then JSNumber.negInf else JSNumber.posInf)
      else JSNumber.finite
        (if false = true then -(((if q1 = 2 ^ 53 then ((2 ^ 52 : ℕ), e2 + 1) else (q1, e2)).1 : ℕ) : ℤ)
          else (((if q1 = 2 ^ 53 then ((2 ^ 52 : ℕ), e2 + 1) else (q1, e2)).1 : ℕ) : ℤ))
        (if q1 = 2 ^ 53 then ((2 ^ 52 : ℕ), e2 + 1) else (q1, e2)).2) =
      if 971 < (if q1 = 2 ^ 53 then e2 + 1 else e2) then JSNumber.posInf
      else JSNumber.finite ((if q1 = 2 ^ 53 then 2 ^ 52 else q1 : ℕ) : ℤ)
        (if q1 = 2 ^ 53 then e2 + 1 else e2) := by
  by_cases h : q1 = 2 ^ 53
  · simp only [h, if_true, Bool.false_eq_true, if_false]
  · simp only [h, if_false, Bool.false_eq_true]

/-- What `roundToDouble` computes for a positive fraction: a binary exponent `lg` that
brackets the fraction, and the fraction scaled by `2^(-E)`, `E = max (lg - 52) (-1074)`,
rounded to a nearest integer `q`, a tie to even; the result is `q * 2^E`, written with 53
bits, or the infinity when the exponent passes 971. -/
theorem roundToDouble_spec (num den : ℕ) (hn : 0 < num) (hd : 0 < den) :
    ∃ (lg : ℤ) (q : ℕ),
      (2 : ℚ) ^ lg ≤ (num : ℚ) / den ∧ (num : ℚ) / den < (2 : ℚ) ^ (lg + 1) ∧
      (q : ℚ) - 1 / 2 ≤ (num : ℚ) / den * (2 : ℚ) ^ (-(max (lg - 52) (-1074))) ∧
      (num : ℚ) / den * (2 : ℚ) ^ (-(max (lg - 52) (-1074))) ≤ (q : ℚ) + 1 / 2 ∧
      (((num : ℚ) / den * (2 : ℚ) ^ (-(max (lg - 52) (-1074))) = (q : ℚ) - 1 / 2 ∨
        (num : ℚ) / den * (2 : ℚ) ^ (-(max (lg - 52) (-1074))) = (q : ℚ) + 1 / 2) →
          q % 2 = 0) ∧
      roundToDouble false num den =
        if 971 < (if q = 2 ^ 53 then max (lg - 52) (-1074) + 1 else max (lg - 52) (-1074))
        then .posInf
        else .finite ((if q = 2 ^ 53 then 2 ^ 52 else q : ℕ) : ℤ)
          (if q = 2 ^ 53 then max (lg - 52) (-1074) + 1 else max (lg - 52) (-1074)) := by
  obtain ⟨hl1, hl2⟩ := exponent_spec num den hn hd
  generalize hlg : (if den * 2 ^ ((JSNumber.bitLength (num + 1) num : ℤ) -
          (JSNumber.bitLength (den + 1) den : ℤ)).toNat ≤
        num * 2 ^ (-((JSNumber.bitLength (num + 1) num : ℤ) -
          (JSNumber.bitLength (den + 1) den : ℤ))).toNat
      then (JSNumber.bitLength (num + 1) num : ℤ) - (JSNumber.bitLength (den + 1) den : ℤ)
      else (JSNumber.bitLength (num + 1) num : ℤ) - (JSNumber.bitLength (den + 1) den : ℤ) - 1)
      = lg at hl1 hl2
  have hdd : 0 < den * 2 ^ (max (lg - 52) (-1074)).toNat := by positivity
  obtain ⟨hq1, hq2, hq3⟩ := roundHalfEven_spec (num * 2 ^ (-(max (lg - 52) (-1074))).toNat)
    (den * 2 ^ (max (lg - 52) (-1074)).toNat) hdd
  rw [scaled_div num den hd] at hq1 hq2 hq3
  refine ⟨lg, _, hl1, hl2, hq1, hq2, hq3, ?_⟩
  unfold roundToDouble
  rw [if_neg hn.ne']
  simp only [hlg]
  exact roundToDouble_tail _ _

theorem roundToDouble_pos (num den : ℕ) (hn : 0 < num) (hd : 0 < den) :
    ∃ (lg : ℤ) (q : ℕ),
      (2 : ℚ) ^ lg ≤ (num : ℚ) / den ∧ (num : ℚ) / den < (2 : ℚ) ^ (lg + 1) ∧
      (q : ℚ) - 1 / 2 ≤ (num : ℚ) / den * (2 : ℚ) ^ (-(max (lg - 52) (-1074))) ∧
      (num : ℚ) / den * (2 : ℚ) ^ (-(max (lg - 52) (-1074))) ≤ (q : ℚ) + 1 / 2 ∧
      (((num : ℚ) / den * (2 : ℚ) ^ (-(max (lg - 52) (-1074))) = (q : ℚ) - 1 / 2 ∨
        (num : ℚ) / den * (2 : ℚ) ^ (-(max (lg - 52) (-1074))) = (q : ℚ) + 1 / 2) →
          q % 2 = 0) ∧
      roundToDouble false num den = packDouble q (max (lg - 52) (-1074)) := by
  obtain ⟨lg, q, h1, h2, h3, h4, h5, h6⟩ := roundToDouble_spec num den hn hd
  exact ⟨lg, q, h1, h2, h3, h4, h5, h6⟩

theorem roundToDouble_zero (negative : Bool) (den : ℕ) :
    roundToDouble negative 0 den = .finite 0 0 := by
  unfold roundToDouble
  rfl

/-- The order of two finite Numbers is the order of their values. -/
theorem le_finite_iff (m1 e1 m2 e2 : ℤ) :
    JSNumber.le (.finite m1 e1) (.finite m2 e2) = true ↔
      (m1 : ℚ) * (2 : ℚ) ^ e1 ≤ (m2 : ℚ) * (2 : ℚ) ^ e2 := by
  unfold JSNumber.le
  simp only [decide_eq_true_eq]
  have h2 : (2 : ℚ) ≠ 0 := two_ne_zero
  have hp : (0 : ℚ) < (2 : ℚ) ^ (min e1 e2) := by positivity
  have k1 : (2 : ℚ) ^ e1 = (2 : ℚ) ^ (e1 - min e1 e2).toNat * (2 : ℚ) ^ (min e1 e2) := by
    rw [← zpow_natCast, ← zpow_add₀ h2]
    congr 1
    have : ((e1 - min e1 e2).toNat : ℤ) = e1 - min e1 e2 :=
      Int.toNat_of_nonneg (by have := min_le_left e1 e2; omega)
    omega
  have k2 : (2 : ℚ) ^ e2 = (2 : ℚ) ^ (e2 - min e1 e2).toNat * (2 : ℚ) ^ (min e1 e2) := by
    rw [← zpow_natCast, ← zpow_add₀ h2]
    congr 1
    have : ((e2 - min e1 e2).toNat : ℤ) = e2 - min e1 e2 :=
      Int.toNat_of_nonneg (by have := min_le_right e1 e2; omega)
    omega
  rw [k1, k2, ← mul_assoc, ← mul_assoc, mul_le_mul_right hp]
  constructor
  · intro h
    exact_mod_cast h
  · intro h
    exact_mod_cast h

theorem nearest_ge_nat (u : ℚ) (q k : ℕ) (h2 : u ≤ (q : ℚ) + 1 / 2) (hk : (k : ℚ) ≤ u) :
    k ≤ q := by
  by_contra hlt
  push_neg at hlt
  have : (q : ℚ) + 1 ≤ k := by exact_mod_cast hlt
  linarith

theorem nearest_le_nat (u : ℚ) (q k : ℕ) (h1 : (q : ℚ) - 1 / 2 ≤ u) (hk : u ≤ (k : ℚ)) :
    q ≤ k := by
  by_contra hlt
  push_neg at hlt
  have : (k : ℚ) + 1 ≤ q := by exact_mod_cast hlt
  linarith

/-- Rounding to nearest, ties to even, is monotone. -/
theorem nearest_mono (u u' : ℚ) (q q' : ℕ) (h1 : (q : ℚ) - 1 / 2 ≤ u)
    (ht : u = (q : ℚ) - 1 / 2 → q % 2 = 0)
    (h2' : u' ≤ (q' : ℚ) + 1 / 2) (ht' : u' = (q' : ℚ) + 1 / 2 → q' % 2 = 0)
    (h : u ≤ u') : q ≤ q' := by
  by_contra hlt
  push_neg at hlt
  have h3 : (q' : ℚ) + 1 ≤ q := by exact_mod_cast hlt
  have e1 : u = (q : ℚ) - 1 / 2 := by linarith
  have e2 : u' = (q' : ℚ) + 1 / 2 := by linarith
  have e3 : (q : ℚ) = (q' : ℚ) + 1 := by linarith
  have e4 : q = q' + 1 := by exact_mod_cast e3
  have := ht e1
  have := ht' e2
  omega

/-- The packed result is the infinity exactly on overflow, and otherwise a finite Number
of the value `q * 2^E` with a significand of at most 53 bits. -/
theorem packDouble_cases (q : ℕ) (E : ℤ) (hq : q ≤ 2 ^ 53) (hE : -1074 ≤ E) :
    (packDouble q E = .posInf ∧ (971 < E ∨ (E = 971 ∧ q = 2 ^ 53))) ∨
    (∃ m e : ℤ, packDouble q E = .finite m e ∧ 0 ≤ m ∧ m ≤ 2 ^ 53 ∧ -1074 ≤ e ∧
      (m : ℚ) * (2 : ℚ) ^ e = (q : ℚ) * (2 : ℚ) ^ E ∧ E ≤ 971 ∧ (E = 971 → q ≠ 2 ^ 53)) := by
  unfold packDouble
  by_cases h : q = 2 ^ 53
  · simp only [h, if_true]
    by_cases h9 : 971 < E + 1
    · left
      rw [if_pos h9]
      refine ⟨rfl, ?_⟩
      rcases (by omega : 971 < E ∨ E = 971) with h1 | h1
      · exact Or.inl h1
      · exact Or.inr ⟨h1, trivial⟩
    · right
      rw [if_neg h9]
      refine ⟨_, _, rfl, by positivity, by norm_num, by omega, ?_, by omega, by omega⟩
      rw [zpow_add₀ (two_ne_zero)]
      push_cast
      ring
  · simp only [h, if_false]
    by_cases h9 : 971 < E
    · left
      rw [if_pos h9]
      exact ⟨rfl, Or.inl h9⟩
    · right
      rw [if_neg h9]
      refine ⟨_, _, rfl, by positivity, by exact_mod_cast hq, hE, rfl, by omega, fun _ => h⟩

theorem le_posInf_of_finite (m e : ℤ) : JSNumber.le (.finite m e) .posInf = true := rfl

/-- A smaller value at a smaller exponent packs to a smaller Number. -/
theorem packDouble_le (q q' : ℕ) (E E' : ℤ) (hq : q ≤ 2 ^ 53) (hq' : q' ≤ 2 ^ 53)
    (hE0 : -1074 ≤ E) (hE : E ≤ E')
    (hv : (q : ℚ) * (2 : ℚ) ^ E ≤ (q' : ℚ) * (2 : ℚ) ^ E') :
    JSNumber.le (packDouble q E) (packDouble q' E') = true := by
  rcases packDouble_cases q' E' hq' (by omega) with ⟨h', _⟩ | ⟨m', e', h', _, _, _, hv', hE', hE''⟩
  · rw [h']
    rcases packDouble_cases q E hq hE0 with ⟨h, _⟩ | ⟨m, e, h, _⟩
    · rw [h]
      rfl
    · rw [h]
      rfl
  · rcases packDouble_cases q E hq hE0 with ⟨h, ho⟩ | ⟨m, e, h, _, _, _, hv1, _, _⟩
    · exfalso
      rcases ho with ho | ⟨ho1, ho2⟩
      · omega
      · have hEE : E' = 971 := by omega
        have hp : (0 : ℚ) < (2 : ℚ) ^ (971 : ℤ) := by positivity
        rw [ho1, hEE, mul_le_mul_right hp] at hv
        have : q ≤ q' := by exact_mod_cast hv
        exact hE'' hEE (by omega)
    · rw [h, h', le_finite_iff, hv1, hv']
      exact hv

theorem significand_le (lg : ℤ) (q : ℕ) (t : ℚ) (ht : t < (2 : ℚ) ^ (lg + 1))
    (h1 : (q : ℚ) - 1 / 2 ≤ t * (2 : ℚ) ^ (-(max (lg - 52) (-1074)))) : q ≤ 2 ^ 53 := by
  have hp : (0 : ℚ) < (2 : ℚ) ^ (-(max (lg - 52) (-1074))) := by positivity
  have h3 : t * (2 : ℚ) ^ (-(max (lg - 52) (-1074))) <
      (2 : ℚ) ^ (lg + 1) * (2 : ℚ) ^ (-(max (lg - 52) (-1074))) :=
    mul_lt_mul_of_pos_right ht hp
  rw [← zpow_add₀ (two_ne_zero)] at h3
  have h4 : (2 : ℚ) ^ (lg + 1 + -(max (lg - 52) (-1074))) ≤ (2 : ℚ) ^ (53 : ℤ) :=
    zpow_le_zpow_right₀ (by norm_num) (by have := le_max_left (lg - 52) (-1074); omega)
  have h5 : (2 : ℚ) ^ (53 : ℤ) = ((2 ^ 53 : ℕ) : ℚ) := by norm_num
  exact nearest_le_nat _ q (2 ^ 53) h1 (by rw [← h5]; linarith)

theorem significand_ge (lg : ℤ) (q : ℕ) (t : ℚ) (ht : (2 : ℚ) ^ lg ≤ t)
    (h2 : t * (2 : ℚ) ^ (-(lg - 52)) ≤ (q : ℚ) + 1 / 2) : 2 ^ 52 ≤ q := by
  have hp : (0 : ℚ) < (2 : ℚ) ^ (-(lg - 52)) := by positivity
  have h3 : (2 : ℚ) ^ lg * (2 : ℚ) ^ (-(lg - 52)) ≤ t * (2 : ℚ) ^ (-(lg - 52)) :=
    mul_le_mul_of_nonneg_right ht hp.le
  rw [← zpow_add₀ (two_ne_zero)] at h3
  have h4 : lg + -(lg - 52) = 52 := by ring
  rw [h4] at h3
  have h5 : (2 : ℚ) ^ (52 : ℤ) = ((2 ^ 52 : ℕ) : ℚ) := by norm_num
  exact nearest_ge_nat _ q (2 ^ 52) h2 (by rw [← h5]; exact h3)

/-- The result of `roundToDouble` for a fraction that is not negative: the infinity, or a
finite Number with a significand between 0 and `2^53` and an exponent of at least -1074. -/
theorem roundToDouble_range (num den : ℕ) (hd : 0 < den) :
    roundToDouble false num den = .posInf ∨
      ∃ m e : ℤ, roundToDouble false num den = .finite m e ∧ 0 ≤ m ∧ m ≤ 2 ^ 53 ∧
        -1074 ≤ e := by
  rcases Nat.eq_zero_or_pos num with h0 | hn
  · right
    rw [h0, roundToDouble_zero]
    exact ⟨0, 0, rfl, le_refl _, by norm_num, by norm_num⟩
  · obtain ⟨lg, q, h1, h2, h3, h4, h5, h6⟩ := roundToDouble_pos num den hn hd
    have hq := significand_le lg q _ h2 h3
    rcases packDouble_cases q _ hq (le_max_right _ _) with ⟨h, _⟩ | ⟨m, e, h, hm0, hm, he, _⟩
    · left
      rw [h6, h]
    · right
      exact ⟨m, e, by rw [h6, h], hm0, hm, he⟩

/-- Rounding to a double is monotone: a smaller fraction rounds to a smaller Number. -/
theorem roundToDouble_mono (n1 d1 n2 d2 : ℕ) (hd1 : 0 < d1) (hd2 : 0 < d2)
    (h : (n1 : ℚ) / d1 ≤ (n2 : ℚ) / d2) :
    JSNumber.le (roundToDouble false n1 d1) (roundToDouble false n2 d2) = true := by
  have hd1q : (0 : ℚ) < d1 := by exact_mod_cast hd1
  have hd2q : (0 : ℚ) < d2 := by exact_mod_cast hd2
  rcases Nat.eq_zero_or_pos n1 with h0 | hn1
  · rw [h0, roundToDouble_zero]
    rcases roundToDouble_range n2 d2 hd2 with hr | ⟨m, e, hr, hm0, _, _⟩
    · rw [hr]
      rfl
    · rw [hr, le_finite_iff]
      have : (0 : ℚ) ≤ (m : ℚ) := by exact_mod_cast hm0
      have : (0 : ℚ) ≤ (m : ℚ) * (2 : ℚ) ^ e := by positivity
      simpa using this
  · have hn2 : 0 < n2 := by
      rcases Nat.eq_zero_or_pos n2 with h0 | hn2
      · exfalso
        rw [h0] at h
        have : (0 : ℚ) < (n1 : ℚ) / d1 := by
          have : (0 : ℚ) < n1 := by exact_mod_cast hn1
          positivity
        simp at h
        linarith
      · exact hn2
    obtain ⟨lg1, q1, a1, a2, a3, a4, a5, a6⟩ := roundToDouble_pos n1 d1 hn1 hd1
    obtain ⟨lg2, q2, b1, b2, b3, b4, b5, b6⟩ := roundToDouble_pos n2 d2 hn2 hd2
    have hq1 := significand_le lg1 q1 _ a2 a3
    have hq2 := significand_le lg2 q2 _ b2 b3
    have hlg : lg1 ≤ lg2 := by
      have : (2 : ℚ) ^ lg1 < (2 : ℚ) ^ (lg2 + 1) := by linarith
      have := (zpow_lt_zpow_iff_right₀ (by norm_num : (1 : ℚ) < 2)).1 this
      omega
    rw [a6, b6]
    apply packDouble_le q1 q2 _ _ hq1 hq2 (le_max_right _ _) (max_le_max (by omega) (le_refl _))
    rcases eq_or_lt_of_le (max_le_max (show lg1 - 52 ≤ lg2 - 52 by omega) (le_refl (-1074 : ℤ)))
      with hE | hE
    · rw [← hE] at b3 b4 b5 ⊢
      have hp : (0 : ℚ) < (2 : ℚ) ^ (max (lg1 - 52) (-1074)) := by positivity
      have hpn : (0 : ℚ) < (2 : ℚ) ^ (-(max (lg1 - 52) (-1074))) := by positivity
      have hu : (n1 : ℚ) / d1 * (2 : ℚ) ^ (-(max (lg1 - 52) (-1074))) ≤
          (n2 : ℚ) / d2 * (2 : ℚ) ^ (-(max (lg1 - 52) (-1074))) :=
        mul_le_mul_of_nonneg_right h hpn.le
      have hqq : q1 ≤ q2 :=
        nearest_mono _ _ q1 q2 a3 (fun e => a5 (Or.inl e)) b4 (fun e => b5 (Or.inr e)) hu
      have : (q1 : ℚ) ≤ q2 := by exact_mod_cast hqq
      exact mul_le_mul_of_nonneg_right this hp.le
    · have hE2 : max (lg2 - 52) (-1074) = lg2 - 52 := by
        have := le_max_right (lg1 - 52) (-1074)
        rcases max_cases (lg2 - 52) (-1074) with ⟨h1, _⟩ | ⟨h1, _⟩
        · exact h1
        · omega
      rw [hE2] at b3 b4 b5 hE ⊢
      have hlg12 : lg1 + 1 ≤ lg2 := by
        by_contra hc
        have : lg1 = lg2 := by omega
        rw [this] at hE
        have := le_max_left (lg2 - 52) (-1074)
        omega
      have hq2ge := significand_ge lg2 q2 _ b1 b4
      -- the first result is at most `2^lg2`, the second at least `2^lg2`
      have hmid2 : (2 : ℚ) ^ lg2 ≤ (q2 : ℚ) * (2 : ℚ) ^ (lg2 - 52) := by
        have h1 : ((2 ^ 52 : ℕ) : ℚ) ≤ q2 := by exact_mod_cast hq2ge
        have hp : (0 : ℚ) < (2 : ℚ) ^ (lg2 - 52) := by positivity
        have h2 : (2 : ℚ) ^ lg2 = ((2 ^ 52 : ℕ) : ℚ) * (2 : ℚ) ^ (lg2 - 52) := by
          have : ((2 ^ 52 : ℕ) : ℚ) = (2 : ℚ) ^ (52 : ℤ) := by norm_num
          rw [this, ← zpow_add₀ (two_ne_zero)]
          congr 1
          ring
        rw [h2]
        exact mul_le_mul_of_nonneg_right h1 hp.le
      have hmid1 : (q1 : ℚ) * (2 : ℚ) ^ (max (lg1 - 52) (-1074)) ≤ (2 : ℚ) ^ lg2 := by
        have hpn : (0 : ℚ) < (2 : ℚ) ^ (-(max (lg1 - 52) (-1074))) := by positivity
        have hp : (0 : ℚ) < (2 : ℚ) ^ (max (lg1 - 52) (-1074)) := by positivity
        have h3 : (n1 : ℚ) / d1 * (2 : ℚ) ^ (-(max (lg1 - 52) (-1074))) <
            (2 : ℚ) ^ (lg1 + 1) * (2 : ℚ) ^ (-(max (lg1 - 52) (-1074))) :=
          mul_lt_mul_of_pos_right a2 hpn
        rw [← zpow_add₀ (two_ne_zero)] at h3
        have hnn : 0 ≤ lg2 - max (lg1 - 52) (-1074) := by omega
        have h4 : (2 : ℚ) ^ (lg1 + 1 + -(max (lg1 - 52) (-1074))) ≤
            (2 : ℚ) ^ (lg2 - max (lg1 - 52) (-1074)) :=
          zpow_le_zpow_right₀ (by norm_num) (by omega)
        have h5 : (2 : ℚ) ^ (lg2 - max (lg1 - 52) (-1074)) =
            ((2 ^ (lg2 - max (lg1 - 52) (-1074)).toNat : ℕ) : ℚ) := by
          push_cast
          rw [← zpow_natCast, Int.toNat_of_nonneg hnn]
        have h6 : q1 ≤ 2 ^ (lg2 - max (lg1 - 52) (-1074)).toNat :=
          nearest_le_nat _ q1 _ a3 (by rw [← h5]; linarith)
        have h7 : (q1 : ℚ) ≤ (2 : ℚ) ^ (lg2 - max (lg1 - 52) (-1074)) := by
          rw [h5]
          exact_mod_cast h6
        have h8 : (2 : ℚ) ^ lg2 = (2 : ℚ) ^ (lg2 - max (lg1 - 52) (-1074)) *
            (2 : ℚ) ^ (max (lg1 - 52) (-1074)) := by
          rw [← zpow_add₀ (two_ne_zero)]
          congr 1
          ring
        rw [h8]
        exact mul_le_mul_of_nonneg_right h7 hp.le
      linarith

/-- A double that is not above the fraction is not above the rounded fraction. -/
theorem roundToDouble_ge (k F : ℤ) (num den : ℕ) (hd : 0 < den) (hk0 : 0 ≤ k)
    (hk : k ≤ 2 ^ 53) (hF : -1074 ≤ F) (h : (k : ℚ) * (2 : ℚ) ^ F ≤ (num : ℚ) / den) :
    JSNumber.le (.finite k F) (roundToDouble false num den) = true := by
  rcases Nat.eq_zero_or_pos num with h0 | hn
  · rw [h0, roundToDouble_zero, le_finite_iff]
    rw [h0] at h
    simpa using h
  · obtain ⟨lg, q, b1, b2, b3, b4, b5, b6⟩ := roundToDouble_pos num den hn hd
    have hq := significand_le lg q _ b2 b3
    rw [b6]
    rcases packDouble_cases q _ hq (le_max_right _ _) with ⟨hr, _⟩ | ⟨m, e, hr, _, _, _, hv, _, _⟩
    · rw [hr]
      rfl
    · rw [hr, le_finite_iff, hv]
      have hkq : (0 : ℚ) ≤ (k : ℚ) := by exact_mod_cast hk0
      rcases le_or_lt (max (lg - 52) (-1074)) F with hE | hE
      · have hnn : 0 ≤ F - max (lg - 52) (-1074) := by omega
        have hpn : (0 : ℚ) < (2 : ℚ) ^ (-(max (lg - 52) (-1074))) := by positivity
        have hp : (0 : ℚ) < (2 : ℚ) ^ (max (lg - 52) (-1074)) := by positivity
        have hK : ((k.toNat * 2 ^ (F - max (lg - 52) (-1074)).toNat : ℕ) : ℚ) =
            (k : ℚ) * (2 : ℚ) ^ (F - max (lg - 52) (-1074)) := by
          push_cast
          rw [← zpow_natCast (2 : ℚ), Int.toNat_of_nonneg hnn]
          congr 1
          have : ((k.toNat : ℤ) : ℚ) = (k : ℚ) := by rw [Int.toNat_of_nonneg hk0]
          exact_mod_cast this
        have h1 : (k : ℚ) * (2 : ℚ) ^ F * (2 : ℚ) ^ (-(max (lg - 52) (-1074))) ≤
            (num : ℚ) / den * (2 : ℚ) ^ (-(max (lg - 52) (-1074))) :=
          mul_le_mul_of_nonneg_right h hpn.le
        rw [mul_assoc, ← zpow_add₀ (two_ne_zero), ← sub_eq_add_neg, ← hK] at h1
        have h2 := nearest_ge_nat _ q _ b4 h1
        have h3 : ((k.toNat * 2 ^ (F - max (lg - 52) (-1074)).toNat : ℕ) : ℚ) ≤ (q : ℚ) := by
          exact_mod_cast h2
        rw [hK] at h3
        have h4 : (2 : ℚ) ^ F = (2 : ℚ) ^ (F - max (lg - 52) (-1074)) *
            (2 : ℚ) ^ (max (lg - 52) (-1074)) := by
          rw [← zpow_add₀ (two_ne_zero)]
          congr 1
          ring
        rw [h4, ← mul_assoc]
        exact mul_le_mul_of_nonneg_right h3 hp.le
      · have hE2 : max (lg - 52) (-1074) = lg - 52 := by
          rcases max_cases (lg - 52) (-1074) with ⟨h1, _⟩ | ⟨h1, _⟩
          · exact h1
          · omega
        rw [hE2] at b3 b4 hE ⊢
        have hq2 := significand_ge lg q _ b1 b4
        have h1 : ((2 ^ 52 : ℕ) : ℚ) ≤ q := by exact_mod_cast hq2
        have hp : (0 : ℚ) < (2 : ℚ) ^ (lg - 52) := by positivity
        have hpF : (0 : ℚ) < (2 : ℚ) ^ F := by positivity
        have h2 : (2 : ℚ) ^ (F + 1) ≤ (2 : ℚ) ^ (lg - 52) :=
          zpow_le_zpow_right₀ (by norm_num) (by omega)
        have h3 : (2 : ℚ) ^ (F + 1) = (2 : ℚ) ^ F * 2 := by
          rw [zpow_add₀ (two_ne_zero), zpow_one]
        have h4 : (k : ℚ) ≤ (2 : ℚ) ^ (53 : ℕ) := by exact_mod_cast hk
        have h5 : ((2 ^ 52 : ℕ) : ℚ) = (2 : ℚ) ^ (52 : ℕ) := by norm_num
        calc (k : ℚ) * (2 : ℚ) ^ F ≤ (2 : ℚ) ^ (53 : ℕ) * (2 : ℚ) ^ F :=
              mul_le_mul_of_nonneg_right h4 hpF.le
          _ = (2 : ℚ) ^ (52 : ℕ) * ((2 : ℚ) ^ F * 2) := by ring
          _ ≤ (2 : ℚ) ^ (52 : ℕ) * (2 : ℚ) ^ (lg - 52) := by
              rw [← h3]
              exact mul_le_mul_of_nonneg_left h2 (by positivity)
          _ ≤ (q : ℚ) * (2 : ℚ) ^ (lg - 52) := by
              rw [← h5]
              exact mul_le_mul_of_nonneg_right h1 hp.le

/-- The sum of two finite Numbers that are not negative is their exact sum, rounded. -/
theorem add_finite_nonneg (m1 e1 m2 e2 : ℤ) (h1 : 0 ≤ m1) (h2 : 0 ≤ m2) :
    ∃ num den : ℕ, 0 < den ∧
      JSNumber.add (.finite m1 e1) (.finite m2 e2) = roundToDouble false num den ∧
      (num : ℚ) / den = (m1 : ℚ) * (2 : ℚ) ^ e1 + (m2 : ℚ) * (2 : ℚ) ^ e2 := by
  have hs : 0 ≤ m1 * 2 ^ (e1 - min e1 e2).toNat + m2 * 2 ^ (e2 - min e1 e2).toNat := by
    positivity
  refine ⟨(m1 * 2 ^ (e1 - min e1 e2).toNat + m2 * 2 ^ (e2 - min e1 e2).toNat).natAbs *
    2 ^ (min e1 e2).toNat, 2 ^ (-(min e1 e2)).toNat, by positivity, ?_, ?_⟩
  · have hd : decide (m1 * 2 ^ (e1 - min e1 e2).toNat + m2 * 2 ^ (e2 - min e1 e2).toNat < 0) =
        false := by
      rw [decide_eq_false_iff_not]
      omega
    simp only [JSNumber.add, hd]
  · have hcast : (((m1 * 2 ^ (e1 - min e1 e2).toNat +
        m2 * 2 ^ (e2 - min e1 e2).toNat).natAbs : ℕ) : ℚ) =
        (m1 : ℚ) * (2 : ℚ) ^ (e1 - min e1 e2) + (m2 : ℚ) * (2 : ℚ) ^ (e2 - min e1 e2) := by
      have e : (((m1 * 2 ^ (e1 - min e1 e2).toNat +
          m2 * 2 ^ (e2 - min e1 e2).toNat).natAbs : ℕ) : ℤ) =
          m1 * 2 ^ (e1 - min e1 e2).toNat + m2 * 2 ^ (e2 - min e1 e2).toNat :=
        Int.natAbs_of_nonneg hs
      have e' := congrArg (fun z : ℤ => (z : ℚ)) e
      simp only [Int.cast_natCast] at e'
      rw [e']
      push_cast
      rw [← zpow_natCast (2 : ℚ) (e1 - min e1 e2).toNat,
        ← zpow_natCast (2 : ℚ) (e2 - min e1 e2).toNat,
        Int.toNat_of_nonneg (by have := min_le_left e1 e2; omega),
        Int.toNat_of_nonneg (by have := min_le_right e1 e2; omega)]
    have hsplit := two_zpow_split (min e1 e2)
    have hpn : (2 : ℚ) ^ (-(min e1 e2)).toNat ≠ 0 := by positivity
    push_cast at hcast ⊢
    rw [hcast, mul_div_assoc, ← hsplit, add_mul, mul_assoc, mul_assoc,
      ← zpow_add₀ (two_ne_zero), ← zpow_add₀ (two_ne_zero)]
    simp

theorem isPartialSum_finite (m e : ℤ) :
    JSNumber.isPartialSum (.finite m e) = true ↔ 0 ≤ m ∧ m ≤ 2 ^ 53 ∧ -1074 ≤ e := by
  simp [JSNumber.isPartialSum, and_assoc]

theorem isNonNegative_cases (x : JSNumber) (hx : x.isNonNegative = true) :
    ∃ m e : ℤ, x = .finite m e ∧ 0 ≤ m := by
  cases x with
  | finite m e => exact ⟨m, e, rfl, by simpa [JSNumber.isNonNegative] using hx⟩
  | posInf => simp [JSNumber.isNonNegative] at hx
  | negInf => simp [JSNumber.isNonNegative] at hx
  | nan => simp [JSNumber.isNonNegative] at hx

theorem isPartialSum_cases (a : JSNumber) (ha : a.isPartialSum = true) :
    a = .posInf ∨ ∃ m e : ℤ, a = .finite m e ∧ 0 ≤ m ∧ m ≤ 2 ^ 53 ∧ -1074 ≤ e := by
  cases a with
  | finite m e => exact Or.inr ⟨m, e, rfl, (isPartialSum_finite m e).1 ha⟩
  | posInf => exact Or.inl rfl
  | negInf => simp [JSNumber.isPartialSum] at ha
  | nan => simp [JSNumber.isPartialSum] at ha

theorem roundToDouble_isPartialSum (num den : ℕ) (hd : 0 < den) :
    (roundToDouble false num den).isPartialSum = true := by
  rcases roundToDouble_range num den hd with h | ⟨m, e, h, h1, h2, h3⟩
  · rw [h]
    rfl
  · rw [h, isPartialSum_finite]
    exact ⟨h1, h2, h3⟩

/-- Adding an amount that is not negative keeps the running sum a partial sum. -/
theorem add_isPartialSum (a x : JSNumber) (ha : a.isPartialSum = true)
    (hx : x.isNonNegative = true) : (JSNumber.add a x).isPartialSum = true := by
  obtain ⟨m2, e2, rfl, h2⟩ := isNonNegative_cases x hx
  rcases isPartialSum_cases a ha with rfl | ⟨m1, e1, rfl, h1, _, _⟩
  · rfl
  · obtain ⟨num, den, hd, hadd, _⟩ := add_finite_nonneg m1 e1 m2 e2 h1 h2
    rw [hadd]
    exact roundToDouble_isPartialSum num den hd

/-- Adding an amount that is not negative does not lower the running sum. -/
theorem le_add_nonneg (a x : JSNumber) (ha : a.isPartialSum = true)
    (hx : x.isNonNegative = true) : JSNumber.le a (JSNumber.add a x) = true := by
  obtain ⟨m2, e2, rfl, h2⟩ := isNonNegative_cases x hx
  rcases isPartialSum_cases a ha with rfl | ⟨m1, e1, rfl, h1, h1', h1''⟩
  · rfl
  · obtain ⟨num, den, hd, hadd, hval⟩ := add_finite_nonneg m1 e1 m2 e2 h1 h2
    rw [hadd]
    apply roundToDouble_ge m1 e1 num den hd h1 h1' h1''
    rw [hval]
    have : (0 : ℚ) ≤ (m2 : ℚ) := by exact_mod_cast h2
    have : (0 : ℚ) ≤ (m2 : ℚ) * (2 : ℚ) ^ e2 := by positivity
    linarith

/-- Adding the same amount to a smaller running sum gives a smaller sum. -/
theorem add_mono_left (a b x : JSNumber) (ha : a.isPartialSum = true)
    (hb : b.isPartialSum = true) (hx : x.isNonNegative = true)
    (h : JSNumber.le a b = true) :
    JSNumber.le (JSNumber.add a x) (JSNumber.add b x) = true := by
  obtain ⟨m2, e2, rfl, h2⟩ := isNonNegative_cases x hx
  rcases isPartialSum_cases b hb with rfl | ⟨mb, eb, rfl, hb1, _, _⟩
  · rcases isPartialSum_cases a ha with rfl | ⟨ma, ea, rfl, ha1, _, _⟩
    · rfl
    · obtain ⟨num, den, hd, hadd, _⟩ := add_finite_nonneg ma ea m2 e2 ha1 h2
      rw [hadd]
      rcases roundToDouble_range num den hd with hr | ⟨m, e, hr, _⟩
      · rw [hr]
        rfl
      · rw [hr]
        rfl
  · rcases isPartialSum_cases a ha with rfl | ⟨ma, ea, rfl, ha1, _, _⟩
    · exact absurd h (by simp [JSNumber.le])
    · obtain ⟨n1, d1, hd1, hadd1, hv1⟩ := add_finite_nonneg ma ea m2 e2 ha1 h2
      obtain ⟨n2, d2, hd2, hadd2, hv2⟩ := add_finite_nonneg mb eb m2 e2 hb1 h2
      rw [hadd1, hadd2]
      apply roundToDouble_mono n1 d1 n2 d2 hd1 hd2
      rw [hv1, hv2]
      have := (le_finite_iff ma ea mb eb).1 h
      linarith

theorem le_trans_partialSum (a b c : JSNumber) (ha : a.isPartialSum = true)
    (hb : b.isPartialSum = true) (hc : c.isPartialSum = true)
    (h1 : JSNumber.le a b = true) (h2 : JSNumber.le b c = true) :
    JSNumber.le a c = true := by
  rcases isPartialSum_cases c hc with rfl | ⟨mc, ec, rfl, _⟩
  · rcases isPartialSum_cases a ha with rfl | ⟨ma, ea, rfl, _⟩
    · rfl
    · rfl
  · rcases isPartialSum_cases b hb with rfl | ⟨mb, eb, rfl, _⟩
    · exact absurd h2 (by simp [JSNumber.le])
    · rcases isPartialSum_cases a ha with rfl | ⟨ma, ea, rfl, _⟩
      · exact absurd h1 (by simp [JSNumber.le])
      · rw [le_finite_iff] at h1 h2 ⊢
        linarith

theorem le_refl_partialSum (a : JSNumber) (ha : a.isPartialSum = true) :
    JSNumber.le a a = true := by
  rcases isPartialSum_cases a ha with rfl | ⟨ma, ea, rfl, _⟩
  · rfl
  · rw [le_finite_iff]

theorem foldl_isPartialSum (l : List Expense) (a : JSNumber) (ha : a.isPartialSum = true)
    (hl : ∀ exp ∈ l, (parseFloat exp.amount).isNonNegative = true) :
    (l.foldl (fun sum exp => JSNumber.add sum (parseFloat exp.amount)) a).isPartialSum =
      true := by
  induction l generalizing a with
  | nil => exact ha
  | cons x l ih =>
    rw [List.foldl_cons]
    exact ih _ (add_isPartialSum a _ ha (hl x (List.mem_cons_self x l)))
      (fun exp he => hl exp (List.mem_cons_of_mem x he))

/-- The running sum over a part of the list, started from a smaller value, stays below
the running sum over the whole list, when no amount is negative. -/
theorem foldl_sublist_le (l' l : List Expense) (hs : List.Sublist l' l)
    (hl : ∀ exp ∈ l, (parseFloat exp.amount).isNonNegative = true) (a' a : JSNumber)
    (ha' : a'.isPartialSum = true) (ha : a.isPartialSum = true)
    (h : JSNumber.le a' a = true) :
    JSNumber.le (l'.foldl (fun sum exp => JSNumber.add sum (parseFloat exp.amount)) a')
      (l.foldl (fun sum exp => JSNumber.add sum (parseFloat exp.amount)) a) = true := by
  induction hs generalizing a' a with
  | slnil => exact h
  | cons x _ ih =>
    rw [List.foldl_cons]
    have hx := hl x (List.mem_cons_self x _)
    exact ih (fun exp he => hl exp (List.mem_cons_of_mem x he)) a' _ ha'
      (add_isPartialSum a _ ha hx)
      (le_trans_partialSum a' a _ ha' ha (add_isPartialSum a _ ha hx) h
        (le_add_nonneg a _ ha hx))
  | cons₂ x _ ih =>
    rw [List.foldl_cons, List.foldl_cons]
    have hx := hl x (List.mem_cons_self x _)
    exact ih (fun exp he => hl exp (List.mem_cons_of_mem x he)) _ _
      (add_isPartialSum a' _ ha' hx) (add_isPartialSum a _ ha hx)
      (add_mono_left a' a _ ha' ha hx h)

/-- The sum over the expenses of the month never exceeds the sum over all expenses, when
no amount is negative. -/
theorem sumAmounts_month_le (env : JSEnv) (expenses : List Expense)
    (hl : ∀ exp ∈ expenses, (parseFloat exp.amount).isNonNegative = true) :
    JSNumber.le (sumAmounts (thisMonthExpenses env expenses)) (sumAmounts expenses) = true :=
  foldl_sublist_le _ _ (List.filter_sublist _) hl _ _ rfl rfl rfl

/-- A double that is not below the fraction is not below the rounded fraction. -/
theorem roundToDouble_le (k F : ℤ) (num den : ℕ) (hd : 0 < den) (hk0 : 0 ≤ k)
    (hk : k < 2 ^ 53) (hF : -1074 ≤ F) (hF' : F ≤ 971)
    (h : (num : ℚ) / den ≤ (k : ℚ) * (2 : ℚ) ^ F) :
    JSNumber.le (roundToDouble false num den) (.finite k F) = true := by
  have hkq : (0 : ℚ) ≤ (k : ℚ) := by exact_mod_cast hk0
  rcases Nat.eq_zero_or_pos num with h0 | hn
  · rw [h0, roundToDouble_zero, le_finite_iff]
    have : (0 : ℚ) ≤ (k : ℚ) * (2 : ℚ) ^ F := by positivity
    simpa using this
  · obtain ⟨lg, q, b1, b2, b3, b4, b5, b6⟩ := roundToDouble_pos num den hn hd
    have hq := significand_le lg q _ b2 b3
    have hpF : (0 : ℚ) < (2 : ℚ) ^ F := by positivity
    have hEF : max (lg - 52) (-1074) ≤ F := by
      by_contra hc
      push_neg at hc
      have hE2 : max (lg - 52) (-1074) = lg - 52 := by
        rcases max_cases (lg - 52) (-1074) with ⟨h1, _⟩ | ⟨h1, _⟩
        · exact h1
        · omega
      rw [hE2] at hc
      have h2 : (2 : ℚ) ^ (F + 53) ≤ (2 : ℚ) ^ lg :=
        zpow_le_zpow_right₀ (by norm_num) (by omega)
      have h3 : (2 : ℚ) ^ (F + 53) = (2 : ℚ) ^ F * (2 : ℚ) ^ (53 : ℕ) := by
        rw [zpow_add₀ (two_ne_zero)]
        norm_cast
      have h4 : (k : ℚ) < (2 : ℚ) ^ (53 : ℕ) := by exact_mod_cast hk
      have h5 : (k : ℚ) * (2 : ℚ) ^ F < (2 : ℚ) ^ (53 : ℕ) * (2 : ℚ) ^ F :=
        mul_lt_mul_of_pos_right h4 hpF
      linarith
    have hnn : 0 ≤ F - max (lg - 52) (-1074) := by omega
    have hpn : (0 : ℚ) < (2 : ℚ) ^ (-(max (lg - 52) (-1074))) := by positivity
    have hp : (0 : ℚ) < (2 : ℚ) ^ (max (lg - 52) (-1074)) := by positivity
    have hK : ((k.toNat * 2 ^ (F - max (lg - 52) (-1074)).toNat : ℕ) : ℚ) =
        (k : ℚ) * (2 : ℚ) ^ (F - max (lg - 52) (-1074)) := by
      push_cast
      rw [← zpow_natCast (2 : ℚ), Int.toNat_of_nonneg hnn]
      congr 1
      have : ((k.toNat : ℤ) : ℚ) = (k : ℚ) := by rw [Int.toNat_of_nonneg hk0]
      exact_mod_cast this
    have h1 : (num : ℚ) / den * (2 : ℚ) ^ (-(max (lg - 52) (-1074))) ≤
        (k : ℚ) * (2 : ℚ) ^ F * (2 : ℚ) ^ (-(max (lg - 52) (-1074))) :=
      mul_le_mul_of_nonneg_right h hpn.le
    rw [mul_assoc, ← zpow_add₀ (two_ne_zero), ← sub_eq_add_neg, ← hK] at h1
    have h2 := nearest_le_nat _ q _ b3 h1
    have h3 : (q : ℚ) ≤ ((k.toNat * 2 ^ (F - max (lg - 52) (-1074)).toNat : ℕ) : ℚ) := by
      exact_mod_cast h2
    rw [hK] at h3
    have h4 : (2 : ℚ) ^ F = (2 : ℚ) ^ (F - max (lg - 52) (-1074)) *
        (2 : ℚ) ^ (max (lg - 52) (-1074)) := by
      rw [← zpow_add₀ (two_ne_zero)]
      congr 1
      ring
    have hval : (q : ℚ) * (2 : ℚ) ^ (max (lg - 52) (-1074)) ≤ (k : ℚ) * (2 : ℚ) ^ F := by
      rw [h4, ← mul_assoc]
      exact mul_le_mul_of_nonneg_right h3 hp.le
    rw [b6]
    rcases packDouble_cases q (max (lg - 52) (-1074)) hq (le_max_right _ _) with ⟨_, ho⟩ | ⟨m, e, hr, _, _, _, hv, _, _⟩
    · exfalso
      rcases ho with ho | ⟨ho1, ho2⟩
      · omega
      · have hF971 : F = 971 := by omega
        rw [ho1, hF971] at hval
        have hp9 : (0 : ℚ) < (2 : ℚ) ^ (971 : ℤ) := by positivity
        rw [mul_le_mul_right hp9] at hval
        have h6 : (k : ℚ) < (2 : ℚ) ^ (53 : ℕ) := by exact_mod_cast hk
        have h7 : (q : ℚ) = (2 : ℚ) ^ (53 : ℕ) := by exact_mod_cast ho2
        linarith
    · rw [hr, le_finite_iff, hv]
      exact hval

/-- A fraction that is the value of a double rounds to a finite Number of that value. -/
theorem roundToDouble_exact (k F : ℤ) (num den : ℕ) (hd : 0 < den) (hk0 : 0 ≤ k)
    (hk : k < 2 ^ 53) (hF : -1074 ≤ F) (hF' : F ≤ 971)
    (h : (num : ℚ) / den = (k : ℚ) * (2 : ℚ) ^ F) :
    ∃ m e : ℤ, roundToDouble false num den = .finite m e ∧ 0 ≤ m ∧
      (m : ℚ) * (2 : ℚ) ^ e = (k : ℚ) * (2 : ℚ) ^ F := by
  have hle := roundToDouble_le k F num den hd hk0 hk hF hF' h.le
  have hge := roundToDouble_ge k F num den hd hk0 hk.le hF h.ge
  rcases roundToDouble_range num den hd with hr | ⟨m, e, hr, hm0, _, _⟩
  · rw [hr] at hle
    exact absurd hle (by simp [JSNumber.le])
  · rw [hr, le_finite_iff] at hle hge
    exact ⟨m, e, hr, hm0, le_antisymm hle hge⟩

theorem exactSumAmounts_cons (x : Expense) (l : List Expense) :
    exactSumAmounts (x :: l) = (parseFloat x.amount).toRat + exactSumAmounts l := by
  simp [exactSumAmounts]

/-- While every exact partial sum is the value of a double, no addition rounds: the
running sum is finite and its value is the exact sum. -/
theorem foldl_exact (l : List Expense) (hl : ∀ exp ∈ l, (parseFloat exp.amount).isNonNegative = true)
    (m e : ℤ) (hm : 0 ≤ m)
    (hrep : ∀ n : ℕ, n ≤ l.length → ∃ k F : ℤ, JSNumber.isDouble (.finite k F) = true ∧
      (k : ℚ) * (2 : ℚ) ^ F = (m : ℚ) * (2 : ℚ) ^ e + exactSumAmounts (l.take n)) :
    ∃ m' e' : ℤ,
      l.foldl (fun sum exp => JSNumber.add sum (parseFloat exp.amount)) (.finite m e) =
        .finite m' e' ∧ 0 ≤ m' ∧
      (m' : ℚ) * (2 : ℚ) ^ e' = (m : ℚ) * (2 : ℚ) ^ e + exactSumAmounts l := by
  induction l generalizing m e with
  | nil => exact ⟨m, e, rfl, hm, by simp [exactSumAmounts]⟩
  | cons x l ih =>
    obtain ⟨mx, ex, hx, hmx⟩ :=
      isNonNegative_cases (parseFloat x.amount) (hl x (List.mem_cons_self x l))
    obtain ⟨num, den, hd, hadd, hval⟩ := add_finite_nonneg m e mx ex hm hmx
    obtain ⟨k, F, hdbl, hkF⟩ := hrep 1 (by simp)
    have hsum1 : exactSumAmounts ((x :: l).take 1) = (mx : ℚ) * (2 : ℚ) ^ ex := by
      simp [exactSumAmounts, hx, JSNumber.toRat]
    rw [hsum1] at hkF
    have hx0 : (0 : ℚ) ≤ (mx : ℚ) * (2 : ℚ) ^ ex := by
      have : (0 : ℚ) ≤ (mx : ℚ) := by exact_mod_cast hmx
      positivity
    have hm0 : (0 : ℚ) ≤ (m : ℚ) * (2 : ℚ) ^ e := by
      have : (0 : ℚ) ≤ (m : ℚ) := by exact_mod_cast hm
      positivity
    have hk0 : 0 ≤ k := by
      by_contra hc
      push_neg at hc
      have : (k : ℚ) < 0 := by exact_mod_cast hc
      have hp : (0 : ℚ) < (2 : ℚ) ^ F := by positivity
      have : (k : ℚ) * (2 : ℚ) ^ F < 0 := mul_neg_of_neg_of_pos this hp
      linarith
    simp only [JSNumber.isDouble, Bool.and_eq_true, decide_eq_true_eq] at hdbl
    obtain ⟨⟨hk53, hF1⟩, hF2⟩ := hdbl
    have hk53' : k < 2 ^ 53 := by omega
    obtain ⟨m1, e1, hr, hm1, hv1⟩ :=
      roundToDouble_exact k F num den hd hk0 hk53' hF1 hF2 (by rw [hval, hkF])
    have hstep : JSNumber.add (.finite m e) (parseFloat x.amount) = .finite m1 e1 := by
      rw [← hr, ← hadd, hx]
    rw [List.foldl_cons, hstep]
    obtain ⟨m', e', h1, h2, h3⟩ := ih (fun exp he => hl exp (List.mem_cons_of_mem x he))
      m1 e1 hm1 (by
        intro n hn
        obtain ⟨k', F', hd', hk'⟩ := hrep (n + 1) (by simpa using hn)
        refine ⟨k', F', hd', ?_⟩
        rw [hk', List.take_succ_cons, exactSumAmounts_cons, hx, hv1, hkF]
        simp only [JSNumber.toRat]
        ring)
    refine ⟨m', e', h1, h2, ?_⟩
    rw [h3, exactSumAmounts_cons, hx, hv1, hkF]
    simp only [JSNumber.toRat]
    ring

/-- C20 (counterexample). For the expenses `2^53` and `1` the dashboard shows the total
`$9007199254740992.00`, the value of the rounded sum, while the sum of the amounts is
`9007199254740993`. -/
theorem dashboard_total_rounded_counterexample :
    (updateDashboardStats exampleEnv [largeExpense, unitExpense] exampleState).totalExpenses =
        "$9007199254740992.00" ∧
      (sumAmounts [largeExpense, unitExpense]).toRat = 9007199254740992 ∧
      exactSumAmounts [largeExpense, unitExpense] = 9007199254740993 := by
  have hs : sumAmounts [largeExpense, unitExpense] = .finite (2 ^ 52) 1 := by decide
  refine ⟨by decide, ?_, ?_⟩
  · rw [hs]
    norm_num [JSNumber.toRat]
  · norm_num [exactSumAmounts, largeExpense, unitExpense, bareExpense, JSNumber.toRat, parseFloat]

/-- C20 (amended). `updateDashboardStats` shows as total the two-decimal text of the
amounts added from left to right in double precision, as month total the same rounded sum
over the expenses whose local month and year are the current ones, as count the length of
the list, and as average the total divided by the length, `0` (shown `$0.00`) for the
empty list. When no amount is negative the month total never exceeds the total; and while
every exact partial sum is the value of a double, the total is the exact sum of the
amounts. -/
theorem updateDashboardStats_sums (env : JSEnv) (expenses : List Expense) (st : AppState) :
    (updateDashboardStats env expenses st).totalExpenses =
        "$" ++ toFixed (sumAmounts expenses) 2 ∧
      (updateDashboardStats env expenses st).monthExpenses =
        "$" ++ toFixed (sumAmounts (thisMonthExpenses env expenses)) 2 ∧
      (updateDashboardStats env expenses st).totalTransactions = idText expenses.length ∧
      (expenses ≠ [] → (updateDashboardStats env expenses st).avgExpense =
        "$" ++ toFixed (JSNumber.divNat (sumAmounts expenses) expenses.length) 2) ∧
      (expenses = [] → (updateDashboardStats env expenses st).avgExpense = "$0.00") ∧
      ((∀ exp ∈ expenses, (parseFloat exp.amount).isNonNegative = true) →
        JSNumber.le (sumAmounts (thisMonthExpenses env expenses)) (sumAmounts expenses) =
          true) ∧
      ((∀ exp ∈ expenses, (parseFloat exp.amount).isNonNegative = true) →
        (∀ n : ℕ, n ≤ expenses.length → ∃ k F : ℤ, JSNumber.isDouble (.finite k F) = true ∧
          (k : ℚ) * (2 : ℚ) ^ F = exactSumAmounts (expenses.take n)) →
        ∃ m e : ℤ, sumAmounts expenses = .finite m e ∧
          (sumAmounts expenses).toRat = exactSumAmounts expenses) := by
  refine ⟨rfl, rfl, rfl, ?_, ?_, sumAmounts_month_le env expenses, ?_⟩
  · intro hne
    have hlen : expenses.length > 0 := List.length_pos.2 hne
    simp only [updateDashboardStats, if_pos hlen]
    rfl
  · intro he
    subst he
    rfl
  · intro hl hrep
    obtain ⟨m, e, h1, _, h3⟩ := foldl_exact expenses hl 0 0 (le_refl _) (by
      intro n hn
      obtain ⟨k, F, hd, hk⟩ := hrep n hn
      exact ⟨k, F, hd, by rw [hk]; simp⟩)
    refine ⟨m, e, h1, ?_⟩
    have h1' : sumAmounts expenses = .finite m e := h1
    rw [h1']
    simp only [JSNumber.toRat]
    rw [h3]
    simp

theorem updateDashboardStats_sums_witness :
    (∀ exp ∈ [bareExpense, februaryExpense], (parseFloat exp.amount).isNonNegative = true) ∧
      (∀ n : ℕ, n ≤ [bareExpense, februaryExpense].length →
        ∃ k F : ℤ, JSNumber.isDouble (.finite k F) = true ∧
          (k : ℚ) * (2 : ℚ) ^ F = exactSumAmounts ([bareExpense, februaryExpense].take n)) ∧
      [bareExpense, februaryExpense] ≠ [] ∧
      thisMonthExpenses year2024Env [bareExpense, februaryExpense] = [bareExpense] ∧
      (updateDashboardStats year2024Env [bareExpense, februaryExpense]
        exampleState).totalExpenses = "$15.50" ∧
      (updateDashboardStats year2024Env [bareExpense, februaryExpense]
        exampleState).monthExpenses = "$12.50" ∧
      (updateDashboardStats year2024Env [bareExpense, februaryExpense]
        exampleState).totalTransactions = "2" ∧
      (updateDashboardStats year2024Env [bareExpense, februaryExpense]
        exampleState).avgExpense = "$7.75" ∧
      JSNumber.le (sumAmounts (thisMonthExpenses year2024Env [bareExpense, februaryExpense]))
        (sumAmounts [bareExpense, februaryExpense]) = true ∧
      (sumAmounts [bareExpense, februaryExpense]).toRat =
        exactSumAmounts [bareExpense, februaryExpense] := by
  have hl : ∀ exp ∈ [bareExpense, februaryExpense], (parseFloat exp.amount).isNonNegative = true := by
    decide
  have hrep : ∀ n : ℕ, n ≤ [bareExpense, februaryExpense].length →
      ∃ k F : ℤ, JSNumber.isDouble (.finite k F) = true ∧
        (k : ℚ) * (2 : ℚ) ^ F = exactSumAmounts ([bareExpense, februaryExpense].take n) := by
    intro n hn
    have hn2 : n ≤ 2 := hn
    interval_cases n
    · exact ⟨0, 0, by decide, by simp [exactSumAmounts]⟩
    · exact ⟨25, -1, by decide, by
        norm_num [exactSumAmounts, bareExpense, JSNumber.toRat, parseFloat]⟩
    · exact ⟨31, -1, by decide, by
        norm_num [exactSumAmounts, bareExpense, februaryExpense, JSNumber.toRat, parseFloat]⟩
  have hne : [bareExpense, februaryExpense] ≠ [] := by decide
  obtain ⟨_, _, _, _, _, h6, h7⟩ :=
    updateDashboardStats_sums year2024Env [bareExpense, februaryExpense] exampleState
  obtain ⟨m, e, _, h8⟩ := h7 hl hrep
  refine ⟨hl, hrep, hne, by decide, by decide, by decide, by decide, by decide, h6 hl, h8⟩
